import Mathlib

/-!
# MGFN-18R linear cryptanalysis: master-key recovery and nibble selection

A shallow embedding of `recover_masterkey.c` and of the selection logic of
`MGFN_18R_LC.c`.  Machine words are natural numbers; every operation that can
overflow in C is followed by an explicit reduction modulo the word size.
-/

namespace MGFN

/-! ## Local helpers of `recover_masterkey.c` -/

/-- The table `S` local to `sub4`. -/
def S_tbl : List Nat :=
  [0x7, 0xE, 0xF, 0x0, 0xD, 0xB, 0x8, 0x1,
   0x9, 0x3, 0x4, 0xC, 0x2, 0x5, 0xA, 0x6]

/-- The table `IS` local to `inv4`. -/
def IS_tbl : List Nat :=
  [0x3, 0x7, 0xC, 0x9, 0xA, 0xD, 0xF, 0x0,
   0x6, 0x8, 0xE, 0x5, 0xB, 0x4, 0x1, 0x2]

/-- `sub4`: `return S[x & 0xF];` -/
def sub4 (x : Nat) : Nat := S_tbl.getD (x &&& 0xF) 0

/-- `inv4`: `return IS[x & 0xF];` -/
def inv4 (x : Nat) : Nat := IS_tbl.getD (x &&& 0xF) 0

/-- `rotl61` on the register `(hi, lo)`; left shifts are reduced modulo `2^64`. -/
def rotl61 (s : Nat × Nat) : Nat × Nat :=
  let h := s.1
  let l := s.2
  (((h <<< 61) % 2 ^ 64) ||| (l >>> 3), ((l <<< 61) % 2 ^ 64) ||| (h >>> 3))

/-- `rotl67` on the register `(hi, lo)`; left shifts are reduced modulo `2^64`. -/
def rotl67 (s : Nat × Nat) : Nat × Nat :=
  let h := s.1
  let l := s.2
  (((l <<< 3) % 2 ^ 64) ||| (h >>> 61), ((h <<< 3) % 2 ^ 64) ||| (l >>> 61))

/-- The statement `mkh = (mkh & ~3ULL) | ((mkh & 3ULL) ^ up);` followed by
`mkl = (mkl & ~(3ULL << 62)) | ((((mkl >> 62) & 3ULL) ^ dn) << 62);`
with `rc = r`, `up = (rc >> 2) & 3`, `dn = rc & 3`. -/
def undo_round_constant (r : Nat) (s : Nat × Nat) : Nat × Nat :=
  let rc := r % 256
  let up := (rc >>> 2) &&& 3
  let dn := rc &&& 3
  let mkh := (s.1 &&& 0xFFFFFFFFFFFFFFFC) ||| ((s.1 &&& 3) ^^^ up)
  let mkl := (s.2 &&& 0x3FFFFFFFFFFFFFFF) ||| (((((s.2 >>> 62) &&& 3) ^^^ dn) <<< 62) % 2 ^ 64)
  (mkh, mkl)

/-- The block "undo S-box on top byte" of `unpermute_key`. -/
def undo_sbox_top_byte (s : Nat × Nat) : Nat × Nat :=
  let mkh := s.1
  let sb := (mkh >>> 56) &&& 0xFF
  let n0 := (sb >>> 4) &&& 0xF
  let n1 := sb &&& 0xF
  let o0 := inv4 n0
  let o1 := inv4 n1
  let mkh := mkh &&& 0x00FFFFFFFFFFFFFF
  let mkh := mkh ||| (((o0 <<< 60) % 2 ^ 64) ||| ((o1 <<< 56) % 2 ^ 64))
  (mkh, s.2)

/-- One iteration of the loop of `unpermute_key`, for loop counter `r`. -/
def unpermute_round (r : Nat) (s : Nat × Nat) : Nat × Nat :=
  rotl67 (undo_sbox_top_byte (undo_round_constant r s))

/-- The loop `for (int r = 10; r > 0; --r)` of `unpermute_key`, started at
counter value `r`. -/
def unpermute_loop : Nat → Nat × Nat → Nat × Nat
  | 0, s => s
  | r + 1, s => unpermute_loop r (unpermute_round (r + 1) s)

/-- `unpermute_key(mkh, mkl, &out_h, &out_l)`, returning `(out_h, out_l)`. -/
def unpermute_key (mkh mkl : Nat) : Nat × Nat :=
  unpermute_loop 10 (rotl61 (mkh, mkl))

/-! ## The forward key-schedule permutation -/

/-- Modelled from the spec: the S-box step of round `r` of the key schedule
(the body of `key_schedule` is not part of the sources): the high and the low
nibble of the top byte of `hi` are each replaced by their image under `S`. -/
def sbox_top_byte (s : Nat × Nat) : Nat × Nat :=
  let hi := s.1
  let n0 := (hi >>> 60) &&& 0xF
  let n1 := (hi >>> 56) &&& 0xF
  ((hi &&& 0x00FFFFFFFFFFFFFF) ||| (((sub4 n0 <<< 60) % 2 ^ 64) ||| ((sub4 n1 <<< 56) % 2 ^ 64)), s.2)

/-- Modelled from the spec: the round-constant step of round `r` of the key
schedule (the body of `key_schedule` is not part of the sources):
`(r >> 2) & 3` is XORed into the low 2 bits of `hi` and `r & 3` into the top
2 bits of `lo`. -/
def add_round_constant (r : Nat) (s : Nat × Nat) : Nat × Nat :=
  (s.1 ^^^ ((r >>> 2) &&& 3), s.2 ^^^ (((r &&& 3) <<< 62) % 2 ^ 64))

/-- Modelled from the spec: round `r` of the forward key schedule (the body of
`key_schedule` is not part of the sources): rotate right by 67 bits (the map
`rotl61`), substitute the top byte of `hi`, add the round constant. -/
def permute_round (r : Nat) (s : Nat × Nat) : Nat × Nat :=
  add_round_constant r (sbox_top_byte (rotl61 s))

/-- Modelled from the spec: rounds `1..n` of the forward key schedule, in
order (the body of `key_schedule` is not part of the sources). -/
def permute_loop : Nat → Nat × Nat → Nat × Nat
  | 0, s => s
  | r + 1, s => permute_round (r + 1) (permute_loop r s)

/-- Modelled from the spec: the forward permutation of the key schedule (the
body of `key_schedule` is not part of the sources): rounds `1..10`, then a
rotation right by 61 bits (the map `rotl67`). -/
def permute_key (hi lo : Nat) : Nat × Nat :=
  rotl67 (permute_loop 10 (hi, lo))

/-! ## Search context and candidate verification (`recover_masterkey.c`) -/

/-- `Pair` of `MGFN_18R.h`: a 64-bit plaintext and its ciphertext. -/
structure Pair where
  plaintext : Nat
  ciphertext : Nat
deriving DecidableEq

/-- The file-scope variables of `recover_masterkey.c`.  `g_pairs` is the
array of two pairs, `g_found_key` the array of 16 bytes. -/
structure Globals where
  g_pairs : Pair × Pair
  g_RK16 : Nat
  g_RK17 : Nat
  g_RK18 : Nat
  g_found : Nat
  g_found_key : List Nat

/-- The array `mk` built at the start of `verify_master_key`:
`mk[i] = (uint8_t)(hi >> (56 - 8 * i))` and
`mk[8 + i] = (uint8_t)(lo >> (56 - 8 * i))` for `i = 0..7`. -/
def build_mk (hi lo : Nat) : List Nat :=
  (List.range 8).map (fun i => (hi >>> (56 - 8 * i)) % 256) ++
  (List.range 8).map (fun i => (lo >>> (56 - 8 * i)) % 256)

section Search

variable {KS : Type} (key_schedule : List Nat → KS) (encrypt : Nat → KS → Nat)

/-- `verify_master_key(hi, lo)`: the returned `int` and the file-scope
variables after the call.  `key_schedule` and `encrypt` are the functions
declared in `MGFN_18R.h`, taken as parameters. -/
def verify_master_key (st : Globals) (hi lo : Nat) : Nat × Globals :=
  let mk := build_mk hi lo
  let ks := key_schedule mk
  let ct := encrypt st.g_pairs.1.plaintext ks
  if ct ≠ st.g_pairs.1.ciphertext then (0, st)
  else
    let ct := encrypt st.g_pairs.2.plaintext ks
    if ct ≠ st.g_pairs.2.ciphertext then (0, st)
    else (1, { st with g_found_key := mk })

end Search

/-! ## Template expansion of `search_one` -/

/-- The macro `XOR1(x,off)`: `((x) ^ ((RK18>>(off))&1))`. -/
def XOR1 (RK18 x off : Nat) : Nat := x ^^^ ((RK18 >>> off) &&& 1)

/-- The macro `XOR2(x,off)`: `((x) ^ ((RK16>>(off))&1))`. -/
def XOR2 (RK16 x off : Nat) : Nat := x ^^^ ((RK16 >>> off) &&& 1)

/-- The macro `SET_H(pos,val)`: `tmpl_hi |= (uint64_t)(val) << (pos)`. -/
def SET_H (tmpl_hi pos val : Nat) : Nat := tmpl_hi ||| ((val <<< pos) % 2 ^ 64)

/-- The macro `SET_L(pos,val)`: `tmpl_lo |= (uint64_t)(val) << (pos)`. -/
def SET_L (tmpl_lo pos val : Nat) : Nat := tmpl_lo ||| ((val <<< pos) % 2 ^ 64)

/-- The local `a` of `search_one`:
`inv4(((MK62 << 3) | (MK61 << 2) | (MK60 << 1) | MK59)) ^ 0x8 ^ ((RK16 >> 1) & 0xF)`.
Every operand is below 16, so the conversion to `uint8_t` changes nothing. -/
def search_one_a (in_bits RK16 : Nat) : Nat :=
  let MK62 := (in_bits >>> 3) &&& 1
  let MK61 := (in_bits >>> 2) &&& 1
  let MK60 := (in_bits >>> 1) &&& 1
  let MK59 := in_bits &&& 1
  (inv4 ((((MK62 <<< 3) ||| (MK61 <<< 2)) ||| (MK60 <<< 1)) ||| MK59) ^^^ 0x8)
    ^^^ ((RK16 >>> 1) &&& 0xF)

/-- The local `b` of `search_one`:
`inv4((((a & 3) << 2) | (MK64 << 1) | MK63)) ^ 0x4 ^ ((RK16 >> 5) & 0xF)`. -/
def search_one_b (in_bits RK16 : Nat) : Nat :=
  let MK64 := (in_bits >>> 5) &&& 1
  let MK63 := (in_bits >>> 4) &&& 1
  let a := search_one_a in_bits RK16
  (inv4 ((((a &&& 3) <<< 2) ||| (MK64 <<< 1)) ||| MK63) ^^^ 0x4)
    ^^^ ((RK16 >>> 5) &&& 0xF)

/-- The "fixed bit expansion" and "template hi / lo" blocks of `search_one`:
the pair `(tmpl_hi, tmpl_lo)`.  All `MK` locals are `uint8_t` holding 0 or 1. -/
def search_one_template (in_bits RK16 RK18 : Nat) : Nat × Nat :=
  let MK64 := (in_bits >>> 5) &&& 1
  let MK63 := (in_bits >>> 4) &&& 1
  let MK62 := (in_bits >>> 3) &&& 1
  let MK61 := (in_bits >>> 2) &&& 1
  let MK60 := (in_bits >>> 1) &&& 1
  let MK59 := in_bits &&& 1
  let a := search_one_a in_bits RK16
  let b := search_one_b in_bits RK16
  let MK68 := (a >>> 3) &&& 1
  let MK67 := (a >>> 2) &&& 1
  let MK66 := (a >>> 1) &&& 1
  let MK65 := a &&& 1
  let MK72 := (b >>> 3) &&& 1
  let MK71 := (b >>> 2) &&& 1
  let MK70 := (b >>> 1) &&& 1
  let MK69 := b &&& 1
  let MK125 := XOR1 RK18 MK64 0
  let MK126 := XOR1 RK18 MK65 1
  let MK127 := XOR1 RK18 MK66 2
  let MK0 := XOR1 RK18 MK67 3
  let MK1 := XOR1 RK18 MK68 4
  let MK2 := (XOR1 RK18 MK69 5) ^^^ 1
  let MK3 := XOR1 RK18 MK70 6
  let MK4 := (XOR1 RK18 MK71 7) ^^^ 1
  let MK5 := XOR1 RK18 MK72 8
  let MK58 := XOR2 RK16 MK64 0
  let MK73 := XOR2 RK16 MK67 9
  let MK74 := XOR2 RK16 MK68 10
  let MK75 := XOR2 RK16 MK69 11
  let MK76 := XOR2 RK16 MK70 12
  let MK77 := XOR2 RK16 MK71 13
  let MK78 := XOR2 RK16 MK72 14
  let MK6 := XOR1 RK18 MK73 9
  let MK7 := XOR1 RK18 MK74 10
  let MK8 := XOR1 RK18 MK75 11
  let MK9 := XOR1 RK18 MK76 12
  let MK10 := XOR1 RK18 MK77 13
  let MK11 := XOR1 RK18 MK78 14
  let MK79 := XOR2 RK16 MK73 15
  let MK80 := XOR2 RK16 MK74 16
  let MK81 := XOR2 RK16 MK75 17
  let MK82 := XOR2 RK16 MK76 18
  let MK83 := XOR2 RK16 MK77 19
  let MK84 := XOR2 RK16 MK78 20
  let MK12 := XOR1 RK18 MK79 15
  let MK13 := XOR1 RK18 MK80 16
  let MK14 := XOR1 RK18 MK81 17
  let MK15 := XOR1 RK18 MK82 18
  let MK16_ := XOR1 RK18 MK83 19
  let MK17 := XOR1 RK18 MK84 20
  let MK85 := XOR2 RK16 MK79 21
  let MK86 := XOR2 RK16 MK80 22
  let MK87 := XOR2 RK16 MK81 23
  let MK88 := XOR2 RK16 MK82 24
  let MK89 := XOR2 RK16 MK83 25
  let MK90 := XOR2 RK16 MK84 26
  let MK18 := XOR1 RK18 MK85 21
  let MK19 := XOR1 RK18 MK86 22
  let MK20 := XOR1 RK18 MK87 23
  let MK21 := XOR1 RK18 MK88 24
  let MK22 := XOR1 RK18 MK89 25
  let MK23 := XOR1 RK18 MK90 26
  let MK91 := XOR2 RK16 MK85 27
  let MK92 := XOR2 RK16 MK86 28
  let MK93 := XOR2 RK16 MK87 29
  let MK94 := XOR2 RK16 MK88 30
  let MK95 := XOR2 RK16 MK89 31
  let MK24 := XOR1 RK18 MK91 27
  let MK25 := XOR1 RK18 MK92 28
  let MK26 := XOR1 RK18 MK93 29
  let MK27 := XOR1 RK18 MK94 30
  let MK28 := XOR1 RK18 MK95 31
  let tmpl_hi := 0
  let tmpl_lo := 0
  let tmpl_hi := SET_H tmpl_hi 0 MK64
  let tmpl_hi := SET_H tmpl_hi 1 MK65
  let tmpl_hi := SET_H tmpl_hi 2 MK66
  let tmpl_hi := SET_H tmpl_hi 3 MK67
  let tmpl_hi := SET_H tmpl_hi 4 MK68
  let tmpl_hi := SET_H tmpl_hi 5 MK69
  let tmpl_hi := SET_H tmpl_hi 6 MK70
  let tmpl_hi := SET_H tmpl_hi 7 MK71
  let tmpl_hi := SET_H tmpl_hi 8 MK72
  let tmpl_hi := SET_H tmpl_hi 9 MK73
  let tmpl_hi := SET_H tmpl_hi 10 MK74
  let tmpl_hi := SET_H tmpl_hi 11 MK75
  let tmpl_hi := SET_H tmpl_hi 12 MK76
  let tmpl_hi := SET_H tmpl_hi 13 MK77
  let tmpl_hi := SET_H tmpl_hi 14 MK78
  let tmpl_hi := SET_H tmpl_hi 15 MK79
  let tmpl_hi := SET_H tmpl_hi 16 MK80
  let tmpl_hi := SET_H tmpl_hi 17 MK81
  let tmpl_hi := SET_H tmpl_hi 18 MK82
  let tmpl_hi := SET_H tmpl_hi 19 MK83
  let tmpl_hi := SET_H tmpl_hi 20 MK84
  let tmpl_hi := SET_H tmpl_hi 21 MK85
  let tmpl_hi := SET_H tmpl_hi 22 MK86
  let tmpl_hi := SET_H tmpl_hi 23 MK87
  let tmpl_hi := SET_H tmpl_hi 24 MK88
  let tmpl_hi := SET_H tmpl_hi 25 MK89
  let tmpl_hi := SET_H tmpl_hi 26 MK90
  let tmpl_hi := SET_H tmpl_hi 27 MK91
  let tmpl_hi := SET_H tmpl_hi 28 MK92
  let tmpl_hi := SET_H tmpl_hi 29 MK93
  let tmpl_hi := SET_H tmpl_hi 30 MK94
  let tmpl_hi := SET_H tmpl_hi 31 MK95
  let tmpl_hi := SET_H tmpl_hi 61 MK125
  let tmpl_hi := SET_H tmpl_hi 62 MK126
  let tmpl_hi := SET_H tmpl_hi 63 MK127
  let tmpl_lo := SET_L tmpl_lo 0 MK0
  let tmpl_lo := SET_L tmpl_lo 1 MK1
  let tmpl_lo := SET_L tmpl_lo 2 MK2
  let tmpl_lo := SET_L tmpl_lo 3 MK3
  let tmpl_lo := SET_L tmpl_lo 4 MK4
  let tmpl_lo := SET_L tmpl_lo 5 MK5
  let tmpl_lo := SET_L tmpl_lo 6 MK6
  let tmpl_lo := SET_L tmpl_lo 7 MK7
  let tmpl_lo := SET_L tmpl_lo 8 MK8
  let tmpl_lo := SET_L tmpl_lo 9 MK9
  let tmpl_lo := SET_L tmpl_lo 10 MK10
  let tmpl_lo := SET_L tmpl_lo 11 MK11
  let tmpl_lo := SET_L tmpl_lo 12 MK12
  let tmpl_lo := SET_L tmpl_lo 13 MK13
  let tmpl_lo := SET_L tmpl_lo 14 MK14
  let tmpl_lo := SET_L tmpl_lo 15 MK15
  let tmpl_lo := SET_L tmpl_lo 16 MK16_
  let tmpl_lo := SET_L tmpl_lo 17 MK17
  let tmpl_lo := SET_L tmpl_lo 18 MK18
  let tmpl_lo := SET_L tmpl_lo 19 MK19
  let tmpl_lo := SET_L tmpl_lo 20 MK20
  let tmpl_lo := SET_L tmpl_lo 21 MK21
  let tmpl_lo := SET_L tmpl_lo 22 MK22
  let tmpl_lo := SET_L tmpl_lo 23 MK23
  let tmpl_lo := SET_L tmpl_lo 24 MK24
  let tmpl_lo := SET_L tmpl_lo 25 MK25
  let tmpl_lo := SET_L tmpl_lo 26 MK26
  let tmpl_lo := SET_L tmpl_lo 27 MK27
  let tmpl_lo := SET_L tmpl_lo 28 MK28
  let tmpl_lo := SET_L tmpl_lo 58 MK58
  let tmpl_lo := SET_L tmpl_lo 59 MK59
  let tmpl_lo := SET_L tmpl_lo 60 MK60
  let tmpl_lo := SET_L tmpl_lo 61 MK61
  let tmpl_lo := SET_L tmpl_lo 62 MK62
  let tmpl_lo := SET_L tmpl_lo 63 MK63
  (tmpl_hi, tmpl_lo)

/-! ## Inner loop of `search_one` and the public entry point -/

/-- The candidate `(hi, lo)` materialised in iteration `i` of the inner loop:
`hi = tmpl_hi | ((uint64_t)(i ^ (RK17 & 0x1FFFFFFF)) << 32)` and
`lo = tmpl_lo | ((uint64_t)i << 29)`. -/
def search_one_candidate (tmpl : Nat × Nat) (RK17 i : Nat) : Nat × Nat :=
  (tmpl.1 ||| (((i ^^^ (RK17 &&& 0x1FFFFFFF)) <<< 32) % 2 ^ 64),
   tmpl.2 ||| ((i <<< 29) % 2 ^ 64))

section Search

variable {KS : Type} (key_schedule : List Nat → KS) (encrypt : Nat → KS → Nat)

/-- The body of the inner loop of `search_one` for loop index `i`, executed
sequentially: skip when `g_found` is set, otherwise materialise the
candidate, undo the key-schedule permutation, verify, and set `g_found` on a
match. -/
def search_one_body (tmpl : Nat × Nat) (RK17 i : Nat) (st : Globals) : Globals :=
  if st.g_found ≠ 0 then st
  else
    let c := search_one_candidate tmpl RK17 i
    let r := unpermute_key c.1 c.2
    let v := verify_master_key key_schedule encrypt st r.1 r.2
    if v.1 ≠ 0 then { v.2 with g_found := 1 } else v.2

/-- The loop `for (i = 0; i < (1U << 29); ++i)` of `search_one`, run
sequentially: `n` iterations remain and the next index is `i`. -/
def search_one_loop (tmpl : Nat × Nat) (RK17 : Nat) : Nat → Nat → Globals → Globals
  | 0, _, st => st
  | n + 1, i, st =>
      search_one_loop tmpl RK17 n (i + 1) (search_one_body key_schedule encrypt tmpl RK17 i st)

/-- `search_one(in_bits, RK16, RK17, RK18)`: template expansion followed by
the `2^29` inner iterations. -/
def search_one (in_bits RK16 RK17 RK18 : Nat) (st : Globals) : Globals :=
  search_one_loop key_schedule encrypt (search_one_template in_bits RK16 RK18) RK17
    (2 ^ 29) 0 st

/-- The loop `for (uint8_t in = 0; in < 64 && !g_found; ++in)` of
`find_master_key`: `n` templates remain and the next one is `in_bits`. -/
def find_master_key_loop (rk16 rk17 rk18 : Nat) : Nat → Nat → Globals → Globals
  | 0, _, st => st
  | n + 1, in_bits, st =>
      if st.g_found ≠ 0 then st
      else
        find_master_key_loop rk16 rk17 rk18 n (in_bits + 1)
          (search_one key_schedule encrypt in_bits rk16 rk17 rk18 st)

/-- The assignments "initialise globals" at the start of `find_master_key`. -/
def init_globals (pairs : Pair × Pair) (rk16 rk17 rk18 : Nat) (st : Globals) : Globals :=
  { st with g_pairs := pairs, g_RK16 := rk16, g_RK17 := rk17, g_RK18 := rk18, g_found := 0 }

/-- `find_master_key(pairs, rk16, rk17, rk18, master_key_out)` started with
file-scope variables `st` and output buffer `master_key_out`: the returned
`int`, the output buffer after the call and the file-scope variables after
the call. -/
def find_master_key (pairs : Pair × Pair) (rk16 rk17 rk18 : Nat)
    (master_key_out : List Nat) (st : Globals) : Nat × List Nat × Globals :=
  let st := init_globals pairs rk16 rk17 rk18 st
  let st := find_master_key_loop key_schedule encrypt rk16 rk17 rk18 64 0 st
  if st.g_found = 0 then (0, master_key_out, st)
  else (1, st.g_found_key, st)

end Search

/-! ## Candidates and the verification predicate -/

section Search

variable {KS : Type} (key_schedule : List Nat → KS) (encrypt : Nat → KS → Nat)

/-- The test of the specification on a 16-byte key: the key schedule built
from it encrypts both stored plaintexts to the stored ciphertexts. -/
@[reducible] def key_matches (pairs : Pair × Pair) (mk : List Nat) : Prop :=
  encrypt pairs.1.plaintext (key_schedule mk) = pairs.1.ciphertext ∧
  encrypt pairs.2.plaintext (key_schedule mk) = pairs.2.ciphertext

end Search

/-- The 16 bytes handed to the key schedule for iteration `i` of a template:
the candidate is materialised, `unpermute_key` is applied, and the result is
packed by `verify_master_key`. -/
def candidate_key (tmpl : Nat × Nat) (RK17 i : Nat) : List Nat :=
  let c := search_one_candidate tmpl RK17 i
  let r := unpermute_key c.1 c.2
  build_mk r.1 r.2

/-- The candidate `(hi, lo)` that `search_one(in_bits, RK16, RK17, RK18)`
materialises in iteration `i` of its inner loop. -/
def candidate (in_bits RK16 RK17 RK18 i : Nat) : Nat × Nat :=
  search_one_candidate (search_one_template in_bits RK16 RK18) RK17 i

/-- A key schedule for instantiating the parameters: it discards the key. -/
def toy_key_schedule : List Nat → Unit := fun _ => ()

/-- A cipher for instantiating the parameters: it returns the plaintext. -/
def toy_encrypt (p : Nat) (_ : Unit) : Nat := p

/-- File-scope variables all zero, as at program start. -/
def globals_zero : Globals := ⟨(⟨0, 0⟩, ⟨0, 0⟩), 0, 0, 0, 0, List.replicate 16 0⟩

/-! ## Selection of the nibble with the largest deviation (`MGFN_18R_LC.c`) -/

/-- `BUFFER_PAIRS`. -/
def BUFFER_PAIRS : Nat := 4096

/-- `MAX_KEYS`. -/
def MAX_KEYS : Nat := 16

/-- `stage_to_pos`: the position written by a stage, `-1` out of range. -/
def stage_to_pos (stage : Int) : Int :=
  if 0 ≤ stage ∧ stage < 8 then
    (([8, 1, 5, 7, 4, 6, 2, 3] : List Int).getD stage.toNat 0)
  else -1

/-- `stage_exp[round][stage]`. -/
def stage_exp (round stage : Nat) : Nat :=
  (([[29, 31, 31, 29, 33, 33, 33, 33],
     [29, 31, 31, 29, 31, 31, 31, 31],
     [27, 29, 29, 27, 29, 29, 29, 29]] : List (List Nat)).getD round []).getD stage 0

/-- One iteration of the loop of `find_max_deviation_index`, on the pair
`(max_diff, best)`. -/
def find_max_deviation_step (bucket : Nat → Nat) (half : Nat) (acc : Nat × Int) (i : Nat) :
    Nat × Int :=
  let diff := if bucket i > half then bucket i - half else half - bucket i
  if diff > acc.1 then (diff, (i : Int)) else acc

/-- `find_max_deviation_index(bucket, used)`; `bucket i` is `bucket[i]`. -/
def find_max_deviation_index (bucket : Nat → Nat) (used : Nat) : Int :=
  let half := used >>> 1
  ((List.range MAX_KEYS).foldl (find_max_deviation_step bucket half) (0, -1)).2

/-- The deviation of counter `k` in the words of the specification:
`bias(k) = |bucket[k] - used/2|`, with the integer quotient `used/2`. -/
def bias_spec (bucket : Nat → Nat) (used k : Nat) : Nat :=
  Int.natAbs ((bucket k : Int) - ((used / 2 : Nat) : Int))

/-- The parity bit `t` computed in the innermost loop of
`linear_attack_recover_keys` for one pair `(P, C)` and candidate `key`, by
round and stage.  `S` is the extern table (`S i` is `S[i]`),
`substitute_with_sbox`, `decrypt_half_one_round` and `decrypt_half_two_round`
are the functions declared in `MGFN_18R.h`, taken as parameters;
`right_keys r p` is `right_keys[r][p]`.  An argument of
`substitute_with_sbox` is converted to `uint8_t`. -/
def parity (S : Nat → Nat) (substitute_with_sbox : Nat → Nat)
    (decrypt_half_one_round : Nat → (Nat → Nat) → Nat)
    (decrypt_half_two_round : Nat → (Nat → Nat) → (Nat → Nat) → Nat)
    (round stage : Nat) (right_keys : Nat → Nat → Nat) (key P C : Nat) : Nat :=
  if round = 0 then
    let rotated_C := ((((C >>> 15) &&& 0xE)) ^^^ ((C >>> 31) &&& 1)) &&& 0xF
    if stage = 0 then
      ((P >>> 48) &&& 1)
        ^^^ ((C >>> 48) &&& 1)
        ^^^ ((C >>> 16) &&& 1)
        ^^^ (S ((rotated_C ^^^ key) &&& 0xF) &&& 1)
    else if stage = 1 then
      ((P >>> 48) &&& 1)
        ^^^ ((C >>> 16) &&& 1)
        ^^^ ((C >>> 50) &&& 1)
        ^^^ ((S ((((C >>> 8) &&& 0xF) ^^^ key) &&& 0xF) >>> 2) &&& 1)
    else if stage = 2 then
      ((P >>> 48) &&& 1)
        ^^^ ((C >>> 16) &&& 1)
        ^^^ ((C >>> 50) &&& 1)
        ^^^ ((C >>> 63) &&& 1)
        ^^^ ((S ((((C >>> 8) &&& 0xF) ^^^ right_keys round 1) &&& 0xF) >>> 2) &&& 1)
        ^^^ (S ((((C >>> 19) &&& 0xF) ^^^ key) &&& 0xF) &&& 1)
    else if stage = 3 then
      ((P >>> 48) &&& 1)
        ^^^ ((C >>> 16) &&& 1)
        ^^^ ((C >>> 49) &&& 1)
        ^^^ ((C >>> 63) &&& 1)
        ^^^ (S ((((C >>> 19) &&& 0xF) ^^^ right_keys round 5) &&& 0xF) &&& 1)
        ^^^ (S ((((C >>> 27) &&& 0xF) ^^^ key) &&& 0xF) &&& 1)
    else if stage = 4 then
      ((P >>> 16) &&& 1)
        ^^^ (((C >>> 18) &&& 1) ^^^ ((C >>> 40) &&& 1) ^^^ ((C >>> 43) &&& 1) ^^^ ((C >>> 48) &&& 1))
        ^^^ (S ((rotated_C ^^^ right_keys round 8) &&& 0xF) &&& 1)
        ^^^ ((S ((((C >>> 8) &&& 0xF) ^^^ right_keys round 1) &&& 0xF) >>> 1) &&& 1)
        ^^^ ((S ((((C >>> 4) &&& 0xF) ^^^ key) &&& 0xF) >>> 1) &&& 1)
    else if stage = 5 then
      ((P >>> 16) &&& 1)
        ^^^ (((C >>> 18) &&& 1) ^^^ ((C >>> 41) &&& 1) ^^^ ((C >>> 43) &&& 1) ^^^ ((C >>> 48) &&& 1))
        ^^^ (S ((rotated_C ^^^ right_keys round 8) &&& 0xF) &&& 1)
        ^^^ ((S ((((C >>> 8) &&& 0xF) ^^^ right_keys round 1) &&& 0xF) >>> 1) &&& 1)
        ^^^ (S ((((C >>> 23) &&& 0xF) ^^^ key) &&& 0xF) &&& 1)
    else if stage = 6 then
      ((P >>> 16) &&& 1)
        ^^^ (((C >>> 17) &&& 1) ^^^ ((C >>> 31) &&& 1) ^^^ ((C >>> 48) &&& 1) ^^^ ((C >>> 51) &&& 1) ^^^ ((C >>> 53) &&& 1) ^^^ ((C >>> 59) &&& 1) ^^^ ((C >>> 61) &&& 1))
        ^^^ (S ((rotated_C ^^^ right_keys round 8) &&& 0xF) &&& 1)
        ^^^ ((S ((rotated_C ^^^ right_keys round 8) &&& 0xF) >>> 3) &&& 1)
        ^^^ ((S ((((C >>> 19) &&& 0xF) ^^^ right_keys round 5) &&& 0xF) >>> 3) &&& 1)
        ^^^ ((S ((((C >>> 4) &&& 0xF) ^^^ right_keys round 4) &&& 0xF) >>> 2) &&& 1)
        ^^^ ((S ((((C >>> 12) &&& 0xF) ^^^ key) &&& 0xF) >>> 1) &&& 1)
    else if stage = 7 then
      ((P >>> 16) &&& 1)
        ^^^ (((C >>> 17) &&& 1) ^^^ ((C >>> 31) &&& 1) ^^^ ((C >>> 48) &&& 1) ^^^ ((C >>> 51) &&& 1) ^^^ ((C >>> 53) &&& 1) ^^^ ((C >>> 60) &&& 1))
        ^^^ (S ((rotated_C ^^^ right_keys round 8) &&& 0xF) &&& 1)
        ^^^ ((S ((((C >>> 19) &&& 0xF) ^^^ right_keys round 5) &&& 0xF) >>> 3) &&& 1)
        ^^^ ((S ((((C >>> 12) &&& 0xF) ^^^ right_keys round 2) &&& 0xF) >>> 1) &&& 1)
        ^^^ ((S (((C &&& 0xF) ^^^ key) &&& 0xF) >>> 3) &&& 1)
    else 0
  else if round = 1 then
    let d1 := decrypt_half_one_round C (right_keys 0)
    if stage = 0 then
      ((d1 >>> 16) &&& 1)
        ^^^ ((P >>> 16) &&& 1)
        ^^^ ((C >>> 16) &&& 1)
        ^^^ (substitute_with_sbox (((((d1 >>> 15) &&& 0xE) ^^^ ((d1 >>> 31) &&& 1)) ^^^ key) % 256) &&& 1)
    else if stage = 1 then
      ((P >>> 16) &&& 1)
        ^^^ ((C >>> 18) &&& 1)
        ^^^ ((d1 >>> 16) &&& 1)
        ^^^ ((substitute_with_sbox ((((d1 >>> 8) &&& 0xF) ^^^ key) % 256) >>> 2) &&& 1)
    else if stage = 2 then
      ((P >>> 16) &&& 1)
        ^^^ ((C >>> 18) &&& 1)
        ^^^ ((C >>> 31) &&& 1)
        ^^^ ((d1 >>> 16) &&& 1)
        ^^^ ((substitute_with_sbox ((((d1 >>> 8) &&& 0xF) ^^^ right_keys round 1) % 256) >>> 2) &&& 1)
        ^^^ (substitute_with_sbox ((((d1 >>> 19) &&& 0xF) ^^^ key) % 256) &&& 1)
    else if stage = 3 then
      ((P >>> 16) &&& 1)
        ^^^ ((C >>> 17) &&& 1)
        ^^^ ((C >>> 31) &&& 1)
        ^^^ ((d1 >>> 16) &&& 1)
        ^^^ (substitute_with_sbox ((((d1 >>> 19) &&& 0xF) ^^^ right_keys round 5) % 256) &&& 1)
        ^^^ (substitute_with_sbox ((((d1 >>> 27) &&& 0xF) ^^^ key) % 256) &&& 1)
    else if stage = 4 then
      ((P >>> 48) &&& 1)
        ^^^ ((P >>> 16) &&& 1)
        ^^^ ((C >>> 8) &&& 1)
        ^^^ ((C >>> 11) &&& 1)
        ^^^ ((C >>> 16) &&& 1)
        ^^^ ((d1 >>> 18) &&& 1)
        ^^^ (substitute_with_sbox (((((d1 >>> 15) &&& 0xE) ^^^ ((d1 >>> 31) &&& 1)) ^^^ right_keys round 8) % 256) &&& 1)
        ^^^ ((substitute_with_sbox ((((d1 >>> 8) &&& 0xF) ^^^ right_keys round 1) % 256) >>> 1) &&& 1)
        ^^^ ((substitute_with_sbox ((((d1 >>> 4) &&& 0xF) ^^^ key) % 256) >>> 1) &&& 1)
    else if stage = 5 then
      ((P >>> 48) &&& 1)
        ^^^ ((P >>> 16) &&& 1)
        ^^^ ((C >>> 9) &&& 1)
        ^^^ ((C >>> 11) &&& 1)
        ^^^ ((C >>> 16) &&& 1)
        ^^^ ((d1 >>> 18) &&& 1)
        ^^^ (substitute_with_sbox (((((d1 >>> 15) &&& 0xE) ^^^ ((d1 >>> 31) &&& 1)) ^^^ right_keys round 8) % 256) &&& 1)
        ^^^ ((substitute_with_sbox ((((d1 >>> 8) &&& 0xF) ^^^ right_keys round 1) % 256) >>> 1) &&& 1)
        ^^^ (substitute_with_sbox ((((d1 >>> 23) &&& 0xF) ^^^ key) % 256) &&& 1)
    else if stage = 6 then
      ((P >>> 48) &&& 1)
        ^^^ ((P >>> 16) &&& 1)
        ^^^ ((C >>> 16) &&& 1)
        ^^^ ((C >>> 19) &&& 1)
        ^^^ ((C >>> 21) &&& 1)
        ^^^ ((C >>> 27) &&& 1)
        ^^^ ((C >>> 29) &&& 1)
        ^^^ ((d1 >>> 17) &&& 1)
        ^^^ ((d1 >>> 31) &&& 1)
        ^^^ (substitute_with_sbox (((((d1 >>> 15) &&& 0xE) ^^^ ((d1 >>> 31) &&& 1)) ^^^ right_keys round 8) % 256) &&& 1)
        ^^^ ((substitute_with_sbox (((((d1 >>> 15) &&& 0xE) ^^^ ((d1 >>> 31) &&& 1)) ^^^ right_keys round 8) % 256) >>> 3) &&& 1)
        ^^^ ((substitute_with_sbox ((((d1 >>> 19) &&& 0xF) ^^^ right_keys round 5) % 256) >>> 3) &&& 1)
        ^^^ ((substitute_with_sbox ((((d1 >>> 4) &&& 0xF) ^^^ right_keys round 4) % 256) >>> 2) &&& 1)
        ^^^ ((substitute_with_sbox ((((d1 >>> 12) &&& 0xF) ^^^ key) % 256) >>> 1) &&& 1)
    else if stage = 7 then
      ((P >>> 48) &&& 1)
        ^^^ ((P >>> 16) &&& 1)
        ^^^ ((C >>> 16) &&& 1)
        ^^^ ((C >>> 19) &&& 1)
        ^^^ ((C >>> 21) &&& 1)
        ^^^ ((C >>> 28) &&& 1)
        ^^^ ((d1 >>> 17) &&& 1)
        ^^^ ((d1 >>> 31) &&& 1)
        ^^^ (substitute_with_sbox (((((d1 >>> 15) &&& 0xE) ^^^ ((d1 >>> 31) &&& 1)) ^^^ right_keys round 8) % 256) &&& 1)
        ^^^ ((substitute_with_sbox ((((d1 >>> 19) &&& 0xF) ^^^ right_keys round 5) % 256) >>> 3) &&& 1)
        ^^^ ((substitute_with_sbox ((((d1 >>> 12) &&& 0xF) ^^^ right_keys round 2) % 256) >>> 1) &&& 1)
        ^^^ ((substitute_with_sbox (((d1 &&& 0xF) ^^^ key) % 256) >>> 3) &&& 1)
    else 0
  else
    let d1 := decrypt_half_one_round C (right_keys 0)
    let d2 := decrypt_half_two_round C (right_keys 0) (right_keys 1)
    if stage = 0 then
      ((P >>> 48) &&& 1)
        ^^^ ((P >>> 16) &&& 1)
        ^^^ ((d1 >>> 16) &&& 1)
        ^^^ ((d2 >>> 16) &&& 1)
        ^^^ (substitute_with_sbox (((((d2 >>> 15) &&& 0xE) ^^^ ((d2 >>> 31) &&& 1)) ^^^ key) % 256) &&& 1)
    else if stage = 1 then
      ((P >>> 48) &&& 1)
        ^^^ ((P >>> 16) &&& 1)
        ^^^ ((d1 >>> 18) &&& 1)
        ^^^ ((d2 >>> 16) &&& 1)
        ^^^ ((substitute_with_sbox ((((d2 >>> 8) &&& 0xF) ^^^ key) % 256) >>> 2) &&& 1)
    else if stage = 2 then
      ((P >>> 48) &&& 1)
        ^^^ ((P >>> 16) &&& 1)
        ^^^ ((d1 >>> 18) &&& 1)
        ^^^ ((d1 >>> 31) &&& 1)
        ^^^ ((d2 >>> 16) &&& 1)
        ^^^ ((substitute_with_sbox ((((d2 >>> 8) &&& 0xF) ^^^ right_keys round 1) % 256) >>> 2) &&& 1)
        ^^^ (substitute_with_sbox ((((d2 >>> 19) &&& 0xF) ^^^ key) % 256) &&& 1)
    else if stage = 3 then
      ((P >>> 48) &&& 1)
        ^^^ ((P >>> 16) &&& 1)
        ^^^ ((d1 >>> 17) &&& 1)
        ^^^ ((d1 >>> 31) &&& 1)
        ^^^ ((d2 >>> 16) &&& 1)
        ^^^ (substitute_with_sbox ((((d2 >>> 19) &&& 0xF) ^^^ right_keys round 5) % 256) &&& 1)
        ^^^ (substitute_with_sbox ((((d2 >>> 27) &&& 0xF) ^^^ key) % 256) &&& 1)
    else if stage = 4 then
      ((P >>> 48) &&& 1)
        ^^^ ((d1 >>> 8) &&& 1)
        ^^^ ((d1 >>> 11) &&& 1)
        ^^^ ((d1 >>> 16) &&& 1)
        ^^^ ((d2 >>> 18) &&& 1)
        ^^^ (substitute_with_sbox (((((d2 >>> 15) &&& 0xE) ^^^ ((d2 >>> 31) &&& 1)) ^^^ right_keys round 8) % 256) &&& 1)
        ^^^ ((substitute_with_sbox ((((d2 >>> 8) &&& 0xF) ^^^ right_keys round 1) % 256) >>> 1) &&& 1)
        ^^^ ((substitute_with_sbox ((((d2 >>> 4) &&& 0xF) ^^^ key) % 256) >>> 1) &&& 1)
    else if stage = 5 then
      ((P >>> 48) &&& 1)
        ^^^ ((d1 >>> 9) &&& 1)
        ^^^ ((d1 >>> 11) &&& 1)
        ^^^ ((d1 >>> 16) &&& 1)
        ^^^ ((d2 >>> 18) &&& 1)
        ^^^ (substitute_with_sbox (((((d2 >>> 15) &&& 0xE) ^^^ ((d2 >>> 31) &&& 1)) ^^^ right_keys round 8) % 256) &&& 1)
        ^^^ ((substitute_with_sbox ((((d2 >>> 8) &&& 0xF) ^^^ right_keys round 1) % 256) >>> 1) &&& 1)
        ^^^ (substitute_with_sbox ((((d2 >>> 23) &&& 0xF) ^^^ key) % 256) &&& 1)
    else if stage = 6 then
      ((P >>> 48) &&& 1)
        ^^^ ((d1 >>> 16) &&& 1)
        ^^^ ((d1 >>> 19) &&& 1)
        ^^^ ((d1 >>> 21) &&& 1)
        ^^^ ((d1 >>> 27) &&& 1)
        ^^^ ((d1 >>> 29) &&& 1)
        ^^^ ((d2 >>> 17) &&& 1)
        ^^^ ((d2 >>> 31) &&& 1)
        ^^^ (substitute_with_sbox (((((d2 >>> 15) &&& 0xE) ^^^ ((d2 >>> 31) &&& 1)) ^^^ right_keys round 8) % 256) &&& 1)
        ^^^ ((substitute_with_sbox (((((d2 >>> 15) &&& 0xE) ^^^ ((d2 >>> 31) &&& 1)) ^^^ right_keys round 8) % 256) >>> 3) &&& 1)
        ^^^ ((substitute_with_sbox ((((d2 >>> 19) &&& 0xF) ^^^ right_keys round 5) % 256) >>> 3) &&& 1)
        ^^^ ((substitute_with_sbox ((((d2 >>> 4) &&& 0xF) ^^^ right_keys round 4) % 256) >>> 2) &&& 1)
        ^^^ ((substitute_with_sbox ((((d2 >>> 12) &&& 0xF) ^^^ key) % 256) >>> 1) &&& 1)
    else if stage = 7 then
      ((P >>> 48) &&& 1)
        ^^^ ((d1 >>> 16) &&& 1)
        ^^^ ((d1 >>> 19) &&& 1)
        ^^^ ((d1 >>> 21) &&& 1)
        ^^^ ((d1 >>> 28) &&& 1)
        ^^^ ((d2 >>> 17) &&& 1)
        ^^^ ((d2 >>> 31) &&& 1)
        ^^^ (substitute_with_sbox (((((d2 >>> 15) &&& 0xE) ^^^ ((d2 >>> 31) &&& 1)) ^^^ right_keys round 8) % 256) &&& 1)
        ^^^ ((substitute_with_sbox ((((d2 >>> 19) &&& 0xF) ^^^ right_keys round 5) % 256) >>> 3) &&& 1)
        ^^^ ((substitute_with_sbox ((((d2 >>> 12) &&& 0xF) ^^^ right_keys round 2) % 256) >>> 1) &&& 1)
        ^^^ ((substitute_with_sbox (((d2 &&& 0xF) ^^^ key) % 256) >>> 3) &&& 1)
    else 0

/-! ## The streaming loop and the commit of a nibble (`linear_attack_recover_keys`) -/

section Analyzer

variable (S : Nat → Nat) (substitute_with_sbox : Nat → Nat)
  (decrypt_half_one_round : Nat → (Nat → Nat) → Nat)
  (decrypt_half_two_round : Nat → (Nat → Nat) → (Nat → Nat) → Nat)

/-- The inner loop `for (size_t i = 0; i < n; ++i)` for one `key_idx`:
`local_sum` after the `n` records of `buffer`, a `uint64_t`. -/
def local_sum (round stage : Nat) (right_keys : Nat → Nat → Nat) (key_idx : Nat)
    (buffer : List Pair) : Nat :=
  buffer.foldl
    (fun sum p =>
      (sum + parity S substitute_with_sbox decrypt_half_one_round decrypt_half_two_round
        round stage right_keys key_idx p.plaintext p.ciphertext) % 2 ^ 64) 0

/-- The loop `for (int key_idx = 0; key_idx < MAX_KEYS; ++key_idx)` over one
buffer, run sequentially: `bucket[key_idx] += local_sum` for every candidate. -/
def accumulate (round stage : Nat) (right_keys : Nat → Nat → Nat) (buffer : List Pair)
    (bucket : Nat → Nat) : Nat → Nat :=
  (List.range MAX_KEYS).foldl
    (fun bkt key_idx => fun k =>
      if k = key_idx then
        (bkt key_idx + local_sum S substitute_with_sbox decrypt_half_one_round
          decrypt_half_two_round round stage right_keys key_idx buffer) % 2 ^ 64
      else bkt k) bucket

set_option linter.unusedVariables false in
/-- The loop `while (used < need)` of one stage.  `fp` is the part of the
dataset not yet read; `fread` returns the next `min(want, remaining)` records.
The result is `(bucket, used)` at loop exit. -/
def stage_loop (round stage : Nat) (right_keys : Nat → Nat → Nat) (need : Nat)
    (fp : List Pair) (bucket : Nat → Nat) (used : Nat) : (Nat → Nat) × Nat :=
  if h : used < need then
    let want := if used + BUFFER_PAIRS > need then need - used else BUFFER_PAIRS
    let buffer := fp.take want
    let n := buffer.length
    if hn : n = 0 then (bucket, used)
    else
      stage_loop round stage right_keys need (fp.drop n)
        (accumulate S substitute_with_sbox decrypt_half_one_round decrypt_half_two_round
          round stage right_keys buffer bucket) (used + n)
  else (bucket, used)
termination_by need - used
decreasing_by
  have hn1 : 0 < n := Nat.pos_of_ne_zero hn
  show need - (used + n) < need - used
  omega

/-- The assignment `A[r][p] = v` on a two-dimensional array. -/
def set2 (A : Nat → Nat → Nat) (r p v : Nat) : Nat → Nat → Nat :=
  fun r1 p1 => if r1 = r ∧ p1 = p then v else A r1 p1

/-- One `(round, stage)` iteration of `linear_attack_recover_keys` on the pair
`(right_keys, rk_nib)`: rewind, zero the bucket, stream, select, commit
`(uint8_t)best` at `stage_to_pos(stage)`. -/
def run_stage (dataset : List Pair) (round stage : Nat)
    (keys : (Nat → Nat → Nat) × (Nat → Nat → Nat)) :
    (Nat → Nat → Nat) × (Nat → Nat → Nat) :=
  let need := (1 <<< stage_exp round stage) % 2 ^ 64
  let r := stage_loop S substitute_with_sbox decrypt_half_one_round decrypt_half_two_round
    round stage keys.1 need dataset (fun _ => 0) 0
  let best := find_max_deviation_index r.1 r.2
  let pos := stage_to_pos stage
  let v := (best % 256).toNat
  (set2 keys.1 round pos.toNat v, set2 keys.2 round pos.toNat v)

/-- `linear_attack_recover_keys(dataset_path, rk_nib, logfp)` on the path
where the dataset file opens and the buffer is allocated: `dataset` is the
content of the file, the argument `rk_nib` the caller's array, and the result
the array `rk_nib` after the call. -/
def linear_attack_recover_keys (dataset : List Pair) (rk_nib : Nat → Nat → Nat) :
    Nat → Nat → Nat :=
  ((List.range 3).foldl
    (fun keys round =>
      (List.range 8).foldl
        (fun keys stage =>
          run_stage S substitute_with_sbox decrypt_half_one_round decrypt_half_two_round
            dataset round stage keys)
        keys)
    ((fun _ _ => 0), rk_nib)).2

end Analyzer

/-! ## Big-endian loading, in the words of the specification -/

/-- The big-endian value of a list of bytes, most significant byte first (the
packing "by big-endian packing of 8 bytes each" of the key schedule). -/
def be_load_spec (bytes : List Nat) : Nat :=
  bytes.foldl (fun acc b => acc * 256 + b) 0

/-- `TARGET_PAIRS`: `((uint64_t)1ULL << 33)`. -/
def TARGET_PAIRS : Nat := (1 <<< 33) % 2 ^ 64

/-- The required number of pairs of a stage, `need = 1ULL << stage_exp[round][stage]`. -/
def stage_need (round stage : Nat) : Nat := (1 <<< stage_exp round stage) % 2 ^ 64

set_option linter.unusedVariables false in
/-- The buffers returned by the successive `fread` calls of the loop
`while (used < need)` of one stage, in order: the same control flow as
`stage_loop`, recording what is read instead of accumulating it. -/
def stage_reads (need : Nat) (fp : List Pair) (used : Nat) : List (List Pair) :=
  if h : used < need then
    let want := if used + BUFFER_PAIRS > need then need - used else BUFFER_PAIRS
    let buffer := fp.take want
    let n := buffer.length
    if hn : n = 0 then []
    else buffer :: stage_reads need (fp.drop n) (used + n)
  else []
termination_by need - used
decreasing_by
  have hn1 : 0 < n := Nat.pos_of_ne_zero hn
  show need - (used + n) < need - used
  omega

section Analyzer

variable (S : Nat → Nat) (substitute_with_sbox : Nat → Nat)
  (decrypt_half_one_round : Nat → (Nat → Nat) → Nat)
  (decrypt_half_two_round : Nat → (Nat → Nat) → (Nat → Nat) → Nat)

/-- The number of pairs of `l` whose parity bit for `(round, stage, k)` is 1,
in the words of the specification. -/
def parity_count (round stage : Nat) (right_keys : Nat → Nat → Nat) (k : Nat)
    (l : List Pair) : Nat :=
  l.countP (fun p =>
    parity S substitute_with_sbox decrypt_half_one_round decrypt_half_two_round
      round stage right_keys k p.plaintext p.ciphertext = 1)

end Analyzer

/-! ## The driver `main` (`MGFN_18R_LC.c`) -/

/-- The demo master key `mkey` of `main`. -/
def mkey : List Nat :=
  [0xB7, 0x45, 0xC5, 0xC6, 0x10, 0x61, 0x98, 0xF3,
   0xCA, 0x4C, 0xD4, 0x5E, 0x2B, 0x9F, 0x91, 0x0F]

/-- The call `fread(two, sizeof(Pair), 2, fp)` on the freshly opened dataset file: the
first two records of the file are stored in `two[0]` and `two[1]`; an element
for which the file has no record keeps its prior value. -/
def read_two (dataset : List Pair) (two : Pair × Pair) : Pair × Pair :=
  (dataset.getD 0 two.1, dataset.getD 1 two.2)

/-- What a run of `main` leaves behind: the value returned, the lines
`" R%d: %08X"` printed in step (3) as pairs of the number printed and the word
printed, whether the line `"[Key] master-key recovery FAILED"` went to the log,
the array `rec` as printed, and the verdict line (`true` for
`"[OK] master_key matched"`, `false` for `"[!] MISMATCH"`, `none` when none is
printed). -/
structure MainResult where
  exit_code : Int
  printed_keys : List (Nat × Nat)
  logged_failure : Bool
  recovered : List Nat
  verdict : Option Bool

section Driver

variable {KS : Type} (key_schedule : List Nat → KS) (encrypt : Nat → KS → Nat)
  (S : Nat → Nat) (substitute_with_sbox : Nat → Nat)
  (decrypt_half_one_round : Nat → (Nat → Nat) → Nat)
  (decrypt_half_two_round : Nat → (Nat → Nat) → (Nat → Nat) → Nat)
  (convert_key_array_to_uint32 : (Nat → Nat) → Nat)

/-- The array `rk_nib` of `main` after step (2): initialised to zero and
handed to `linear_attack_recover_keys`. -/
def main_rk_nib (dataset : List Pair) : Nat → Nat → Nat :=
  linear_attack_recover_keys S substitute_with_sbox decrypt_half_one_round
    decrypt_half_two_round dataset (fun _ _ => 0)

/-- The array `rk32` of `main` after step (3):
`rk32[r] = convert_key_array_to_uint32(rk_nib[r])`, a `uint32_t`.
`convert_key_array_to_uint32` is the function declared in `MGFN_18R.h`, taken
as a parameter. -/
def main_rk32 (dataset : List Pair) (r : Nat) : Nat :=
  convert_key_array_to_uint32
    (main_rk_nib S substitute_with_sbox decrypt_half_one_round decrypt_half_two_round
      dataset r) % 2 ^ 32

/-- The call `find_master_key(two, rk32[2], rk32[1], rk32[0], rec)` of step
(4) of `main`, after `fread(two, sizeof(Pair), 2, fp)`: the returned `int`, the
array `rec` after the call and the file-scope variables after the call.  The
file-scope variables of `recover_masterkey.c` are zero at program start. -/
def main_find (dataset : List Pair) (two : Pair × Pair) (rec : List Nat) :
    Nat × List Nat × Globals :=
  find_master_key key_schedule encrypt (read_two dataset two)
    (main_rk32 S substitute_with_sbox decrypt_half_one_round decrypt_half_two_round
      convert_key_array_to_uint32 dataset 2)
    (main_rk32 S substitute_with_sbox decrypt_half_one_round decrypt_half_two_round
      convert_key_array_to_uint32 dataset 1)
    (main_rk32 S substitute_with_sbox decrypt_half_one_round decrypt_half_two_round
      convert_key_array_to_uint32 dataset 0)
    rec globals_zero

/-- The function `main()`.  `log_ok` says whether `fopen(LOG_FILE, "a")`
succeeds, `dataset` is the content of the file `DATA_BIN` after
`generate_dataset`, on the path where this file opens for reading, `two` and
`rec` are the prior contents of the local arrays of these names. -/
def main (log_ok : Bool) (dataset : List Pair) (two : Pair × Pair) (rec : List Nat) :
    MainResult :=
  if log_ok = false then
    { exit_code := 1, printed_keys := [], logged_failure := false, recovered := rec,
      verdict := none }
  else
    { exit_code := 0,
      printed_keys := (List.range 3).map (fun r =>
        (18 - r, main_rk32 S substitute_with_sbox decrypt_half_one_round
          decrypt_half_two_round convert_key_array_to_uint32 dataset r)),
      logged_failure :=
        decide ((main_find key_schedule encrypt S substitute_with_sbox decrypt_half_one_round
          decrypt_half_two_round convert_key_array_to_uint32 dataset two rec).1 = 0),
      recovered :=
        (main_find key_schedule encrypt S substitute_with_sbox decrypt_half_one_round
          decrypt_half_two_round convert_key_array_to_uint32 dataset two rec).2.1,
      verdict :=
        some (decide (mkey =
          (main_find key_schedule encrypt S substitute_with_sbox decrypt_half_one_round
            decrypt_half_two_round convert_key_array_to_uint32 dataset two rec).2.1)) }

end Driver

/-! ## Accesses to the shared search context in one inner iteration -/

/-- An access of an inner iteration of `search_one` to a file-scope variable
that is written during the search. -/
inductive Access where
  | read_g_found : Access
  | write_g_found_key : List Nat → Access
  | write_g_found : Access
deriving DecidableEq

/-- An access, with whether it is executed inside the block of the pragma
`omp critical`. -/
structure Event where
  access : Access
  in_critical : Bool
deriving DecidableEq

/-- The effect of an access on the file-scope variables. -/
def apply_event (st : Globals) (e : Event) : Globals :=
  match e.access with
  | Access.read_g_found => st
  | Access.write_g_found_key mk => { st with g_found_key := mk }
  | Access.write_g_found => { st with g_found := 1 }

section Search

variable {KS : Type} (key_schedule : List Nat → KS) (encrypt : Nat → KS → Nat)

/-- The accesses made by `verify_master_key(hi, lo)`, in program order, when
the call is executed with `crit` telling whether the caller is inside a
critical block: the `memcpy(g_found_key, mk, 16)` on a double match, and
nothing otherwise. -/
def verify_master_key_events (st : Globals) (hi lo : Nat) (crit : Bool) : List Event :=
  let mk := build_mk hi lo
  let ks := key_schedule mk
  let ct := encrypt st.g_pairs.1.plaintext ks
  if ct ≠ st.g_pairs.1.ciphertext then []
  else
    let ct := encrypt st.g_pairs.2.plaintext ks
    if ct ≠ st.g_pairs.2.ciphertext then []
    else [⟨Access.write_g_found_key mk, crit⟩]

/-- The accesses of the body of the inner loop of `search_one` for index `i`,
in program order: the test `if (g_found) continue;`, then the call
`verify_master_key(rh, rl)`, which stands before the critical block, then the
assignment `g_found = 1`, which is the whole of the critical block. -/
def search_one_body_events (tmpl : Nat × Nat) (RK17 i : Nat) (st : Globals) : List Event :=
  ⟨Access.read_g_found, false⟩ ::
    (if st.g_found ≠ 0 then []
     else
       let c := search_one_candidate tmpl RK17 i
       let r := unpermute_key c.1 c.2
       let v := verify_master_key key_schedule encrypt st r.1 r.2
       verify_master_key_events key_schedule encrypt st r.1 r.2 false ++
         (if v.1 ≠ 0 then [⟨Access.write_g_found, true⟩] else []))

end Search

/-! ## Bit-level helper lemmas -/

theorem eq_of_testBit_lt {n x y : Nat} (hx : x < 2 ^ n) (hy : y < 2 ^ n)
    (h : ∀ j, j < n → x.testBit j = y.testBit j) : x = y := by
  apply Nat.eq_of_testBit_eq
  intro j
  by_cases hj : j < n
  · exact h j hj
  · have hp : 2 ^ n ≤ 2 ^ j := Nat.pow_le_pow_right (by decide) (by omega)
    rw [Nat.testBit_lt_two_pow (lt_of_lt_of_le hx hp),
      Nat.testBit_lt_two_pow (lt_of_lt_of_le hy hp)]

theorem shr_lt {n x : Nat} (k : Nat) (hx : x < 2 ^ n) : x >>> k < 2 ^ n := by
  rw [Nat.shiftRight_eq_div_pow]
  exact lt_of_le_of_lt (Nat.div_le_self _ _) hx

theorem and_lt_left {n x : Nat} (y : Nat) (hx : x < 2 ^ n) : x &&& y < 2 ^ n :=
  lt_of_le_of_lt Nat.and_le_left hx

theorem and_lt_right {n y : Nat} (x : Nat) (hy : y < 2 ^ n) : x &&& y < 2 ^ n :=
  lt_of_le_of_lt Nat.and_le_right hy

/-! ## The two rotations -/

theorem rotl67_rotl61_mod (h l : Nat) :
    rotl67 (rotl61 (h % 2 ^ 64, l % 2 ^ 64)) = (h % 2 ^ 64, l % 2 ^ 64) := by
  simp only [rotl67, rotl61]
  refine Prod.ext ?_ ?_
  · refine eq_of_testBit_lt (n := 64) ?_ (Nat.mod_lt _ (by decide)) ?_
    · repeat (first | exact Nat.mod_lt _ (by decide) | apply Nat.or_lt_two_pow | apply shr_lt)
    · intro j hj
      interval_cases j <;>
        simp only [Nat.testBit_or, Nat.testBit_shiftLeft, Nat.testBit_shiftRight,
          Nat.testBit_mod_two_pow] <;> simp
  · refine eq_of_testBit_lt (n := 64) ?_ (Nat.mod_lt _ (by decide)) ?_
    · repeat (first | exact Nat.mod_lt _ (by decide) | apply Nat.or_lt_two_pow | apply shr_lt)
    · intro j hj
      interval_cases j <;>
        simp only [Nat.testBit_or, Nat.testBit_shiftLeft, Nat.testBit_shiftRight,
          Nat.testBit_mod_two_pow] <;> simp

theorem rotl61_rotl67_mod (h l : Nat) :
    rotl61 (rotl67 (h % 2 ^ 64, l % 2 ^ 64)) = (h % 2 ^ 64, l % 2 ^ 64) := by
  simp only [rotl67, rotl61]
  refine Prod.ext ?_ ?_
  · refine eq_of_testBit_lt (n := 64) ?_ (Nat.mod_lt _ (by decide)) ?_
    · repeat (first | exact Nat.mod_lt _ (by decide) | apply Nat.or_lt_two_pow | apply shr_lt)
    · intro j hj
      interval_cases j <;>
        simp only [Nat.testBit_or, Nat.testBit_shiftLeft, Nat.testBit_shiftRight,
          Nat.testBit_mod_two_pow] <;> simp
  · refine eq_of_testBit_lt (n := 64) ?_ (Nat.mod_lt _ (by decide)) ?_
    · repeat (first | exact Nat.mod_lt _ (by decide) | apply Nat.or_lt_two_pow | apply shr_lt)
    · intro j hj
      interval_cases j <;>
        simp only [Nat.testBit_or, Nat.testBit_shiftLeft, Nat.testBit_shiftRight,
          Nat.testBit_mod_two_pow] <;> simp

theorem rotl67_rotl61_id (s : Nat × Nat) (h1 : s.1 < 2 ^ 64) (h2 : s.2 < 2 ^ 64) :
    rotl67 (rotl61 s) = s := by
  have key := rotl67_rotl61_mod s.1 s.2
  rwa [Nat.mod_eq_of_lt h1, Nat.mod_eq_of_lt h2] at key

theorem rotl61_rotl67_id (s : Nat × Nat) (h1 : s.1 < 2 ^ 64) (h2 : s.2 < 2 ^ 64) :
    rotl61 (rotl67 s) = s := by
  have key := rotl61_rotl67_mod s.1 s.2
  rwa [Nat.mod_eq_of_lt h1, Nat.mod_eq_of_lt h2] at key

theorem rotl61_lt (s : Nat × Nat) (h1 : s.1 < 2 ^ 64) (h2 : s.2 < 2 ^ 64) :
    (rotl61 s).1 < 2 ^ 64 ∧ (rotl61 s).2 < 2 ^ 64 :=
  ⟨Nat.or_lt_two_pow (Nat.mod_lt _ (by decide)) (shr_lt _ h2),
   Nat.or_lt_two_pow (Nat.mod_lt _ (by decide)) (shr_lt _ h1)⟩

theorem rotl67_lt (s : Nat × Nat) (h1 : s.1 < 2 ^ 64) (h2 : s.2 < 2 ^ 64) :
    (rotl67 s).1 < 2 ^ 64 ∧ (rotl67 s).2 < 2 ^ 64 :=
  ⟨Nat.or_lt_two_pow (Nat.mod_lt _ (by decide)) (shr_lt _ h1),
   Nat.or_lt_two_pow (Nat.mod_lt _ (by decide)) (shr_lt _ h2)⟩

/-! ## The S-box and its inverse -/

theorem inv4_sub4_lt (x : Nat) (hx : x < 16) : inv4 (sub4 x) = x := by
  interval_cases x <;> rfl

theorem sub4_inv4_lt (x : Nat) (hx : x < 16) : sub4 (inv4 x) = x := by
  interval_cases x <;> rfl

theorem sub4_lt (x : Nat) : sub4 x < 16 := by
  have h : x &&& 0xF < 16 := and_lt_right (n := 4) x (by decide)
  unfold sub4
  generalize x &&& 0xF = y at h
  interval_cases y <;> decide

theorem inv4_lt (x : Nat) : inv4 x < 16 := by
  have h : x &&& 0xF < 16 := and_lt_right (n := 4) x (by decide)
  unfold inv4
  generalize x &&& 0xF = y at h
  interval_cases y <;> decide

theorem tb3 (j : Nat) : Nat.testBit 3 j = decide (j < 2) :=
  Nat.testBit_two_pow_sub_one 2 j

theorem tbF (j : Nat) : Nat.testBit 0xF j = decide (j < 4) :=
  Nat.testBit_two_pow_sub_one 4 j

theorem tbFF (j : Nat) : Nat.testBit 0xFF j = decide (j < 8) :=
  Nat.testBit_two_pow_sub_one 8 j

theorem tb_mask56 (j : Nat) : Nat.testBit 0x00FFFFFFFFFFFFFF j = decide (j < 56) :=
  Nat.testBit_two_pow_sub_one 56 j

theorem tb_mask62 (j : Nat) : Nat.testBit 0x3FFFFFFFFFFFFFFF j = decide (j < 62) :=
  Nat.testBit_two_pow_sub_one 62 j

theorem tb_not3 (j : Nat) : Nat.testBit 0xFFFFFFFFFFFFFFFC j = decide (2 ≤ j ∧ j < 64) := by
  have e : (0xFFFFFFFFFFFFFFFC : Nat) = (2 ^ 62 - 1) <<< 2 := by decide
  rw [e, Nat.testBit_shiftLeft, Nat.testBit_two_pow_sub_one]
  by_cases h : 2 ≤ j
  · simp [h]
    omega
  · simp [h]

theorem undo_add_round_constant_mod (r h l : Nat) (hr : r < 256) :
    undo_round_constant r (add_round_constant r (h % 2 ^ 64, l % 2 ^ 64))
      = (h % 2 ^ 64, l % 2 ^ 64) := by
  simp only [undo_round_constant, add_round_constant, Nat.mod_eq_of_lt hr]
  refine Prod.ext ?_ ?_ <;> dsimp only
  · refine eq_of_testBit_lt (n := 64) ?_ (Nat.mod_lt _ (by decide)) ?_
    · repeat (first | exact Nat.mod_lt _ (by decide) | apply Nat.or_lt_two_pow | apply Nat.xor_lt_two_pow | apply shr_lt | exact and_lt_right (n := 64) _ (by decide))
    · intro j hj
      interval_cases j <;>
        simp only [Nat.testBit_or, Nat.testBit_and, Nat.testBit_xor, Nat.testBit_shiftLeft, Nat.testBit_shiftRight,
          Nat.testBit_mod_two_pow, tb3, tb_not3, tb_mask62] <;> simp
  · refine eq_of_testBit_lt (n := 64) ?_ (Nat.mod_lt _ (by decide)) ?_
    · repeat (first | exact Nat.mod_lt _ (by decide) | apply Nat.or_lt_two_pow | apply Nat.xor_lt_two_pow | apply shr_lt | exact and_lt_right (n := 64) _ (by decide))
    · intro j hj
      interval_cases j <;>
        simp only [Nat.testBit_or, Nat.testBit_and, Nat.testBit_xor, Nat.testBit_shiftLeft, Nat.testBit_shiftRight,
          Nat.testBit_mod_two_pow, tb3, tb_not3, tb_mask62] <;> simp

theorem top_byte_extract (x a b : Nat) :
    let X := (x &&& 0x00FFFFFFFFFFFFFF) |||
      ((((a % 16) <<< 60) % 2 ^ 64) ||| (((b % 16) <<< 56) % 2 ^ 64))
    ((((X >>> 56) &&& 0xFF) >>> 4) &&& 0xF = a % 16) ∧
    (((X >>> 56) &&& 0xFF) &&& 0xF = b % 16) ∧
    (X &&& 0x00FFFFFFFFFFFFFF = x &&& 0x00FFFFFFFFFFFFFF) := by
  intro X
  refine ⟨?_, ?_, ?_⟩
  · refine eq_of_testBit_lt (n := 4) (and_lt_right (n := 4) _ (by decide)) (Nat.mod_lt _ (by decide)) ?_
    intro j hj
    have e16 : (16 : Nat) = 2 ^ 4 := by decide
    interval_cases j <;>
      simp only [X, e16, Nat.testBit_or, Nat.testBit_and, Nat.testBit_shiftLeft, Nat.testBit_shiftRight,
        Nat.testBit_mod_two_pow, tbF, tbFF, tb_mask56] <;> simp
  · refine eq_of_testBit_lt (n := 4) (and_lt_right (n := 4) _ (by decide)) (Nat.mod_lt _ (by decide)) ?_
    intro j hj
    have e16 : (16 : Nat) = 2 ^ 4 := by decide
    interval_cases j <;>
      simp only [X, e16, Nat.testBit_or, Nat.testBit_and, Nat.testBit_shiftLeft, Nat.testBit_shiftRight,
        Nat.testBit_mod_two_pow, tbF, tbFF, tb_mask56] <;> simp
  · refine eq_of_testBit_lt (n := 64) (and_lt_right (n := 64) _ (by decide)) (and_lt_right (n := 64) _ (by decide)) ?_
    intro j hj
    have e16 : (16 : Nat) = 2 ^ 4 := by decide
    interval_cases j <;>
      simp only [X, e16, Nat.testBit_or, Nat.testBit_and, Nat.testBit_shiftLeft, Nat.testBit_shiftRight,
        Nat.testBit_mod_two_pow, tbF, tbFF, tb_mask56] <;> simp

theorem top_byte_reassemble (x : Nat) :
    ((x % 2 ^ 64) &&& 0x00FFFFFFFFFFFFFF) |||
      ((((((x % 2 ^ 64) >>> 60) &&& 0xF) <<< 60) % 2 ^ 64) |||
       (((((x % 2 ^ 64) >>> 56) &&& 0xF) <<< 56) % 2 ^ 64)) = x % 2 ^ 64 := by
  refine eq_of_testBit_lt (n := 64) ?_ (Nat.mod_lt _ (by decide)) ?_
  · repeat (first | exact Nat.mod_lt _ (by decide) | apply Nat.or_lt_two_pow | exact and_lt_right (n := 64) _ (by decide))
  · intro j hj
    interval_cases j <;>
      simp only [Nat.testBit_or, Nat.testBit_and, Nat.testBit_shiftLeft, Nat.testBit_shiftRight,
        Nat.testBit_mod_two_pow, tbF, tbFF, tb_mask56] <;> simp

theorem undo_sbox_sbox_mod (h l : Nat) :
    undo_sbox_top_byte (sbox_top_byte (h % 2 ^ 64, l)) = (h % 2 ^ 64, l) := by
  have ha := sub4_lt (((h % 2 ^ 64) >>> 60) &&& 0xF)
  have hb := sub4_lt (((h % 2 ^ 64) >>> 56) &&& 0xF)
  have key := top_byte_extract (h % 2 ^ 64) (sub4 (((h % 2 ^ 64) >>> 60) &&& 0xF))
    (sub4 (((h % 2 ^ 64) >>> 56) &&& 0xF))
  rw [Nat.mod_eq_of_lt ha, Nat.mod_eq_of_lt hb] at key
  obtain ⟨k1, k2, k3⟩ := key
  simp only [undo_sbox_top_byte, sbox_top_byte]
  rw [k1, k2, k3, inv4_sub4_lt _ (and_lt_right (n := 4) _ (by decide)),
    inv4_sub4_lt _ (and_lt_right (n := 4) _ (by decide)), top_byte_reassemble]

/-! ## Inversion of the key-schedule permutation -/

theorem sbox_top_byte_lt (s : Nat × Nat) (h2 : s.2 < 2 ^ 64) :
    (sbox_top_byte s).1 < 2 ^ 64 ∧ (sbox_top_byte s).2 < 2 ^ 64 := by
  refine ⟨?_, h2⟩
  simp only [sbox_top_byte]
  repeat (first | exact Nat.mod_lt _ (by decide) | apply Nat.or_lt_two_pow | exact and_lt_right (n := 64) _ (by decide))

theorem add_round_constant_lt (r : Nat) (s : Nat × Nat) (h1 : s.1 < 2 ^ 64)
    (h2 : s.2 < 2 ^ 64) :
    (add_round_constant r s).1 < 2 ^ 64 ∧ (add_round_constant r s).2 < 2 ^ 64 := by
  simp only [add_round_constant]
  exact ⟨Nat.xor_lt_two_pow h1 (and_lt_right (n := 64) _ (by decide)),
    Nat.xor_lt_two_pow h2 (Nat.mod_lt _ (by decide))⟩

theorem permute_round_lt (r : Nat) (s : Nat × Nat) (h1 : s.1 < 2 ^ 64) (h2 : s.2 < 2 ^ 64) :
    (permute_round r s).1 < 2 ^ 64 ∧ (permute_round r s).2 < 2 ^ 64 := by
  have a := rotl61_lt s h1 h2
  have b := sbox_top_byte_lt (rotl61 s) a.2
  exact add_round_constant_lt r _ b.1 b.2

theorem permute_loop_lt (n : Nat) (s : Nat × Nat) (h1 : s.1 < 2 ^ 64) (h2 : s.2 < 2 ^ 64) :
    (permute_loop n s).1 < 2 ^ 64 ∧ (permute_loop n s).2 < 2 ^ 64 := by
  induction n with
  | zero => exact ⟨h1, h2⟩
  | succ n ih => exact permute_round_lt (n + 1) _ ih.1 ih.2

theorem undo_add_round_constant (r : Nat) (s : Nat × Nat) (hr : r < 256)
    (h1 : s.1 < 2 ^ 64) (h2 : s.2 < 2 ^ 64) :
    undo_round_constant r (add_round_constant r s) = s := by
  have key := undo_add_round_constant_mod r s.1 s.2 hr
  rwa [Nat.mod_eq_of_lt h1, Nat.mod_eq_of_lt h2] at key

theorem undo_sbox_sbox (s : Nat × Nat) (h1 : s.1 < 2 ^ 64) :
    undo_sbox_top_byte (sbox_top_byte s) = s := by
  have key := undo_sbox_sbox_mod s.1 s.2
  rwa [Nat.mod_eq_of_lt h1] at key

theorem unpermute_permute_round (r : Nat) (s : Nat × Nat) (hr : r < 256)
    (h1 : s.1 < 2 ^ 64) (h2 : s.2 < 2 ^ 64) :
    unpermute_round r (permute_round r s) = s := by
  have a := rotl61_lt s h1 h2
  have b := sbox_top_byte_lt (rotl61 s) a.2
  unfold unpermute_round permute_round
  rw [undo_add_round_constant r _ hr b.1 b.2, undo_sbox_sbox _ a.1, rotl67_rotl61_id s h1 h2]

theorem unpermute_permute_loop (n : Nat) (s : Nat × Nat) (hn : n < 256)
    (h1 : s.1 < 2 ^ 64) (h2 : s.2 < 2 ^ 64) :
    unpermute_loop n (permute_loop n s) = s := by
  induction n with
  | zero => rfl
  | succ n ih =>
    have b := permute_loop_lt n s h1 h2
    show unpermute_loop n (unpermute_round (n + 1) (permute_round (n + 1) (permute_loop n s))) = s
    rw [unpermute_permute_round (n + 1) _ hn b.1 b.2]
    exact ih (by omega)

theorem unpermute_permute_key (hi lo : Nat) (h1 : hi < 2 ^ 64) (h2 : lo < 2 ^ 64) :
    unpermute_key (permute_key hi lo).1 (permute_key hi lo).2 = (hi, lo) := by
  have b := permute_loop_lt 10 (hi, lo) h1 h2
  unfold unpermute_key permute_key
  rw [rotl61_rotl67_id _ b.1 b.2]
  exact unpermute_permute_loop 10 (hi, lo) (by decide) h1 h2

/-- C1: for every pair of 64-bit words `(hi, lo)`, undoing the forward
key-schedule permutation gives back the input:
`unpermute_key (permute_key (hi, lo)) = (hi, lo)`. -/
theorem C1_unpermute_key_permute_key (hi lo : Nat) (h1 : hi < 2 ^ 64) (h2 : lo < 2 ^ 64) :
    unpermute_key (permute_key hi lo).1 (permute_key hi lo).2 = (hi, lo) :=
  unpermute_permute_key hi lo h1 h2

/-- C1, at the master key `B745C5C6106198F3 CA4CD45E2B9F910F`: its permuted
state is mapped back to `(0xB745C5C6106198F3, 0xCA4CD45E2B9F910F)`. -/
theorem C1_unpermute_key_permute_key_witness :
    (0xB745C5C6106198F3 < 2 ^ 64 ∧ 0xCA4CD45E2B9F910F < 2 ^ 64) ∧
    unpermute_key (permute_key 0xB745C5C6106198F3 0xCA4CD45E2B9F910F).1
        (permute_key 0xB745C5C6106198F3 0xCA4CD45E2B9F910F).2
      = (0xB745C5C6106198F3, 0xCA4CD45E2B9F910F) :=
  ⟨⟨by decide, by decide⟩,
   C1_unpermute_key_permute_key 0xB745C5C6106198F3 0xCA4CD45E2B9F910F (by decide) (by decide)⟩

/-- C6: `rotl61` and `rotl67` are mutual inverses on the 128-bit register: for
every pair of 64-bit words, `rotl67 (rotl61 (hi, lo)) = (hi, lo)` and
`rotl61 (rotl67 (hi, lo)) = (hi, lo)`. -/
theorem C6_rotl61_rotl67_mutual_inverses (hi lo : Nat) (h1 : hi < 2 ^ 64)
    (h2 : lo < 2 ^ 64) :
    rotl67 (rotl61 (hi, lo)) = (hi, lo) ∧ rotl61 (rotl67 (hi, lo)) = (hi, lo) :=
  ⟨rotl67_rotl61_id (hi, lo) h1 h2, rotl61_rotl67_id (hi, lo) h1 h2⟩

/-- C6, at the register `(0xB745C5C6106198F3, 0xCA4CD45E2B9F910F)`. -/
theorem C6_rotl61_rotl67_mutual_inverses_witness :
    (0xB745C5C6106198F3 < 2 ^ 64 ∧ 0xCA4CD45E2B9F910F < 2 ^ 64) ∧
    rotl67 (rotl61 (0xB745C5C6106198F3, 0xCA4CD45E2B9F910F))
      = (0xB745C5C6106198F3, 0xCA4CD45E2B9F910F) ∧
    rotl61 (rotl67 (0xB745C5C6106198F3, 0xCA4CD45E2B9F910F))
      = (0xB745C5C6106198F3, 0xCA4CD45E2B9F910F) :=
  ⟨⟨by decide, by decide⟩,
   C6_rotl61_rotl67_mutual_inverses 0xB745C5C6106198F3 0xCA4CD45E2B9F910F
     (by decide) (by decide)⟩

/-- C7: the inverse S-box undoes the S-box and conversely: for every `x` in
`0..15`, `inv4 (sub4 x) = x` and `sub4 (inv4 x) = x`, and both values stay in
`0..15`. -/
theorem C7_inv4_sub4 (x : Nat) (hx : x < 16) :
    inv4 (sub4 x) = x ∧ sub4 (inv4 x) = x ∧ sub4 x < 16 ∧ inv4 x < 16 :=
  ⟨inv4_sub4_lt x hx, sub4_inv4_lt x hx, sub4_lt x, inv4_lt x⟩

/-- C7, at `x = 5`: `sub4 5 = 0xB` and `inv4 0xB = 5`. -/
theorem C7_inv4_sub4_witness :
    (5 < 16) ∧ (inv4 (sub4 5) = 5 ∧ sub4 (inv4 5) = 5 ∧ sub4 5 < 16 ∧ inv4 5 < 16) :=
  ⟨by decide, C7_inv4_sub4 5 (by decide)⟩

/-! ## Byte layout of the master key -/

theorem range8 : List.range 8 = [0, 1, 2, 3, 4, 5, 6, 7] := by decide

theorem build_mk_eq (hi lo : Nat) :
    build_mk hi lo =
      [(hi >>> 56) % 256, (hi >>> 48) % 256, (hi >>> 40) % 256, (hi >>> 32) % 256,
       (hi >>> 24) % 256, (hi >>> 16) % 256, (hi >>> 8) % 256, (hi >>> 0) % 256,
       (lo >>> 56) % 256, (lo >>> 48) % 256, (lo >>> 40) % 256, (lo >>> 32) % 256,
       (lo >>> 24) % 256, (lo >>> 16) % 256, (lo >>> 8) % 256, (lo >>> 0) % 256] := by
  simp only [build_mk, range8, List.map, List.cons_append, List.nil_append]

theorem be_load_bytes (x : Nat) (hx : x < 2 ^ 64) :
    be_load_spec
      [(x >>> 56) % 256, (x >>> 48) % 256, (x >>> 40) % 256, (x >>> 32) % 256,
       (x >>> 24) % 256, (x >>> 16) % 256, (x >>> 8) % 256, (x >>> 0) % 256] = x := by
  simp only [be_load_spec, List.foldl, Nat.shiftRight_eq_div_pow]
  norm_num at hx ⊢
  omega

theorem build_mk_layout (hi lo : Nat) (h1 : hi < 2 ^ 64) (h2 : lo < 2 ^ 64) :
    (build_mk hi lo).length = 16 ∧
    (∀ i, i < 8 →
      (build_mk hi lo).getD i 0 = (hi / 256 ^ (7 - i)) % 256 ∧
      (build_mk hi lo).getD (8 + i) 0 = (lo / 256 ^ (7 - i)) % 256) ∧
    be_load_spec ((build_mk hi lo).take 8) = hi ∧
    be_load_spec ((build_mk hi lo).drop 8) = lo := by
  rw [build_mk_eq]
  refine ⟨rfl, ?_, ?_, ?_⟩
  · intro i hi8
    interval_cases i <;> simp [Nat.shiftRight_eq_div_pow]
  · exact be_load_bytes hi h1
  · exact be_load_bytes lo h2

/-- C8: the 16 bytes `mk` built by `verify_master_key` from 64-bit words
`(hi, lo)` are the big-endian packing: `mk[i]` is byte `i` of `hi` counted
from the most significant, `mk[8 + i]` is byte `i` of `lo`, and loading bytes
`0..7` and `8..15` big-endian gives back `(hi, lo)`. -/
theorem C8_master_key_byte_layout (hi lo : Nat) (h1 : hi < 2 ^ 64) (h2 : lo < 2 ^ 64) :
    (build_mk hi lo).length = 16 ∧
    (∀ i, i < 8 →
      (build_mk hi lo).getD i 0 = (hi / 256 ^ (7 - i)) % 256 ∧
      (build_mk hi lo).getD (8 + i) 0 = (lo / 256 ^ (7 - i)) % 256) ∧
    be_load_spec ((build_mk hi lo).take 8) = hi ∧
    be_load_spec ((build_mk hi lo).drop 8) = lo :=
  build_mk_layout hi lo h1 h2

/-- C8, at `(0xB745C5C6106198F3, 0xCA4CD45E2B9F910F)`, which packs to
`B7 45 C5 C6 10 61 98 F3 CA 4C D4 5E 2B 9F 91 0F`. -/
theorem C8_master_key_byte_layout_witness :
    (0xB745C5C6106198F3 < 2 ^ 64 ∧ 0xCA4CD45E2B9F910F < 2 ^ 64) ∧
    build_mk 0xB745C5C6106198F3 0xCA4CD45E2B9F910F
      = [0xB7, 0x45, 0xC5, 0xC6, 0x10, 0x61, 0x98, 0xF3,
         0xCA, 0x4C, 0xD4, 0x5E, 0x2B, 0x9F, 0x91, 0x0F] ∧
    ((build_mk 0xB745C5C6106198F3 0xCA4CD45E2B9F910F).length = 16 ∧
     (∀ i, i < 8 →
       (build_mk 0xB745C5C6106198F3 0xCA4CD45E2B9F910F).getD i 0
         = (0xB745C5C6106198F3 / 256 ^ (7 - i)) % 256 ∧
       (build_mk 0xB745C5C6106198F3 0xCA4CD45E2B9F910F).getD (8 + i) 0
         = (0xCA4CD45E2B9F910F / 256 ^ (7 - i)) % 256) ∧
     be_load_spec ((build_mk 0xB745C5C6106198F3 0xCA4CD45E2B9F910F).take 8)
       = 0xB745C5C6106198F3 ∧
     be_load_spec ((build_mk 0xB745C5C6106198F3 0xCA4CD45E2B9F910F).drop 8)
       = 0xCA4CD45E2B9F910F) :=
  ⟨⟨by decide, by decide⟩, by decide,
   C8_master_key_byte_layout 0xB745C5C6106198F3 0xCA4CD45E2B9F910F (by decide) (by decide)⟩

/-! ## The sequential search -/

section SearchProofs

variable {KS : Type} (key_schedule : List Nat → KS) (encrypt : Nat → KS → Nat)

theorem verify_master_key_of_match (st : Globals) (hi lo : Nat)
    (h : key_matches key_schedule encrypt st.g_pairs (build_mk hi lo)) :
    verify_master_key key_schedule encrypt st hi lo
      = (1, { st with g_found_key := build_mk hi lo }) := by
  obtain ⟨h1, h2⟩ := h
  simp [verify_master_key, h1, h2]

theorem verify_master_key_of_not_match (st : Globals) (hi lo : Nat)
    (h : ¬ key_matches key_schedule encrypt st.g_pairs (build_mk hi lo)) :
    verify_master_key key_schedule encrypt st hi lo = (0, st) := by
  unfold verify_master_key
  by_cases h1 : encrypt st.g_pairs.1.plaintext (key_schedule (build_mk hi lo))
      = st.g_pairs.1.ciphertext
  · have h2 : ¬ encrypt st.g_pairs.2.plaintext (key_schedule (build_mk hi lo))
        = st.g_pairs.2.ciphertext := fun h2 => h ⟨h1, h2⟩
    simp [h1, h2]
  · simp [h1]

theorem search_one_body_of_found (tmpl : Nat × Nat) (RK17 i : Nat) (st : Globals)
    (h : st.g_found ≠ 0) :
    search_one_body key_schedule encrypt tmpl RK17 i st = st := by
  simp [search_one_body, h]

theorem search_one_body_of_match (tmpl : Nat × Nat) (RK17 i : Nat) (st : Globals)
    (h0 : st.g_found = 0)
    (h : key_matches key_schedule encrypt st.g_pairs (candidate_key tmpl RK17 i)) :
    search_one_body key_schedule encrypt tmpl RK17 i st
      = { st with g_found := 1, g_found_key := candidate_key tmpl RK17 i } := by
  unfold candidate_key at h
  simp only [search_one_body, h0, ne_eq, not_true_eq_false, if_false]
  rw [verify_master_key_of_match key_schedule encrypt st _ _ h]
  simp [candidate_key]

theorem search_one_body_of_not_match (tmpl : Nat × Nat) (RK17 i : Nat) (st : Globals)
    (h0 : st.g_found = 0)
    (h : ¬ key_matches key_schedule encrypt st.g_pairs (candidate_key tmpl RK17 i)) :
    search_one_body key_schedule encrypt tmpl RK17 i st = st := by
  unfold candidate_key at h
  simp only [search_one_body, h0, ne_eq, not_true_eq_false, if_false]
  rw [verify_master_key_of_not_match key_schedule encrypt st _ _ h]
  simp

theorem search_one_loop_of_found (tmpl : Nat × Nat) (RK17 n i : Nat) (st : Globals)
    (h : st.g_found ≠ 0) :
    search_one_loop key_schedule encrypt tmpl RK17 n i st = st := by
  induction n generalizing i with
  | zero => rfl
  | succ n ih =>
    show search_one_loop key_schedule encrypt tmpl RK17 n (i + 1)
      (search_one_body key_schedule encrypt tmpl RK17 i st) = st
    rw [search_one_body_of_found key_schedule encrypt tmpl RK17 i st h]
    exact ih (i + 1)

/-- The inner loop started with `g_found = 0`: either no candidate of the
range matches and nothing changes, or the first matching candidate is
published. -/
theorem search_one_loop_spec (tmpl : Nat × Nat) (RK17 n i : Nat) (st : Globals)
    (h0 : st.g_found = 0) :
    ((∀ k, k < n → ¬ key_matches key_schedule encrypt st.g_pairs
        (candidate_key tmpl RK17 (i + k))) ∧
      search_one_loop key_schedule encrypt tmpl RK17 n i st = st) ∨
    (∃ k, k < n ∧
      key_matches key_schedule encrypt st.g_pairs (candidate_key tmpl RK17 (i + k)) ∧
      (∀ k1, k1 < k → ¬ key_matches key_schedule encrypt st.g_pairs
        (candidate_key tmpl RK17 (i + k1))) ∧
      search_one_loop key_schedule encrypt tmpl RK17 n i st
        = { st with g_found := 1, g_found_key := candidate_key tmpl RK17 (i + k) }) := by
  induction n generalizing i with
  | zero => exact Or.inl ⟨fun k hk => absurd hk (Nat.not_lt_zero k), rfl⟩
  | succ n ih =>
    show (_ ∧ search_one_loop key_schedule encrypt tmpl RK17 n (i + 1)
        (search_one_body key_schedule encrypt tmpl RK17 i st) = st) ∨
      (∃ k, k < n + 1 ∧ _ ∧ _ ∧
        search_one_loop key_schedule encrypt tmpl RK17 n (i + 1)
          (search_one_body key_schedule encrypt tmpl RK17 i st) = _)
    by_cases hm : key_matches key_schedule encrypt st.g_pairs (candidate_key tmpl RK17 i)
    · right
      refine ⟨0, Nat.succ_pos n, hm, fun k1 hk1 => absurd hk1 (Nat.not_lt_zero k1), ?_⟩
      rw [search_one_body_of_match key_schedule encrypt tmpl RK17 i st h0 hm]
      exact search_one_loop_of_found key_schedule encrypt tmpl RK17 n (i + 1) _ (by simp)
    · rw [search_one_body_of_not_match key_schedule encrypt tmpl RK17 i st h0 hm]
      rcases ih (i + 1) with ⟨hno, heq⟩ | ⟨k, hk, hmk, hfirst, heq⟩
      · left
        refine ⟨?_, heq⟩
        intro k hk
        cases k with
        | zero => exact hm
        | succ k =>
          have := hno k (by omega)
          rwa [Nat.add_assoc, Nat.add_comm 1 k] at this
      · right
        refine ⟨k + 1, by omega, ?_, ?_, ?_⟩
        · rwa [Nat.add_assoc, Nat.add_comm 1 k] at hmk
        · intro k1 hk1
          cases k1 with
          | zero => exact hm
          | succ k1 =>
            have := hfirst k1 (by omega)
            rwa [Nat.add_assoc, Nat.add_comm 1 k1] at this
        · rw [heq, Nat.add_assoc, Nat.add_comm 1 k]

end SearchProofs

section SearchProofs

variable {KS : Type} (key_schedule : List Nat → KS) (encrypt : Nat → KS → Nat)

theorem find_master_key_loop_of_found (rk16 rk17 rk18 n b : Nat) (st : Globals)
    (h : st.g_found ≠ 0) :
    find_master_key_loop key_schedule encrypt rk16 rk17 rk18 n b st = st := by
  cases n with
  | zero => rfl
  | succ n => simp [find_master_key_loop, h]

/-- The outer loop started with `g_found = 0`: either no candidate of the
remaining templates matches and nothing changes, or the first matching
candidate, in the order template ascending then index ascending, is
published. -/
theorem find_master_key_loop_spec (rk16 rk17 rk18 n b : Nat) (st : Globals)
    (h0 : st.g_found = 0) :
    ((∀ d k, d < n → k < 2 ^ 29 → ¬ key_matches key_schedule encrypt st.g_pairs
        (candidate_key (search_one_template (b + d) rk16 rk18) rk17 k)) ∧
      find_master_key_loop key_schedule encrypt rk16 rk17 rk18 n b st = st) ∨
    (∃ d k, d < n ∧ k < 2 ^ 29 ∧
      key_matches key_schedule encrypt st.g_pairs
        (candidate_key (search_one_template (b + d) rk16 rk18) rk17 k) ∧
      (∀ d1 k1, d1 < d → k1 < 2 ^ 29 → ¬ key_matches key_schedule encrypt st.g_pairs
        (candidate_key (search_one_template (b + d1) rk16 rk18) rk17 k1)) ∧
      (∀ k1, k1 < k → ¬ key_matches key_schedule encrypt st.g_pairs
        (candidate_key (search_one_template (b + d) rk16 rk18) rk17 k1)) ∧
      find_master_key_loop key_schedule encrypt rk16 rk17 rk18 n b st
        = { st with g_found := 1,
                    g_found_key :=
                      candidate_key (search_one_template (b + d) rk16 rk18) rk17 k }) := by
  induction n generalizing b with
  | zero => exact Or.inl ⟨fun d k hd => absurd hd (Nat.not_lt_zero d), rfl⟩
  | succ n ih =>
    have hstep : find_master_key_loop key_schedule encrypt rk16 rk17 rk18 (n + 1) b st
        = find_master_key_loop key_schedule encrypt rk16 rk17 rk18 n (b + 1)
            (search_one key_schedule encrypt b rk16 rk17 rk18 st) := by
      simp [find_master_key_loop, h0]
    rw [hstep]
    unfold search_one
    rcases search_one_loop_spec key_schedule encrypt (search_one_template b rk16 rk18) rk17
        (2 ^ 29) 0 st h0 with ⟨hno, heq⟩ | ⟨k, hk, hmk, hfirst, heq⟩
    · rw [heq]
      simp only [Nat.zero_add] at hno
      rcases ih (b + 1) with ⟨hno2, heq2⟩ | ⟨d, k, hd, hk, hmk, hf1, hf2, heq2⟩
      · left
        refine ⟨?_, heq2⟩
        intro d k hd hk
        cases d with
        | zero => exact hno k hk
        | succ d =>
          have := hno2 d k (by omega) hk
          rwa [Nat.add_assoc, Nat.add_comm 1 d] at this
      · right
        refine ⟨d + 1, k, by omega, hk, ?_, ?_, ?_, ?_⟩
        · rwa [Nat.add_assoc, Nat.add_comm 1 d] at hmk
        · intro d1 k1 hd1 hk1
          cases d1 with
          | zero => exact hno k1 hk1
          | succ d1 =>
            have := hf1 d1 k1 (by omega) hk1
            rwa [Nat.add_assoc, Nat.add_comm 1 d1] at this
        · intro k1 hk1
          have := hf2 k1 hk1
          rwa [Nat.add_assoc, Nat.add_comm 1 d] at this
        · rw [heq2, Nat.add_assoc, Nat.add_comm 1 d]
    · simp only [Nat.zero_add] at hmk hfirst heq
      right
      refine ⟨0, k, Nat.succ_pos n, hk, hmk, ?_, hfirst, ?_⟩
      · intro d1 k1 hd1
        exact absurd hd1 (Nat.not_lt_zero d1)
      · rw [heq]
        exact find_master_key_loop_of_found key_schedule encrypt rk16 rk17 rk18 n (b + 1) _
          (by simp)

/-- `find_master_key`, run sequentially: either no candidate matches, the
call returns 0 and leaves the output buffer alone, or it returns 1 with the
key of the first matching candidate. -/
theorem find_master_key_spec (pairs : Pair × Pair) (rk16 rk17 rk18 : Nat)
    (out : List Nat) (st : Globals) :
    ((∀ d k, d < 64 → k < 2 ^ 29 → ¬ key_matches key_schedule encrypt pairs
        (candidate_key (search_one_template d rk16 rk18) rk17 k)) ∧
      find_master_key key_schedule encrypt pairs rk16 rk17 rk18 out st
        = (0, out, init_globals pairs rk16 rk17 rk18 st)) ∨
    (∃ d k, d < 64 ∧ k < 2 ^ 29 ∧
      key_matches key_schedule encrypt pairs
        (candidate_key (search_one_template d rk16 rk18) rk17 k) ∧
      (∀ d1 k1, d1 < d → k1 < 2 ^ 29 → ¬ key_matches key_schedule encrypt pairs
        (candidate_key (search_one_template d1 rk16 rk18) rk17 k1)) ∧
      (∀ k1, k1 < k → ¬ key_matches key_schedule encrypt pairs
        (candidate_key (search_one_template d rk16 rk18) rk17 k1)) ∧
      find_master_key key_schedule encrypt pairs rk16 rk17 rk18 out st
        = (1, candidate_key (search_one_template d rk16 rk18) rk17 k,
           { init_globals pairs rk16 rk17 rk18 st with
               g_found := 1,
               g_found_key :=
                 candidate_key (search_one_template d rk16 rk18) rk17 k })) := by
  have h0 : (init_globals pairs rk16 rk17 rk18 st).g_found = 0 := rfl
  have hp : (init_globals pairs rk16 rk17 rk18 st).g_pairs = pairs := rfl
  rcases find_master_key_loop_spec key_schedule encrypt rk16 rk17 rk18 64 0
      (init_globals pairs rk16 rk17 rk18 st) h0 with
    ⟨hno, heq⟩ | ⟨d, k, hd, hk, hmk, hf1, hf2, heq⟩
  · left
    simp only [Nat.zero_add, hp] at hno
    refine ⟨hno, ?_⟩
    simp [find_master_key, heq, h0]
  · right
    simp only [Nat.zero_add, hp] at hmk hf1 hf2
    simp only [Nat.zero_add] at heq
    refine ⟨d, k, hd, hk, hmk, hf1, hf2, ?_⟩
    simp [find_master_key, heq]

end SearchProofs

section SearchClaims

variable {KS : Type} (key_schedule : List Nat → KS) (encrypt : Nat → KS → Nat)

theorem find_master_key_ret_one_of_match (pairs : Pair × Pair) (rk16 rk17 rk18 : Nat)
    (out : List Nat) (st : Globals) (d k : Nat) (hd : d < 64) (hk : k < 2 ^ 29)
    (hm : key_matches key_schedule encrypt pairs
      (candidate_key (search_one_template d rk16 rk18) rk17 k)) :
    (find_master_key key_schedule encrypt pairs rk16 rk17 rk18 out st).1 = 1 := by
  rcases find_master_key_spec key_schedule encrypt pairs rk16 rk17 rk18 out st with
    ⟨hno, _⟩ | ⟨d1, k1, _, _, _, _, _, heq⟩
  · exact absurd hm (hno d k hd hk)
  · rw [heq]

/-- C2: soundness of `find_master_key`, run sequentially, for arbitrary
`key_schedule` and `encrypt`: when the call returns 1, the 16 bytes `K`
written to `master_key_out` satisfy
`encrypt(pairs[0].plaintext, key_schedule(K)) = pairs[0].ciphertext` and
`encrypt(pairs[1].plaintext, key_schedule(K)) = pairs[1].ciphertext`. -/
theorem C2_find_master_key_sound (pairs : Pair × Pair) (rk16 rk17 rk18 : Nat)
    (out : List Nat) (st : Globals)
    (h : (find_master_key key_schedule encrypt pairs rk16 rk17 rk18 out st).1 = 1) :
    encrypt pairs.1.plaintext
        (key_schedule (find_master_key key_schedule encrypt pairs rk16 rk17 rk18 out st).2.1)
      = pairs.1.ciphertext ∧
    encrypt pairs.2.plaintext
        (key_schedule (find_master_key key_schedule encrypt pairs rk16 rk17 rk18 out st).2.1)
      = pairs.2.ciphertext := by
  rcases find_master_key_spec key_schedule encrypt pairs rk16 rk17 rk18 out st with
    ⟨_, heq⟩ | ⟨d, k, _, _, hm, _, _, heq⟩
  · rw [heq] at h
    exact absurd h (by simp)
  · rw [heq]
    exact hm

/-- C2, for the cipher that ignores its key and returns the plaintext, with
the pairs `(0, 0)` and `(1, 1)`: the call returns 1 and the key written out
reproduces both pairs. -/
theorem C2_find_master_key_sound_witness :
    (find_master_key toy_key_schedule toy_encrypt (⟨0, 0⟩, ⟨1, 1⟩) 0 0 0 (List.replicate 16 0) globals_zero).1
      = 1 ∧
    (toy_encrypt 0
        (toy_key_schedule (find_master_key toy_key_schedule toy_encrypt
          (⟨0, 0⟩, ⟨1, 1⟩) 0 0 0 (List.replicate 16 0) globals_zero).2.1) = 0 ∧
     toy_encrypt 1
        (toy_key_schedule (find_master_key toy_key_schedule toy_encrypt
          (⟨0, 0⟩, ⟨1, 1⟩) 0 0 0 (List.replicate 16 0) globals_zero).2.1) = 1) :=
  have h := find_master_key_ret_one_of_match toy_key_schedule toy_encrypt
    (⟨0, 0⟩, ⟨1, 1⟩) 0 0 0 (List.replicate 16 0) globals_zero 0 0 (by decide)
    (Nat.pos_pow_of_pos 29 (by decide)) ⟨rfl, rfl⟩
  ⟨h, C2_find_master_key_sound toy_key_schedule toy_encrypt (⟨0, 0⟩, ⟨1, 1⟩) 0 0 0 (List.replicate 16 0)
    globals_zero h⟩

/-- C3: exhaustion of `find_master_key`, run sequentially: the call returns 0
exactly when none of the `64 * 2^29` candidates (`in_bits` in `0..63`, `i` in
`0..2^29-1`) passes the verification against both pairs, and it returns 1
otherwise. -/
theorem C3_find_master_key_exhaustion (pairs : Pair × Pair) (rk16 rk17 rk18 : Nat)
    (out : List Nat) (st : Globals) :
    ((find_master_key key_schedule encrypt pairs rk16 rk17 rk18 out st).1 = 0 ↔
      ∀ in_bits i, in_bits < 64 → i < 2 ^ 29 →
        ¬ (encrypt pairs.1.plaintext
              (key_schedule (candidate_key (search_one_template in_bits rk16 rk18) rk17 i))
            = pairs.1.ciphertext ∧
           encrypt pairs.2.plaintext
              (key_schedule (candidate_key (search_one_template in_bits rk16 rk18) rk17 i))
            = pairs.2.ciphertext)) ∧
    ((find_master_key key_schedule encrypt pairs rk16 rk17 rk18 out st).1 = 0 ∨
     (find_master_key key_schedule encrypt pairs rk16 rk17 rk18 out st).1 = 1) := by
  rcases find_master_key_spec key_schedule encrypt pairs rk16 rk17 rk18 out st with
    ⟨hno, heq⟩ | ⟨d, k, hd, hk, hm, _, _, heq⟩
  · rw [heq]
    exact ⟨⟨fun _ => hno, fun _ => rfl⟩, Or.inl rfl⟩
  · rw [heq]
    refine ⟨⟨fun h => absurd h (by simp), fun h => absurd hm (h d k hd hk)⟩, Or.inr rfl⟩

end SearchClaims

/-! ## The selection `find_max_deviation_index` -/

theorem find_max_deviation_diff_eq (bucket : Nat → Nat) (used i : Nat) :
    (if bucket i > used >>> 1 then bucket i - used >>> 1 else used >>> 1 - bucket i)
      = bias_spec bucket used i := by
  unfold bias_spec
  rw [Nat.shiftRight_eq_div_pow]
  norm_num
  split <;> omega

/-- The state `(max_diff, best)` after the first `n` iterations of the loop
of `find_max_deviation_index`. -/
theorem find_max_deviation_fold (bucket : Nat → Nat) (used n : Nat) :
    let acc := (List.range n).foldl (find_max_deviation_step bucket (used >>> 1)) (0, -1)
    (∀ j, j < n → bias_spec bucket used j ≤ acc.1) ∧
    ((acc.1 = 0 ∧ acc.2 = -1) ∨
     (∃ k : Nat, k < n ∧ acc.2 = (k : Int) ∧ bias_spec bucket used k = acc.1 ∧ 0 < acc.1 ∧
        ∀ j, j < k → bias_spec bucket used j < acc.1)) := by
  induction n with
  | zero =>
    exact ⟨fun j hj => absurd hj (Nat.not_lt_zero j), Or.inl ⟨rfl, rfl⟩⟩
  | succ n ih =>
    rw [List.range_succ, List.foldl_append]
    simp only [List.foldl_cons, List.foldl_nil]
    generalize (List.range n).foldl (find_max_deviation_step bucket (used >>> 1)) (0, -1)
      = acc at ih
    obtain ⟨hle, hcase⟩ := ih
    unfold find_max_deviation_step
    simp only [find_max_deviation_diff_eq]
    by_cases hgt : bias_spec bucket used n > acc.1
    · simp only [hgt, if_true]
      refine ⟨?_, Or.inr ⟨n, Nat.lt_succ_self n, rfl, rfl, by omega, ?_⟩⟩
      · intro j hj
        rcases Nat.lt_succ_iff_lt_or_eq.mp hj with h | h
        · exact le_of_lt (lt_of_le_of_lt (hle j h) hgt)
        · rw [h]
      · intro j hj
        exact lt_of_le_of_lt (hle j hj) hgt
    · simp only [hgt, if_false]
      refine ⟨?_, ?_⟩
      · intro j hj
        rcases Nat.lt_succ_iff_lt_or_eq.mp hj with h | h
        · exact hle j h
        · rw [h]; omega
      · rcases hcase with h | ⟨k, hk, h1, h2, h3, h4⟩
        · exact Or.inl h
        · exact Or.inr ⟨k, by omega, h1, h2, h3, h4⟩

theorem find_max_deviation_index_all_half (bucket : Nat → Nat) (used : Nat)
    (h : ∀ k, k < 16 → bucket k = used >>> 1) :
    find_max_deviation_index bucket used = -1 := by
  have key := find_max_deviation_fold bucket used 16
  simp only at key
  obtain ⟨hle, hcase⟩ := key
  rcases hcase with ⟨_, h2⟩ | ⟨k, hk, _, h2, h3, _⟩
  · exact h2
  · exfalso
    have hb : bias_spec bucket used k = 0 := by
      unfold bias_spec
      rw [h k hk, Nat.shiftRight_eq_div_pow]
      simp
    omega

theorem find_max_deviation_index_some (bucket : Nat → Nat) (used : Nat)
    (h : ∃ k : Nat, k < 16 ∧ bucket k ≠ used >>> 1) :
    ∃ k : Nat, k < 16 ∧ find_max_deviation_index bucket used = (k : Int) ∧
      (∀ j, j < 16 → bias_spec bucket used j ≤ bias_spec bucket used k) ∧
      (∀ j, j < k → bias_spec bucket used j < bias_spec bucket used k) := by
  have key := find_max_deviation_fold bucket used 16
  simp only at key
  obtain ⟨hle, hcase⟩ := key
  rcases hcase with ⟨h1, _⟩ | ⟨k, hk, h1, h2, _, h4⟩
  · exfalso
    obtain ⟨k, hk, hne⟩ := h
    have hb := hle k hk
    rw [h1] at hb
    apply hne
    unfold bias_spec at hb
    rw [Nat.shiftRight_eq_div_pow]
    norm_num
    omega
  · refine ⟨k, hk, h1, ?_, ?_⟩
    · intro j hj
      rw [h2]
      exact hle j hj
    · intro j hj
      rw [h2]
      exact h4 j hj

section AnalyzerProofs

variable (S : Nat → Nat) (substitute_with_sbox : Nat → Nat)
  (decrypt_half_one_round : Nat → (Nat → Nat) → Nat)
  (decrypt_half_two_round : Nat → (Nat → Nat) → (Nat → Nat) → Nat)

theorem stage_loop_nil (round stage : Nat) (right_keys : Nat → Nat → Nat) (need : Nat)
    (bucket : Nat → Nat) (used : Nat) :
    stage_loop S substitute_with_sbox decrypt_half_one_round decrypt_half_two_round
      round stage right_keys need [] bucket used = (bucket, used) := by
  rw [stage_loop]
  simp

theorem run_stage_nil (round stage : Nat)
    (keys : (Nat → Nat → Nat) × (Nat → Nat → Nat)) :
    run_stage S substitute_with_sbox decrypt_half_one_round decrypt_half_two_round
      [] round stage keys
      = (set2 keys.1 round (stage_to_pos stage).toNat 255,
         set2 keys.2 round (stage_to_pos stage).toNat 255) := by
  have h : find_max_deviation_index (fun _ => 0) 0 = -1 := by decide
  simp only [run_stage, stage_loop_nil, h]
  rfl

theorem linear_attack_nil (rk_nib : Nat → Nat → Nat) (r p : Nat) (hr : r < 3) (hp : p < 9) :
    linear_attack_recover_keys S substitute_with_sbox decrypt_half_one_round
      decrypt_half_two_round [] rk_nib r p = if p = 0 then rk_nib r 0 else 255 := by
  have e3 : List.range 3 = [0, 1, 2] := by decide
  have e8 : List.range 8 = [0, 1, 2, 3, 4, 5, 6, 7] := by decide
  simp only [linear_attack_recover_keys, e3, e8, List.foldl_cons, List.foldl_nil]
  simp only [run_stage_nil]
  interval_cases r <;> interval_cases p <;> simp [set2, stage_to_pos]

/-- C5, evaluated on the empty dataset: every stage reads nothing, the
selection returns `-1`, and `(uint8_t)(-1) = 255` is committed, so after the
call the entries at positions `1..8` of every round are 255, outside `0..15`;
position 0 keeps the caller's value. -/
theorem C5_empty_dataset_commits_255 (rk_nib : Nat → Nat → Nat) (r : Fin 3) (p : Fin 9) :
    linear_attack_recover_keys S substitute_with_sbox decrypt_half_one_round
      decrypt_half_two_round [] rk_nib r.val p.val
      = if p.val = 0 then rk_nib r.val 0 else 255 :=
  linear_attack_nil S substitute_with_sbox decrypt_half_one_round decrypt_half_two_round
    rk_nib r.val p.val r.isLt p.isLt

end AnalyzerProofs
/-! ## Bits of the template and of the candidates -/

theorem tb1 (j : Nat) : Nat.testBit 1 j = decide (j < 1) :=
  Nat.testBit_two_pow_sub_one 1 j

theorem tb7 (j : Nat) : Nat.testBit 7 j = decide (j < 3) :=
  Nat.testBit_two_pow_sub_one 3 j

theorem tb_mask29 (j : Nat) : Nat.testBit 0x1FFFFFFF j = decide (j < 29) :=
  Nat.testBit_two_pow_sub_one 29 j

theorem tb_mask32 (j : Nat) : Nat.testBit 0xFFFFFFFF j = decide (j < 32) :=
  Nat.testBit_two_pow_sub_one 32 j

theorem tbA0 (j : Nat) : Nat.testBit 0xA0 j = (decide (5 = j) || decide (7 = j)) := by
  have e : (0xA0 : Nat) = 2 ^ 5 ||| 2 ^ 7 := by decide
  rw [e, Nat.testBit_or, Nat.testBit_two_pow, Nat.testBit_two_pow]

theorem and_one_eq_toNat (x : Nat) : x &&& 1 = (x.testBit 0).toNat := by
  rw [Nat.and_one_is_mod, Nat.toNat_testBit]; simp

theorem shr_and_one_eq_toNat (x k : Nat) : (x >>> k) &&& 1 = (x.testBit k).toNat := by
  rw [and_one_eq_toNat, Nat.testBit_shiftRight]; simp

theorem XOR1_toNat (R off : Nat) (β : Bool) :
    XOR1 R β.toNat off = (xor β (R.testBit off)).toNat := by
  rw [XOR1, shr_and_one_eq_toNat]; cases β <;> cases R.testBit off <;> rfl

theorem XOR2_toNat (R off : Nat) (β : Bool) :
    XOR2 R β.toNat off = (xor β (R.testBit off)).toNat := by
  rw [XOR2, shr_and_one_eq_toNat]; cases β <;> cases R.testBit off <;> rfl

theorem toNat_xor_one (β : Bool) : β.toNat ^^^ 1 = (xor β true).toNat := by
  cases β <;> rfl

theorem testBit_bit_shift (p j : Nat) (β : Bool) :
    ((β.toNat <<< p) % 2 ^ 64).testBit j = (decide (j < 64) && (decide (j = p) && β)) := by
  rw [Nat.testBit_mod_two_pow, Nat.testBit_shiftLeft]
  congr 1
  by_cases h : j = p
  · subst h; cases β <;> simp
  · by_cases h2 : p ≤ j
    · have : j - p ≠ 0 := by omega
      cases β <;> simp [h, h2, this, tb1]
    · simp [h, h2]

theorem testBit_SET_H (t p j : Nat) (β : Bool) :
    (SET_H t p β.toNat).testBit j
      = (t.testBit j || (decide (j < 64) && (decide (j = p) && β))) := by
  rw [SET_H, Nat.testBit_or, testBit_bit_shift]

theorem testBit_SET_L (t p j : Nat) (β : Bool) :
    (SET_L t p β.toNat).testBit j
      = (t.testBit j || (decide (j < 64) && (decide (j = p) && β))) := by
  rw [SET_L, Nat.testBit_or, testBit_bit_shift]

theorem bxor_cancel_left (a b : Bool) : xor a (xor a b) = b := by
  cases a <;> cases b <;> rfl

/-- Both template words fit in 64 bits. -/
theorem template_lt (in_bits RK16 RK18 : Nat) :
    (search_one_template in_bits RK16 RK18).1 < 2 ^ 64 ∧
    (search_one_template in_bits RK16 RK18).2 < 2 ^ 64 := by
  simp only [search_one_template, SET_H, SET_L]
  constructor <;>
  repeat (first | exact Nat.mod_lt _ (by decide) | apply Nat.or_lt_two_pow | exact (by decide : 0 < 2 ^ 64))

theorem candidate_lt (t : Nat × Nat) (RK17 i : Nat) (h1 : t.1 < 2 ^ 64) (h2 : t.2 < 2 ^ 64) :
    (search_one_candidate t RK17 i).1 < 2 ^ 64 ∧ (search_one_candidate t RK17 i).2 < 2 ^ 64 :=
  ⟨Nat.or_lt_two_pow h1 (Nat.mod_lt _ (by decide)), Nat.or_lt_two_pow h2 (Nat.mod_lt _ (by decide))⟩

theorem cand_rk18_mod (in_bits RK16 RK17 RK18 i : Nat) :
    ((((search_one_candidate (search_one_template in_bits RK16 (RK18 % 2 ^ 32)) RK17
          (i % 2 ^ 29)).1 >>> 61) |||
      ((((search_one_candidate (search_one_template in_bits RK16 (RK18 % 2 ^ 32)) RK17
          (i % 2 ^ 29)).2 &&& 0x1FFFFFFF) <<< 3) % 2 ^ 64)) ^^^
     ((search_one_candidate (search_one_template in_bits RK16 (RK18 % 2 ^ 32)) RK17
          (i % 2 ^ 29)).1 &&& 0xFFFFFFFF))
      = (RK18 % 2 ^ 32) ^^^ 0xA0 := by
  apply Nat.eq_of_testBit_eq
  intro j
  simp only [search_one_candidate, search_one_template]
  generalize search_one_a in_bits RK16 = a
  generalize search_one_b in_bits RK16 = b
  simp only [and_one_eq_toNat, shr_and_one_eq_toNat, XOR1_toNat, XOR2_toNat, toNat_xor_one,
    testBit_SET_H, testBit_SET_L,
    Nat.testBit_or, Nat.testBit_and, Nat.testBit_xor, Nat.testBit_shiftLeft,
    Nat.testBit_shiftRight, Nat.testBit_mod_two_pow, tb_mask29, tb_mask32, tbA0,
    Nat.zero_testBit]
  by_cases hj : j < 32
  · interval_cases j <;>
    simp only [Nat.reduceAdd, Nat.reduceSub, Nat.reduceLT, Nat.reduceGT, Nat.reduceLeDiff,
      Nat.reduceEqDiff, ge_iff_le, decide_True, decide_False, Bool.and_true, Bool.true_and,
      Bool.false_and, Bool.and_false, Bool.or_false, Bool.false_or, Bool.xor_false,
      Bool.false_xor, Bool.or_true, Bool.true_or] <;>
    simp only [Bool.xor_assoc, Bool.xor_comm, Bool.xor_left_comm, bxor_cancel_left,
      Bool.xor_self, Bool.xor_false, Bool.false_xor]
  · have h1 : ¬ (61 + j < 64) := by omega
    have h2 : ¬ (j - 3 < 29) := by omega
    have h4 : ¬ (5 = j) := by omega
    have h5 : ¬ (7 = j) := by omega
    simp only [h1, h2, hj, h4, h5, decide_False, Bool.false_and, Bool.and_false,
      Bool.or_false, Bool.xor_false]

/-- Bits 0..2 of `RK18`, read off a candidate. -/
theorem cand_rk18_low_bits (in_bits RK16 RK17 RK18 i t : Nat) (ht : t < 3) :
    RK18.testBit t
      = xor ((search_one_candidate (search_one_template in_bits RK16 RK18) RK17
                (i % 2 ^ 29)).1.testBit t)
            ((search_one_candidate (search_one_template in_bits RK16 RK18) RK17
                (i % 2 ^ 29)).1.testBit (61 + t)) := by
  simp only [search_one_candidate, search_one_template]
  generalize search_one_a in_bits RK16 = a
  generalize search_one_b in_bits RK16 = b
  simp only [and_one_eq_toNat, shr_and_one_eq_toNat, XOR1_toNat, XOR2_toNat, toNat_xor_one,
    testBit_SET_H, testBit_SET_L,
    Nat.testBit_or, Nat.testBit_and, Nat.testBit_xor, Nat.testBit_shiftLeft,
    Nat.testBit_shiftRight, Nat.testBit_mod_two_pow, tb_mask29, tb_mask32, Nat.zero_testBit]
  interval_cases t <;>
  simp only [Nat.reduceAdd, Nat.reduceSub, Nat.reduceLT, Nat.reduceGT, Nat.reduceLeDiff,
    Nat.reduceEqDiff, ge_iff_le, decide_True, decide_False, Bool.and_true, Bool.true_and,
    Bool.false_and, Bool.and_false, Bool.or_false, Bool.false_or, Bool.xor_false,
    Bool.false_xor, Bool.or_true, Bool.true_or] <;>
  simp only [Bool.xor_assoc, Bool.xor_comm, Bool.xor_left_comm, bxor_cancel_left,
    Bool.xor_self, Bool.xor_false, Bool.false_xor]

/-- Bits 3..31 of `RK18`, read off a candidate; bits 5 and 7 are complemented. -/
theorem cand_rk18_high_bits (in_bits RK16 RK17 RK18 i t : Nat) (h3 : 3 ≤ t) (h32 : t < 32) :
    RK18.testBit t
      = xor (xor ((search_one_candidate (search_one_template in_bits RK16 RK18) RK17
                    i).1.testBit t)
                 ((search_one_candidate (search_one_template in_bits RK16 RK18) RK17
                    i).2.testBit (t - 3)))
            (decide (t = 5) || decide (t = 7)) := by
  simp only [search_one_candidate, search_one_template]
  generalize search_one_a in_bits RK16 = a
  generalize search_one_b in_bits RK16 = b
  simp only [and_one_eq_toNat, shr_and_one_eq_toNat, XOR1_toNat, XOR2_toNat, toNat_xor_one,
    testBit_SET_H, testBit_SET_L,
    Nat.testBit_or, Nat.testBit_and, Nat.testBit_xor, Nat.testBit_shiftLeft,
    Nat.testBit_shiftRight, Nat.testBit_mod_two_pow, tb_mask29, tb_mask32, Nat.zero_testBit]
  interval_cases t <;>
  simp only [Nat.reduceAdd, Nat.reduceSub, Nat.reduceLT, Nat.reduceGT, Nat.reduceLeDiff,
    Nat.reduceEqDiff, ge_iff_le, decide_True, decide_False, Bool.and_true, Bool.true_and,
    Bool.false_and, Bool.and_false, Bool.or_false, Bool.false_or, Bool.xor_false,
    Bool.false_xor, Bool.or_true, Bool.true_or] <;>
  simp only [Bool.xor_assoc, Bool.xor_comm, Bool.xor_left_comm, bxor_cancel_left,
    Bool.xor_self, Bool.xor_false, Bool.false_xor]

/-- C9: every candidate is consistent with `rk18`, including the two constant
bit flips: for a 32-bit `rk18` and `i` in `0..2^29-1`, the candidate
`(hi, lo)` satisfies
`((hi >> 61) | ((lo & 0x1FFFFFFF) << 3)) ^ (hi & 0xFFFFFFFF) = rk18 ^ 0xA0`;
bit `t` of `rk18` is `hi[t] ^ hi[61+t]` for `t = 0..2` and `hi[t] ^ lo[t-3]`
for `t = 3..31`, complemented exactly at `t = 5` and `t = 7`. -/
theorem C9_candidate_consistent_with_rk18 (rk16 rk17 rk18 in_bits i : Nat)
    (h18 : rk18 < 2 ^ 32) (hi : i < 2 ^ 29) :
    ((((candidate in_bits rk16 rk17 rk18 i).1 >>> 61) |||
       ((((candidate in_bits rk16 rk17 rk18 i).2 &&& 0x1FFFFFFF) <<< 3) % 2 ^ 64)) ^^^
      ((candidate in_bits rk16 rk17 rk18 i).1 &&& 0xFFFFFFFF)
        = rk18 ^^^ 0xA0) ∧
    (∀ t, t < 3 →
      rk18.testBit t
        = xor ((candidate in_bits rk16 rk17 rk18 i).1.testBit t)
              ((candidate in_bits rk16 rk17 rk18 i).1.testBit (61 + t))) ∧
    (∀ t, 3 ≤ t → t < 32 →
      rk18.testBit t
        = xor (xor ((candidate in_bits rk16 rk17 rk18 i).1.testBit t)
                   ((candidate in_bits rk16 rk17 rk18 i).2.testBit (t - 3)))
              (decide (t = 5) || decide (t = 7))) := by
  have e1 := cand_rk18_mod in_bits rk16 rk17 rk18 i
  rw [Nat.mod_eq_of_lt h18, Nat.mod_eq_of_lt hi] at e1
  refine ⟨e1, ?_, ?_⟩
  · intro t ht
    have e2 := cand_rk18_low_bits in_bits rk16 rk17 rk18 i t ht
    rwa [Nat.mod_eq_of_lt hi] at e2
  · intro t h3 h32
    exact cand_rk18_high_bits in_bits rk16 rk17 rk18 i t h3 h32

/-- C9, at `rk16 = 0x12345678`, `rk17 = 0x9ABCDEF0`, `rk18 = 0x0F1E2D3C`,
`in_bits = 37`, `i = 0x1234567`. -/
theorem C9_candidate_consistent_with_rk18_witness :
    (0x0F1E2D3C < 2 ^ 32 ∧ 0x1234567 < 2 ^ 29) ∧
    ((((candidate 37 0x12345678 0x9ABCDEF0 0x0F1E2D3C 0x1234567).1 >>> 61) |||
       ((((candidate 37 0x12345678 0x9ABCDEF0 0x0F1E2D3C 0x1234567).2 &&& 0x1FFFFFFF) <<< 3)
          % 2 ^ 64)) ^^^
      ((candidate 37 0x12345678 0x9ABCDEF0 0x0F1E2D3C 0x1234567).1 &&& 0xFFFFFFFF)
        = 0x0F1E2D3C ^^^ 0xA0) ∧
    (∀ t, t < 3 →
      Nat.testBit 0x0F1E2D3C t
        = xor ((candidate 37 0x12345678 0x9ABCDEF0 0x0F1E2D3C 0x1234567).1.testBit t)
              ((candidate 37 0x12345678 0x9ABCDEF0 0x0F1E2D3C 0x1234567).1.testBit (61 + t))) ∧
    (∀ t, 3 ≤ t → t < 32 →
      Nat.testBit 0x0F1E2D3C t
        = xor (xor ((candidate 37 0x12345678 0x9ABCDEF0 0x0F1E2D3C 0x1234567).1.testBit t)
                   ((candidate 37 0x12345678 0x9ABCDEF0 0x0F1E2D3C 0x1234567).2.testBit (t - 3)))
              (decide (t = 5) || decide (t = 7))) :=
  ⟨⟨by decide, by decide⟩,
   C9_candidate_consistent_with_rk18 0x12345678 0x9ABCDEF0 0x0F1E2D3C 37 0x1234567
     (by decide) (by decide)⟩


theorem search_one_a_lt (in_bits RK16 : Nat) : search_one_a in_bits RK16 < 16 := by
  unfold search_one_a
  exact Nat.xor_lt_two_pow (n := 4)
    (Nat.xor_lt_two_pow (n := 4) (inv4_lt _) (by decide)) (and_lt_right (n := 4) _ (by decide))

theorem search_one_b_lt (in_bits RK16 : Nat) : search_one_b in_bits RK16 < 16 := by
  unfold search_one_b
  exact Nat.xor_lt_two_pow (n := 4)
    (Nat.xor_lt_two_pow (n := 4) (inv4_lt _) (by decide)) (and_lt_right (n := 4) _ (by decide))

theorem nat_xor_cancel2 (x c r : Nat) : ((x ^^^ c) ^^^ r) ^^^ c ^^^ r = x := by
  apply Nat.eq_of_testBit_eq
  intro j
  simp only [Nat.testBit_xor]
  cases x.testBit j <;> cases c.testBit j <;> cases r.testBit j <;> rfl

theorem sub4_inv4_and (n : Nat) : sub4 (inv4 n) = n &&& 0xF := by
  have h : n &&& 0xF < 16 := and_lt_right (n := 4) n (by decide)
  have e : inv4 n = inv4 (n &&& 0xF) := by
    unfold inv4
    rw [Nat.and_assoc, Nat.and_self]
  rw [e]
  exact sub4_inv4_lt _ h

theorem inv4_and (n : Nat) : inv4 (n &&& 0xF) = inv4 n := by
  unfold inv4
  rw [Nat.and_assoc, Nat.and_self]

/-- Bits 1..4 of `hi` hold the local `a`. -/
theorem cand_hi_nibble1 (in_bits RK16 RK17 RK18 i : Nat) :
    ((search_one_candidate (search_one_template in_bits RK16 RK18) RK17 i).1 >>> 1) &&& 0xF
      = search_one_a in_bits RK16 := by
  have ha := search_one_a_lt in_bits RK16
  refine eq_of_testBit_lt (n := 4) (and_lt_right (n := 4) _ (by decide)) ha ?_
  intro j hj
  simp only [search_one_candidate, search_one_template]
  generalize search_one_a in_bits RK16 = a
  generalize search_one_b in_bits RK16 = b
  simp only [and_one_eq_toNat, shr_and_one_eq_toNat, XOR1_toNat, XOR2_toNat, toNat_xor_one,
    testBit_SET_H, testBit_SET_L,
    Nat.testBit_or, Nat.testBit_and, Nat.testBit_xor, Nat.testBit_shiftLeft,
    Nat.testBit_shiftRight, Nat.testBit_mod_two_pow, tbF, Nat.zero_testBit]
  interval_cases j <;>
  simp only [Nat.reduceAdd, Nat.reduceSub, Nat.reduceLT, Nat.reduceGT, Nat.reduceLeDiff,
    Nat.reduceEqDiff, ge_iff_le, decide_True, decide_False, Bool.and_true, Bool.true_and,
    Bool.false_and, Bool.and_false, Bool.or_false, Bool.false_or, Bool.xor_false,
    Bool.false_xor, Bool.or_true, Bool.true_or]

/-- Bits 5..8 of `hi` hold the local `b`. -/
theorem cand_hi_nibble5 (in_bits RK16 RK17 RK18 i : Nat) :
    ((search_one_candidate (search_one_template in_bits RK16 RK18) RK17 i).1 >>> 5) &&& 0xF
      = search_one_b in_bits RK16 := by
  have hb := search_one_b_lt in_bits RK16
  refine eq_of_testBit_lt (n := 4) (and_lt_right (n := 4) _ (by decide)) hb ?_
  intro j hj
  simp only [search_one_candidate, search_one_template]
  generalize search_one_a in_bits RK16 = a
  generalize search_one_b in_bits RK16 = b
  simp only [and_one_eq_toNat, shr_and_one_eq_toNat, XOR1_toNat, XOR2_toNat, toNat_xor_one,
    testBit_SET_H, testBit_SET_L,
    Nat.testBit_or, Nat.testBit_and, Nat.testBit_xor, Nat.testBit_shiftLeft,
    Nat.testBit_shiftRight, Nat.testBit_mod_two_pow, tbF, Nat.zero_testBit]
  interval_cases j <;>
  simp only [Nat.reduceAdd, Nat.reduceSub, Nat.reduceLT, Nat.reduceGT, Nat.reduceLeDiff,
    Nat.reduceEqDiff, ge_iff_le, decide_True, decide_False, Bool.and_true, Bool.true_and,
    Bool.false_and, Bool.and_false, Bool.or_false, Bool.false_or, Bool.xor_false,
    Bool.false_xor, Bool.or_true, Bool.true_or]

/-- Bits 59..62 of `lo` hold the argument of the first inverse S-box. -/
theorem cand_lo_nibble59 (in_bits RK16 RK17 RK18 i : Nat) :
    ((search_one_candidate (search_one_template in_bits RK16 RK18) RK17 (i % 2 ^ 29)).2
        >>> 59) &&& 0xF
      = ((((((in_bits >>> 3) &&& 1) <<< 3) ||| (((in_bits >>> 2) &&& 1) <<< 2)) |||
          (((in_bits >>> 1) &&& 1) <<< 1)) ||| (in_bits &&& 1)) &&& 0xF := by
  refine eq_of_testBit_lt (n := 4) (and_lt_right (n := 4) _ (by decide))
    (and_lt_right (n := 4) _ (by decide)) ?_
  intro j hj
  simp only [search_one_candidate, search_one_template]
  generalize search_one_a in_bits RK16 = a
  generalize search_one_b in_bits RK16 = b
  simp only [and_one_eq_toNat, shr_and_one_eq_toNat, XOR1_toNat, XOR2_toNat, toNat_xor_one,
    testBit_SET_H, testBit_SET_L, Nat.testBit_bool_to_nat,
    Nat.testBit_or, Nat.testBit_and, Nat.testBit_xor, Nat.testBit_shiftLeft,
    Nat.testBit_shiftRight, Nat.testBit_mod_two_pow, tbF, Nat.zero_testBit]
  interval_cases j <;>
  simp only [Nat.reduceAdd, Nat.reduceSub, Nat.reduceLT, Nat.reduceGT, Nat.reduceLeDiff,
    Nat.reduceEqDiff, ge_iff_le, decide_True, decide_False, Bool.and_true, Bool.true_and,
    Bool.false_and, Bool.and_false, Bool.or_false, Bool.false_or, Bool.xor_false,
    Bool.false_xor, Bool.or_true, Bool.true_or]

/-- Bits 0..2 of `hi` and bit 63 of `lo` hold the argument of the second
inverse S-box. -/
theorem cand_second_nibble (in_bits RK16 RK17 RK18 i : Nat) :
    (((search_one_candidate (search_one_template in_bits RK16 RK18) RK17 (i % 2 ^ 29)).1
        &&& 7) <<< 1) |||
      ((search_one_candidate (search_one_template in_bits RK16 RK18) RK17 (i % 2 ^ 29)).2
        >>> 63)
      = ((((search_one_a in_bits RK16) &&& 3) <<< 2) ||| (((in_bits >>> 5) &&& 1) <<< 1)) |||
          ((in_bits >>> 4) &&& 1) := by
  apply Nat.eq_of_testBit_eq
  intro j
  simp only [search_one_candidate, search_one_template]
  generalize search_one_a in_bits RK16 = a
  generalize search_one_b in_bits RK16 = b
  simp only [and_one_eq_toNat, shr_and_one_eq_toNat, XOR1_toNat, XOR2_toNat, toNat_xor_one,
    testBit_SET_H, testBit_SET_L, Nat.testBit_bool_to_nat,
    Nat.testBit_or, Nat.testBit_and, Nat.testBit_xor, Nat.testBit_shiftLeft,
    Nat.testBit_shiftRight, Nat.testBit_mod_two_pow, tb3, tb7, Nat.zero_testBit]
  by_cases hj : j < 4
  · interval_cases j <;>
    simp only [Nat.reduceAdd, Nat.reduceSub, Nat.reduceLT, Nat.reduceGT, Nat.reduceLeDiff,
      Nat.reduceEqDiff, ge_iff_le, decide_True, decide_False, Bool.and_true, Bool.true_and,
      Bool.false_and, Bool.and_false, Bool.or_false, Bool.false_or, Bool.xor_false,
      Bool.false_xor, Bool.or_true, Bool.true_or]
  · have h1 : ¬ (j - 1 < 3) := by omega
    have h2 : ¬ (63 + j < 64) := by omega
    have h3 : ¬ (j - 2 < 2) := by omega
    have h4 : ¬ (j - 1 = 0) := by omega
    have h5 : ¬ (j = 0) := by omega
    simp only [h1, h2, h3, h4, h5, decide_False, Bool.false_and, Bool.and_false,
      Bool.or_false, Bool.xor_false]

/-- Bit 0 of `hi` and bit 58 of `lo` differ by bit 0 of `RK16`. -/
theorem cand_rk16_bit0 (in_bits RK16 RK17 RK18 i : Nat) :
    xor ((search_one_candidate (search_one_template in_bits RK16 RK18) RK17
            (i % 2 ^ 29)).1.testBit 0)
        ((search_one_candidate (search_one_template in_bits RK16 RK18) RK17
            (i % 2 ^ 29)).2.testBit 58)
      = RK16.testBit 0 := by
  simp only [search_one_candidate, search_one_template]
  generalize search_one_a in_bits RK16 = a
  generalize search_one_b in_bits RK16 = b
  simp only [and_one_eq_toNat, shr_and_one_eq_toNat, XOR1_toNat, XOR2_toNat, toNat_xor_one,
    testBit_SET_H, testBit_SET_L,
    Nat.testBit_or, Nat.testBit_and, Nat.testBit_xor, Nat.testBit_shiftLeft,
    Nat.testBit_shiftRight, Nat.testBit_mod_two_pow, Nat.zero_testBit]
  simp only [Nat.reduceAdd, Nat.reduceSub, Nat.reduceLT, Nat.reduceGT, Nat.reduceLeDiff,
    Nat.reduceEqDiff, ge_iff_le, decide_True, decide_False, Bool.and_true, Bool.true_and,
    Bool.false_and, Bool.and_false, Bool.or_false, Bool.false_or, Bool.xor_false,
    Bool.false_xor, Bool.or_true, Bool.true_or]
  simp only [Bool.xor_assoc, Bool.xor_comm, Bool.xor_left_comm, bxor_cancel_left,
    Bool.xor_self, Bool.xor_false, Bool.false_xor]

/-- Bits `t` and `t - 6` of `hi` differ by bit `t` of `RK16`, for `t` in `9..31`. -/
theorem cand_rk16_chain (in_bits RK16 RK17 RK18 i t : Nat) (h9 : 9 ≤ t) (h31 : t ≤ 31) :
    xor ((search_one_candidate (search_one_template in_bits RK16 RK18) RK17 i).1.testBit t)
        ((search_one_candidate (search_one_template in_bits RK16 RK18) RK17 i).1.testBit
          (t - 6))
      = RK16.testBit t := by
  simp only [search_one_candidate, search_one_template]
  generalize search_one_a in_bits RK16 = a
  generalize search_one_b in_bits RK16 = b
  simp only [and_one_eq_toNat, shr_and_one_eq_toNat, XOR1_toNat, XOR2_toNat, toNat_xor_one,
    testBit_SET_H, testBit_SET_L,
    Nat.testBit_or, Nat.testBit_and, Nat.testBit_xor, Nat.testBit_shiftLeft,
    Nat.testBit_shiftRight, Nat.testBit_mod_two_pow, Nat.zero_testBit]
  interval_cases t <;>
  simp only [Nat.reduceAdd, Nat.reduceSub, Nat.reduceLT, Nat.reduceGT, Nat.reduceLeDiff,
    Nat.reduceEqDiff, ge_iff_le, decide_True, decide_False, Bool.and_true, Bool.true_and,
    Bool.false_and, Bool.and_false, Bool.or_false, Bool.false_or, Bool.xor_false,
    Bool.false_xor, Bool.or_true, Bool.true_or] <;>
  simp only [Bool.xor_assoc, Bool.xor_comm, Bool.xor_left_comm, bxor_cancel_left,
    Bool.xor_self, Bool.xor_false, Bool.false_xor]

theorem nat_xor_cancel_left (x r : Nat) : x ^^^ (x ^^^ r) = r := by
  apply Nat.eq_of_testBit_eq
  intro j
  simp only [Nat.testBit_xor]
  cases x.testBit j <;> cases r.testBit j <;> rfl

theorem and_mask4_of_lt (x : Nat) (h : x < 16) : x &&& 0xF = x := by
  interval_cases x <;> rfl

theorem second_nibble_lt (a x y : Nat) :
    ((((a &&& 3) <<< 2) ||| ((x &&& 1) <<< 1)) ||| (y &&& 1)) < 16 := by
  have h1 : a &&& 3 < 4 := and_lt_right (n := 2) a (by decide)
  have h2 : x &&& 1 < 2 := and_lt_right (n := 1) x (by decide)
  have h3 : y &&& 1 < 2 := and_lt_right (n := 1) y (by decide)
  refine Nat.or_lt_two_pow (n := 4) (Nat.or_lt_two_pow (n := 4) ?_ ?_) (by omega)
  · rw [Nat.shiftLeft_eq]; omega
  · rw [Nat.shiftLeft_eq]; omega

/-- Relation (a) of the first inverse S-box nibble, with the inverse reading. -/
theorem cand_rk16_first_nibble (in_bits rk16 rk17 rk18 i : Nat) (hi : i < 2 ^ 29) :
    sub4 ((((candidate in_bits rk16 rk17 rk18 i).1 >>> 1) &&& 0xF) ^^^ 0x8
        ^^^ ((rk16 >>> 1) &&& 0xF))
      = ((candidate in_bits rk16 rk17 rk18 i).2 >>> 59) &&& 0xF ∧
    (rk16 >>> 1) &&& 0xF
      = inv4 (((candidate in_bits rk16 rk17 rk18 i).2 >>> 59) &&& 0xF) ^^^ 0x8
          ^^^ (((candidate in_bits rk16 rk17 rk18 i).1 >>> 1) &&& 0xF) := by
  have e1 := cand_hi_nibble1 in_bits rk16 rk17 rk18 i
  have e2 := cand_lo_nibble59 in_bits rk16 rk17 rk18 i
  rw [Nat.mod_eq_of_lt hi] at e2
  unfold candidate
  rw [e1, e2]
  unfold search_one_a
  constructor
  · rw [nat_xor_cancel2, sub4_inv4_and]
  · rw [inv4_and, nat_xor_cancel_left]

/-- Relation (b) of the second inverse S-box nibble, with the inverse reading. -/
theorem cand_rk16_second_nibble (in_bits rk16 rk17 rk18 i : Nat) (hi : i < 2 ^ 29) :
    sub4 ((((candidate in_bits rk16 rk17 rk18 i).1 >>> 5) &&& 0xF) ^^^ 0x4
        ^^^ ((rk16 >>> 5) &&& 0xF))
      = (((candidate in_bits rk16 rk17 rk18 i).1 &&& 7) <<< 1) |||
          ((candidate in_bits rk16 rk17 rk18 i).2 >>> 63) ∧
    (rk16 >>> 5) &&& 0xF
      = inv4 ((((candidate in_bits rk16 rk17 rk18 i).1 &&& 7) <<< 1) |||
            ((candidate in_bits rk16 rk17 rk18 i).2 >>> 63)) ^^^ 0x4
          ^^^ (((candidate in_bits rk16 rk17 rk18 i).1 >>> 5) &&& 0xF) := by
  have e1 := cand_hi_nibble5 in_bits rk16 rk17 rk18 i
  have e2 := cand_second_nibble in_bits rk16 rk17 rk18 i
  rw [Nat.mod_eq_of_lt hi] at e2
  unfold candidate
  rw [e1, e2]
  have hlt := second_nibble_lt (search_one_a in_bits rk16) (in_bits >>> 5) (in_bits >>> 4)
  simp only [search_one_b]
  constructor
  · rw [nat_xor_cancel2, sub4_inv4_and, and_mask4_of_lt _ hlt]
  · rw [nat_xor_cancel_left]

/-- C10: every candidate is consistent with `rk16`: for `i` in `0..2^29-1`,
the candidate `(hi, lo)` satisfies (a)
`sub4(((hi>>1)&0xF) ^ 0x8 ^ ((rk16>>1)&0xF)) = (lo>>59)&0xF`, (b)
`sub4(((hi>>5)&0xF) ^ 0x4 ^ ((rk16>>5)&0xF)) = ((hi&7)<<1) | (lo>>63)`, (c)
`hi[0] ^ lo[58] = rk16[0]`, and (d) `hi[t] ^ hi[t-6] = rk16[t]` for `t` in
`9..31`; bits 1..8 of `rk16` are recomputed from the candidate through the
inverse S-box, so all 32 bits of `rk16` are determined by the candidate. -/
theorem C10_candidate_consistent_with_rk16 (rk16 rk17 rk18 in_bits i : Nat)
    (hi : i < 2 ^ 29) :
    (sub4 ((((candidate in_bits rk16 rk17 rk18 i).1 >>> 1) &&& 0xF) ^^^ 0x8
        ^^^ ((rk16 >>> 1) &&& 0xF))
      = ((candidate in_bits rk16 rk17 rk18 i).2 >>> 59) &&& 0xF) ∧
    (sub4 ((((candidate in_bits rk16 rk17 rk18 i).1 >>> 5) &&& 0xF) ^^^ 0x4
        ^^^ ((rk16 >>> 5) &&& 0xF))
      = (((candidate in_bits rk16 rk17 rk18 i).1 &&& 7) <<< 1) |||
          ((candidate in_bits rk16 rk17 rk18 i).2 >>> 63)) ∧
    (xor ((candidate in_bits rk16 rk17 rk18 i).1.testBit 0)
         ((candidate in_bits rk16 rk17 rk18 i).2.testBit 58) = rk16.testBit 0) ∧
    (∀ t, 9 ≤ t → t ≤ 31 →
      xor ((candidate in_bits rk16 rk17 rk18 i).1.testBit t)
          ((candidate in_bits rk16 rk17 rk18 i).1.testBit (t - 6)) = rk16.testBit t) ∧
    ((rk16 >>> 1) &&& 0xF
      = inv4 (((candidate in_bits rk16 rk17 rk18 i).2 >>> 59) &&& 0xF) ^^^ 0x8
          ^^^ (((candidate in_bits rk16 rk17 rk18 i).1 >>> 1) &&& 0xF)) ∧
    ((rk16 >>> 5) &&& 0xF
      = inv4 ((((candidate in_bits rk16 rk17 rk18 i).1 &&& 7) <<< 1) |||
            ((candidate in_bits rk16 rk17 rk18 i).2 >>> 63)) ^^^ 0x4
          ^^^ (((candidate in_bits rk16 rk17 rk18 i).1 >>> 5) &&& 0xF)) := by
  have ha := cand_rk16_first_nibble in_bits rk16 rk17 rk18 i hi
  have hb := cand_rk16_second_nibble in_bits rk16 rk17 rk18 i hi
  have hc := cand_rk16_bit0 in_bits rk16 rk17 rk18 i
  rw [Nat.mod_eq_of_lt hi] at hc
  exact ⟨ha.1, hb.1, hc, fun t h9 h31 => cand_rk16_chain in_bits rk16 rk17 rk18 i t h9 h31,
    ha.2, hb.2⟩

/-- C10, at `rk16 = 0x12345678`, `rk17 = 0x9ABCDEF0`, `rk18 = 0x0F1E2D3C`,
`in_bits = 37`, `i = 0x1234567`. -/
theorem C10_candidate_consistent_with_rk16_witness :
    (0x1234567 < 2 ^ 29) ∧
    ((sub4 ((((candidate 37 0x12345678 0x9ABCDEF0 0x0F1E2D3C 0x1234567).1 >>> 1) &&& 0xF)
          ^^^ 0x8 ^^^ ((0x12345678 >>> 1) &&& 0xF))
      = ((candidate 37 0x12345678 0x9ABCDEF0 0x0F1E2D3C 0x1234567).2 >>> 59) &&& 0xF) ∧
    (sub4 ((((candidate 37 0x12345678 0x9ABCDEF0 0x0F1E2D3C 0x1234567).1 >>> 5) &&& 0xF)
          ^^^ 0x4 ^^^ ((0x12345678 >>> 5) &&& 0xF))
      = (((candidate 37 0x12345678 0x9ABCDEF0 0x0F1E2D3C 0x1234567).1 &&& 7) <<< 1) |||
          ((candidate 37 0x12345678 0x9ABCDEF0 0x0F1E2D3C 0x1234567).2 >>> 63)) ∧
    (xor ((candidate 37 0x12345678 0x9ABCDEF0 0x0F1E2D3C 0x1234567).1.testBit 0)
         ((candidate 37 0x12345678 0x9ABCDEF0 0x0F1E2D3C 0x1234567).2.testBit 58)
      = Nat.testBit 0x12345678 0) ∧
    (∀ t, 9 ≤ t → t ≤ 31 →
      xor ((candidate 37 0x12345678 0x9ABCDEF0 0x0F1E2D3C 0x1234567).1.testBit t)
          ((candidate 37 0x12345678 0x9ABCDEF0 0x0F1E2D3C 0x1234567).1.testBit (t - 6))
        = Nat.testBit 0x12345678 t) ∧
    ((0x12345678 >>> 1) &&& 0xF
      = inv4 (((candidate 37 0x12345678 0x9ABCDEF0 0x0F1E2D3C 0x1234567).2 >>> 59) &&& 0xF)
          ^^^ 0x8
          ^^^ (((candidate 37 0x12345678 0x9ABCDEF0 0x0F1E2D3C 0x1234567).1 >>> 1) &&& 0xF)) ∧
    ((0x12345678 >>> 5) &&& 0xF
      = inv4 ((((candidate 37 0x12345678 0x9ABCDEF0 0x0F1E2D3C 0x1234567).1 &&& 7) <<< 1) |||
            ((candidate 37 0x12345678 0x9ABCDEF0 0x0F1E2D3C 0x1234567).2 >>> 63)) ^^^ 0x4
          ^^^ (((candidate 37 0x12345678 0x9ABCDEF0 0x0F1E2D3C 0x1234567).1 >>> 5) &&& 0xF))) :=
  ⟨by decide,
   C10_candidate_consistent_with_rk16 0x12345678 0x9ABCDEF0 0x0F1E2D3C 37 0x1234567
     (by decide)⟩

/-! ## The two windows filled by the inner loop -/

theorem template_window_hi (in_bits RK16 RK18 j : Nat) (h1 : 32 ≤ j) (h2 : j ≤ 60) :
    (search_one_template in_bits RK16 RK18).1.testBit j = false := by
  simp only [search_one_template]
  generalize search_one_a in_bits RK16 = a
  generalize search_one_b in_bits RK16 = b
  simp only [and_one_eq_toNat, shr_and_one_eq_toNat, XOR1_toNat, XOR2_toNat, toNat_xor_one,
    testBit_SET_H, testBit_SET_L, Nat.zero_testBit]
  interval_cases j <;>
  simp only [Nat.reduceAdd, Nat.reduceSub, Nat.reduceLT, Nat.reduceGT, Nat.reduceLeDiff,
    Nat.reduceEqDiff, ge_iff_le, decide_True, decide_False, Bool.and_true, Bool.true_and,
    Bool.false_and, Bool.and_false, Bool.or_false, Bool.false_or, Bool.xor_false,
    Bool.false_xor, Bool.or_true, Bool.true_or]

theorem template_window_lo (in_bits RK16 RK18 j : Nat) (h1 : 29 ≤ j) (h2 : j ≤ 57) :
    (search_one_template in_bits RK16 RK18).2.testBit j = false := by
  simp only [search_one_template]
  generalize search_one_a in_bits RK16 = a
  generalize search_one_b in_bits RK16 = b
  simp only [and_one_eq_toNat, shr_and_one_eq_toNat, XOR1_toNat, XOR2_toNat, toNat_xor_one,
    testBit_SET_H, testBit_SET_L, Nat.zero_testBit]
  interval_cases j <;>
  simp only [Nat.reduceAdd, Nat.reduceSub, Nat.reduceLT, Nat.reduceGT, Nat.reduceLeDiff,
    Nat.reduceEqDiff, ge_iff_le, decide_True, decide_False, Bool.and_true, Bool.true_and,
    Bool.false_and, Bool.and_false, Bool.or_false, Bool.false_or, Bool.xor_false,
    Bool.false_xor, Bool.or_true, Bool.true_or]

theorem testBit_of_lt_pow {x n j : Nat} (hx : x < 2 ^ n) (hj : n ≤ j) : x.testBit j = false :=
  Nat.testBit_lt_two_pow (lt_of_lt_of_le hx (Nat.pow_le_pow_right (by decide) hj))

theorem window_value_lt (rk17 i : Nat) (hi : i < 2 ^ 29) :
    i ^^^ (rk17 &&& 0x1FFFFFFF) < 2 ^ 29 :=
  Nat.xor_lt_two_pow hi (and_lt_right (n := 29) _ (by decide))

/-- Bit `j` of `t | ((x << s) mod 2^64)` for a `w`-bit `x` with `s + w ≤ 64`. -/
theorem or_window_testBit (t x s w j : Nat) (hx : x < 2 ^ w) (hsw : s + w ≤ 64) :
    (t ||| ((x <<< s) % 2 ^ 64)).testBit j
      = (t.testBit j || (decide (s ≤ j) && x.testBit (j - s))) := by
  rw [Nat.testBit_or, Nat.testBit_mod_two_pow, Nat.testBit_shiftLeft]
  by_cases h : j < 64
  · simp [h]
  · have : x.testBit (j - s) = false := testBit_of_lt_pow hx (by omega)
    simp [h, this]

theorem cand_window_hi (in_bits rk16 rk17 rk18 i : Nat) (hi : i < 2 ^ 29) :
    ((candidate in_bits rk16 rk17 rk18 i).1 >>> 32) &&& 0x1FFFFFFF
      = i ^^^ (rk17 &&& 0x1FFFFFFF) := by
  have hx := window_value_lt rk17 i hi
  refine eq_of_testBit_lt (n := 29) (and_lt_right (n := 29) _ (by decide)) hx ?_
  intro j hj
  have hw := template_window_hi in_bits rk16 rk18 (32 + j) (by omega) (by omega)
  have e : 32 + j - 32 = j := by omega
  have h32 : 32 ≤ 32 + j := by omega
  simp only [candidate, search_one_candidate, Nat.testBit_and, Nat.testBit_shiftRight,
    or_window_testBit _ _ 32 29 _ hx (by decide), hw, e, h32, tb_mask29, hj, decide_True,
    Bool.false_or, Bool.true_and, Bool.and_true]

theorem cand_window_lo (in_bits rk16 rk17 rk18 i : Nat) (hi : i < 2 ^ 29) :
    ((candidate in_bits rk16 rk17 rk18 i).2 >>> 29) &&& 0x1FFFFFFF = i := by
  refine eq_of_testBit_lt (n := 29) (and_lt_right (n := 29) _ (by decide)) hi ?_
  intro j hj
  have hw := template_window_lo in_bits rk16 rk18 (29 + j) (by omega) (by omega)
  have e : 29 + j - 29 = j := by omega
  have h29 : 29 ≤ 29 + j := by omega
  simp only [candidate, search_one_candidate, Nat.testBit_and, Nat.testBit_shiftRight,
    or_window_testBit _ _ 29 29 _ hi (by decide), hw, e, h29, tb_mask29, hj, decide_True,
    Bool.false_or, Bool.true_and, Bool.and_true]

theorem cand_outside_hi (in_bits rk16 rk17 rk18 i j : Nat) (hi : i < 2 ^ 29)
    (hj : ¬ (32 ≤ j ∧ j ≤ 60)) :
    (candidate in_bits rk16 rk17 rk18 i).1.testBit j
      = (search_one_template in_bits rk16 rk18).1.testBit j := by
  have hx := window_value_lt rk17 i hi
  simp only [candidate, search_one_candidate, or_window_testBit _ _ 32 29 _ hx (by decide)]
  by_cases h : 32 ≤ j
  · have : (i ^^^ (rk17 &&& 0x1FFFFFFF)).testBit (j - 32) = false :=
      testBit_of_lt_pow hx (by omega)
    simp [this]
  · simp [h]

theorem cand_outside_lo (in_bits rk16 rk17 rk18 i j : Nat) (hi : i < 2 ^ 29)
    (hj : ¬ (29 ≤ j ∧ j ≤ 57)) :
    (candidate in_bits rk16 rk17 rk18 i).2.testBit j
      = (search_one_template in_bits rk16 rk18).2.testBit j := by
  simp only [candidate, search_one_candidate, or_window_testBit _ _ 29 29 _ hi (by decide)]
  by_cases h : 29 ≤ j
  · have : i.testBit (j - 29) = false := testBit_of_lt_pow hi (by omega)
    simp [this]
  · simp [h]

theorem xor_and_mask_cancel (a b m : Nat) :
    (a ^^^ b) &&& m = (a &&& m) ^^^ (b &&& m) := by
  apply Nat.eq_of_testBit_eq
  intro j
  simp only [Nat.testBit_and, Nat.testBit_xor]
  cases a.testBit j <;> cases b.testBit j <;> cases m.testBit j <;> rfl

theorem nat_xor_cancel_mid (x r : Nat) : (x ^^^ r) ^^^ x = r := by
  apply Nat.eq_of_testBit_eq
  intro j
  simp only [Nat.testBit_xor]
  cases x.testBit j <;> cases r.testBit j <;> rfl

/-- C11: inner-loop windows: for `i` in `0..2^29-1` the candidate has bits
32..60 of `hi` equal to `i ^ (rk17 & 0x1FFFFFFF)` and bits 29..57 of `lo`
equal to `i`; every other bit of `hi` and `lo` is the template bit, and the
template has no bit set inside either window; hence
`((hi >> 32) ^ (lo >> 29)) & 0x1FFFFFFF = rk17 & 0x1FFFFFFF`. -/
theorem C11_inner_loop_windows (rk16 rk17 rk18 in_bits i : Nat) (hi : i < 2 ^ 29) :
    (((candidate in_bits rk16 rk17 rk18 i).1 >>> 32) &&& 0x1FFFFFFF
      = i ^^^ (rk17 &&& 0x1FFFFFFF)) ∧
    (((candidate in_bits rk16 rk17 rk18 i).2 >>> 29) &&& 0x1FFFFFFF = i) ∧
    (∀ j, ¬ (32 ≤ j ∧ j ≤ 60) →
      (candidate in_bits rk16 rk17 rk18 i).1.testBit j
        = (search_one_template in_bits rk16 rk18).1.testBit j) ∧
    (∀ j, ¬ (29 ≤ j ∧ j ≤ 57) →
      (candidate in_bits rk16 rk17 rk18 i).2.testBit j
        = (search_one_template in_bits rk16 rk18).2.testBit j) ∧
    (∀ j, 32 ≤ j → j ≤ 60 → (search_one_template in_bits rk16 rk18).1.testBit j = false) ∧
    (∀ j, 29 ≤ j → j ≤ 57 → (search_one_template in_bits rk16 rk18).2.testBit j = false) ∧
    ((((candidate in_bits rk16 rk17 rk18 i).1 >>> 32) ^^^
        ((candidate in_bits rk16 rk17 rk18 i).2 >>> 29)) &&& 0x1FFFFFFF
      = rk17 &&& 0x1FFFFFFF) := by
  have ha := cand_window_hi in_bits rk16 rk17 rk18 i hi
  have hb := cand_window_lo in_bits rk16 rk17 rk18 i hi
  refine ⟨ha, hb, fun j hj => cand_outside_hi in_bits rk16 rk17 rk18 i j hi hj,
    fun j hj => cand_outside_lo in_bits rk16 rk17 rk18 i j hi hj,
    fun j h1 h2 => template_window_hi in_bits rk16 rk18 j h1 h2,
    fun j h1 h2 => template_window_lo in_bits rk16 rk18 j h1 h2, ?_⟩
  rw [xor_and_mask_cancel, ha, hb, nat_xor_cancel_mid]

/-- C11, at `rk16 = 0x12345678`, `rk17 = 0x9ABCDEF0`, `rk18 = 0x0F1E2D3C`,
`in_bits = 37`, `i = 0x1234567`. -/
theorem C11_inner_loop_windows_witness :
    (0x1234567 < 2 ^ 29) ∧
    ((((candidate 37 0x12345678 0x9ABCDEF0 0x0F1E2D3C 0x1234567).1 >>> 32) &&& 0x1FFFFFFF
      = 0x1234567 ^^^ (0x9ABCDEF0 &&& 0x1FFFFFFF)) ∧
    (((candidate 37 0x12345678 0x9ABCDEF0 0x0F1E2D3C 0x1234567).2 >>> 29) &&& 0x1FFFFFFF
      = 0x1234567) ∧
    (∀ j, ¬ (32 ≤ j ∧ j ≤ 60) →
      (candidate 37 0x12345678 0x9ABCDEF0 0x0F1E2D3C 0x1234567).1.testBit j
        = (search_one_template 37 0x12345678 0x0F1E2D3C).1.testBit j) ∧
    (∀ j, ¬ (29 ≤ j ∧ j ≤ 57) →
      (candidate 37 0x12345678 0x9ABCDEF0 0x0F1E2D3C 0x1234567).2.testBit j
        = (search_one_template 37 0x12345678 0x0F1E2D3C).2.testBit j) ∧
    (∀ j, 32 ≤ j → j ≤ 60 →
      (search_one_template 37 0x12345678 0x0F1E2D3C).1.testBit j = false) ∧
    (∀ j, 29 ≤ j → j ≤ 57 →
      (search_one_template 37 0x12345678 0x0F1E2D3C).2.testBit j = false) ∧
    ((((candidate 37 0x12345678 0x9ABCDEF0 0x0F1E2D3C 0x1234567).1 >>> 32) ^^^
        ((candidate 37 0x12345678 0x9ABCDEF0 0x0F1E2D3C 0x1234567).2 >>> 29)) &&& 0x1FFFFFFF
      = 0x9ABCDEF0 &&& 0x1FFFFFFF)) :=
  ⟨by decide, C11_inner_loop_windows 0x12345678 0x9ABCDEF0 0x0F1E2D3C 37 0x1234567 (by decide)⟩

/-! ## The stage tables -/

theorem stage_to_pos_toNat_ne_zero (s : Nat) (hs : s < 8) :
    (stage_to_pos (s : Int)).toNat ≠ 0 := by
  interval_cases s <;> decide

section StageFrame

variable (S : Nat → Nat) (substitute_with_sbox : Nat → Nat)
  (decrypt_half_one_round : Nat → (Nat → Nat) → Nat)
  (decrypt_half_two_round : Nat → (Nat → Nat) → (Nat → Nat) → Nat)

/-- A stage writes one entry of each array and nothing else. -/
theorem run_stage_frame (dataset : List Pair) (round stage : Nat)
    (keys : (Nat → Nat → Nat) × (Nat → Nat → Nat)) (r p : Nat)
    (h : ¬ (r = round ∧ p = (stage_to_pos (stage : Int)).toNat)) :
    (run_stage S substitute_with_sbox decrypt_half_one_round decrypt_half_two_round
        dataset round stage keys).1 r p = keys.1 r p ∧
    (run_stage S substitute_with_sbox decrypt_half_one_round decrypt_half_two_round
        dataset round stage keys).2 r p = keys.2 r p := by
  simp only [run_stage, set2, h, if_false, and_self]

theorem stages_frame_zero (dataset : List Pair) (round : Nat) (stages : List Nat)
    (hs : ∀ s, s ∈ stages → s < 8) (keys : (Nat → Nat → Nat) × (Nat → Nat → Nat)) (r : Nat) :
    (stages.foldl
        (fun keys stage =>
          run_stage S substitute_with_sbox decrypt_half_one_round decrypt_half_two_round
            dataset round stage keys) keys).2 r 0 = keys.2 r 0 := by
  induction stages generalizing keys with
  | nil => rfl
  | cons s rest ih =>
    rw [List.foldl_cons, ih (fun t ht => hs t (List.mem_cons_of_mem s ht))]
    refine (run_stage_frame S substitute_with_sbox decrypt_half_one_round
      decrypt_half_two_round dataset round s keys r 0 ?_).2
    intro h
    exact stage_to_pos_toNat_ne_zero s (hs s (List.mem_cons_self s rest)) h.2.symm

theorem rounds_frame_zero (dataset : List Pair) (rounds : List Nat)
    (keys : (Nat → Nat → Nat) × (Nat → Nat → Nat)) (r : Nat) :
    (rounds.foldl
        (fun keys round =>
          (List.range 8).foldl
            (fun keys stage =>
              run_stage S substitute_with_sbox decrypt_half_one_round
                decrypt_half_two_round dataset round stage keys) keys) keys).2 r 0
      = keys.2 r 0 := by
  induction rounds generalizing keys with
  | nil => rfl
  | cons rd rest ih =>
    rw [List.foldl_cons, ih]
    exact stages_frame_zero S substitute_with_sbox decrypt_half_one_round
      decrypt_half_two_round dataset rd (List.range 8) (fun s hs => List.mem_range.mp hs) keys r

theorem linear_attack_frame_zero (dataset : List Pair) (rk_nib : Nat → Nat → Nat) (r : Nat) :
    linear_attack_recover_keys S substitute_with_sbox decrypt_half_one_round
      decrypt_half_two_round dataset rk_nib r 0 = rk_nib r 0 := by
  unfold linear_attack_recover_keys
  exact rounds_frame_zero S substitute_with_sbox decrypt_half_one_round
    decrypt_half_two_round dataset (List.range 3) _ r

theorem stage_to_pos_toNat_inj (s t : Nat) (hs : s < 8) (ht : t < 8)
    (h : (stage_to_pos (s : Int)).toNat = (stage_to_pos (t : Int)).toNat) : s = t := by
  interval_cases s <;> interval_cases t <;> first | rfl | exact absurd h (by decide)

theorem stage_writers_count (p : Nat) :
    ((List.range 8).filter (fun s : Nat => decide ((stage_to_pos (s : Int)).toNat = p))).length
      = if 1 ≤ p ∧ p ≤ 8 then 1 else 0 := by
  by_cases hp : p ≤ 8
  · interval_cases p <;> decide
  · have h1 : ¬ (1 ≤ p ∧ p ≤ 8) := fun h => hp h.2
    rw [if_neg h1, List.length_eq_zero, List.filter_eq_nil_iff]
    intro s hs
    have hs8 : s < 8 := List.mem_range.mp hs
    have hle : (stage_to_pos (s : Int)).toNat ≤ 8 := by interval_cases s <;> decide
    simp only [decide_eq_true_eq]
    omega

/-- A stage stores `(uint8_t)best` at its position of both arrays. -/
theorem run_stage_eq (dataset : List Pair) (round stage : Nat)
    (keys : (Nat → Nat → Nat) × (Nat → Nat → Nat)) :
    run_stage S substitute_with_sbox decrypt_half_one_round decrypt_half_two_round
        dataset round stage keys
      = (set2 keys.1 round (stage_to_pos (stage : Int)).toNat
           ((find_max_deviation_index
              (stage_loop S substitute_with_sbox decrypt_half_one_round
                decrypt_half_two_round round stage keys.1 (stage_need round stage) dataset
                (fun _ => 0) 0).1
              (stage_loop S substitute_with_sbox decrypt_half_one_round
                decrypt_half_two_round round stage keys.1 (stage_need round stage) dataset
                (fun _ => 0) 0).2) % 256).toNat,
         set2 keys.2 round (stage_to_pos (stage : Int)).toNat
           ((find_max_deviation_index
              (stage_loop S substitute_with_sbox decrypt_half_one_round
                decrypt_half_two_round round stage keys.1 (stage_need round stage) dataset
                (fun _ => 0) 0).1
              (stage_loop S substitute_with_sbox decrypt_half_one_round
                decrypt_half_two_round round stage keys.1 (stage_need round stage) dataset
                (fun _ => 0) 0).2) % 256).toNat) := by
  simp only [run_stage, stage_need]

theorem run_stage_written (dataset : List Pair) (round stage : Nat)
    (keys : (Nat → Nat → Nat) × (Nat → Nat → Nat)) :
    (run_stage S substitute_with_sbox decrypt_half_one_round decrypt_half_two_round
        dataset round stage keys).1 round (stage_to_pos (stage : Int)).toNat
      = ((find_max_deviation_index
            (stage_loop S substitute_with_sbox decrypt_half_one_round
              decrypt_half_two_round round stage keys.1 (stage_need round stage) dataset
              (fun _ => 0) 0).1
            (stage_loop S substitute_with_sbox decrypt_half_one_round
              decrypt_half_two_round round stage keys.1 (stage_need round stage) dataset
              (fun _ => 0) 0).2) % 256).toNat ∧
    (run_stage S substitute_with_sbox decrypt_half_one_round decrypt_half_two_round
        dataset round stage keys).2 round (stage_to_pos (stage : Int)).toNat
      = ((find_max_deviation_index
            (stage_loop S substitute_with_sbox decrypt_half_one_round
              decrypt_half_two_round round stage keys.1 (stage_need round stage) dataset
              (fun _ => 0) 0).1
            (stage_loop S substitute_with_sbox decrypt_half_one_round
              decrypt_half_two_round round stage keys.1 (stage_need round stage) dataset
              (fun _ => 0) 0).2) % 256).toNat := by
  rw [run_stage_eq]
  simp only [set2, and_self, if_true]

/-- After the first `k` stages of a round, the entry at the position of stage
`s` holds the value stored by stage `s` when `s < k`, and its prior value
otherwise: the entry is written by stage `s` and by no other stage. -/
theorem stages_prefix_entry (dataset : List Pair) (round : Nat)
    (keys : (Nat → Nat → Nat) × (Nat → Nat → Nat)) (k s : Nat) (hk : k ≤ 8) (hs : s < 8) :
    ((List.range k).foldl
        (fun keys stage =>
          run_stage S substitute_with_sbox decrypt_half_one_round decrypt_half_two_round
            dataset round stage keys) keys).1 round (stage_to_pos (s : Int)).toNat
      = (if s < k then
          ((find_max_deviation_index
            (stage_loop S substitute_with_sbox decrypt_half_one_round
              decrypt_half_two_round round s
              ((List.range s).foldl
                (fun keys stage =>
                  run_stage S substitute_with_sbox decrypt_half_one_round
                    decrypt_half_two_round dataset round stage keys) keys).1
              (stage_need round s) dataset (fun _ => 0) 0).1
            (stage_loop S substitute_with_sbox decrypt_half_one_round
              decrypt_half_two_round round s
              ((List.range s).foldl
                (fun keys stage =>
                  run_stage S substitute_with_sbox decrypt_half_one_round
                    decrypt_half_two_round dataset round stage keys) keys).1
              (stage_need round s) dataset (fun _ => 0) 0).2) % 256).toNat
         else keys.1 round (stage_to_pos (s : Int)).toNat) ∧
    ((List.range k).foldl
        (fun keys stage =>
          run_stage S substitute_with_sbox decrypt_half_one_round decrypt_half_two_round
            dataset round stage keys) keys).2 round (stage_to_pos (s : Int)).toNat
      = (if s < k then
          ((find_max_deviation_index
            (stage_loop S substitute_with_sbox decrypt_half_one_round
              decrypt_half_two_round round s
              ((List.range s).foldl
                (fun keys stage =>
                  run_stage S substitute_with_sbox decrypt_half_one_round
                    decrypt_half_two_round dataset round stage keys) keys).1
              (stage_need round s) dataset (fun _ => 0) 0).1
            (stage_loop S substitute_with_sbox decrypt_half_one_round
              decrypt_half_two_round round s
              ((List.range s).foldl
                (fun keys stage =>
                  run_stage S substitute_with_sbox decrypt_half_one_round
                    decrypt_half_two_round dataset round stage keys) keys).1
              (stage_need round s) dataset (fun _ => 0) 0).2) % 256).toNat
         else keys.2 round (stage_to_pos (s : Int)).toNat) := by
  induction k with
  | zero =>
    rw [if_neg (Nat.not_lt_zero s), if_neg (Nat.not_lt_zero s)]
    exact ⟨rfl, rfl⟩
  | succ k ih =>
    have ih1 := ih (by omega)
    rw [List.range_succ, List.foldl_append, List.foldl_cons, List.foldl_nil]
    by_cases hsk : s = k
    · subst hsk
      rw [if_pos (Nat.lt_succ_self s), if_pos (Nat.lt_succ_self s)]
      exact run_stage_written S substitute_with_sbox decrypt_half_one_round
        decrypt_half_two_round dataset round s _
    · have hne : ¬ (round = round ∧
          (stage_to_pos (s : Int)).toNat = (stage_to_pos (k : Int)).toNat) :=
        fun h => hsk (stage_to_pos_toNat_inj s k hs (by omega) h.2)
      have hf := run_stage_frame S substitute_with_sbox decrypt_half_one_round
        decrypt_half_two_round dataset round k
        ((List.range k).foldl
          (fun keys stage =>
            run_stage S substitute_with_sbox decrypt_half_one_round decrypt_half_two_round
              dataset round stage keys) keys) round (stage_to_pos (s : Int)).toNat hne
      rw [hf.1, hf.2, ih1.1, ih1.2]
      by_cases hlt : s < k
      · rw [if_pos hlt, if_pos hlt, if_pos (by omega), if_pos (by omega)]
        exact ⟨rfl, rfl⟩
      · rw [if_neg hlt, if_neg hlt, if_neg (by omega), if_neg (by omega)]
        exact ⟨rfl, rfl⟩

theorem stage_to_pos_toNat_range (s : Nat) (hs : s < 8) :
    1 ≤ (stage_to_pos (s : Int)).toNat ∧ (stage_to_pos (s : Int)).toNat ≤ 8 := by
  interval_cases s <;> decide

/-- The stages of a round leave every entry as it is that is in another row
or at a position outside `1..8`. -/
theorem stages_frame_outside (dataset : List Pair) (round : Nat) (stages : List Nat)
    (hs : ∀ s, s ∈ stages → s < 8) (keys : (Nat → Nat → Nat) × (Nat → Nat → Nat)) (r p : Nat)
    (h : r ≠ round ∨ ¬ (1 ≤ p ∧ p ≤ 8)) :
    (stages.foldl
        (fun keys stage =>
          run_stage S substitute_with_sbox decrypt_half_one_round decrypt_half_two_round
            dataset round stage keys) keys).1 r p = keys.1 r p ∧
    (stages.foldl
        (fun keys stage =>
          run_stage S substitute_with_sbox decrypt_half_one_round decrypt_half_two_round
            dataset round stage keys) keys).2 r p = keys.2 r p := by
  induction stages generalizing keys with
  | nil => exact ⟨rfl, rfl⟩
  | cons s rest ih =>
    rw [List.foldl_cons]
    have ih1 := ih (fun t ht => hs t (List.mem_cons_of_mem s ht))
      (run_stage S substitute_with_sbox decrypt_half_one_round decrypt_half_two_round
        dataset round s keys)
    have hf := run_stage_frame S substitute_with_sbox decrypt_half_one_round
      decrypt_half_two_round dataset round s keys r p (by
        intro hc
        rcases h with h | h
        · exact h hc.1
        · have hr := stage_to_pos_toNat_range s (hs s (List.mem_cons_self s rest))
          rw [← hc.2] at hr
          exact h hr)
    exact ⟨ih1.1.trans hf.1, ih1.2.trans hf.2⟩

/-- Rounds other than `r` leave row `r` as it is, and no round touches a
position outside `1..8`. -/
theorem rounds_frame_outside (dataset : List Pair) (rounds : List Nat)
    (keys : (Nat → Nat → Nat) × (Nat → Nat → Nat)) (r p : Nat)
    (h : (∀ rd, rd ∈ rounds → rd ≠ r) ∨ ¬ (1 ≤ p ∧ p ≤ 8)) :
    (rounds.foldl
        (fun keys round =>
          (List.range 8).foldl
            (fun keys stage =>
              run_stage S substitute_with_sbox decrypt_half_one_round
                decrypt_half_two_round dataset round stage keys) keys) keys).1 r p
      = keys.1 r p ∧
    (rounds.foldl
        (fun keys round =>
          (List.range 8).foldl
            (fun keys stage =>
              run_stage S substitute_with_sbox decrypt_half_one_round
                decrypt_half_two_round dataset round stage keys) keys) keys).2 r p
      = keys.2 r p := by
  induction rounds generalizing keys with
  | nil => exact ⟨rfl, rfl⟩
  | cons rd rest ih =>
    rw [List.foldl_cons]
    have h1 : (∀ x, x ∈ rest → x ≠ r) ∨ ¬ (1 ≤ p ∧ p ≤ 8) := by
      rcases h with h | h
      · exact Or.inl (fun x hx => h x (List.mem_cons_of_mem rd hx))
      · exact Or.inr h
    have h2 : r ≠ rd ∨ ¬ (1 ≤ p ∧ p ≤ 8) := by
      rcases h with h | h
      · exact Or.inl (fun e => h rd (List.mem_cons_self rd rest) e.symm)
      · exact Or.inr h
    have ih1 := ih
      ((List.range 8).foldl
        (fun keys stage =>
          run_stage S substitute_with_sbox decrypt_half_one_round decrypt_half_two_round
            dataset rd stage keys) keys) h1
    have hf := stages_frame_outside S substitute_with_sbox decrypt_half_one_round
      decrypt_half_two_round dataset rd (List.range 8) (fun s hs => List.mem_range.mp hs)
      keys r p h2
    exact ⟨ih1.1.trans hf.1, ih1.2.trans hf.2⟩

theorem range3_split (r : Nat) (hr : r < 3) :
    ∃ rest, List.range 3 = List.range r ++ r :: rest ∧ ∀ x, x ∈ rest → x ≠ r := by
  interval_cases r
  · exact ⟨[1, 2], by decide, by decide⟩
  · exact ⟨[2], by decide, by decide⟩
  · exact ⟨[], by decide, by decide⟩

/-- The entry of `rk_nib` at row `r < 3` and the position of stage `s < 8`
after the call is the value stored by stage `s` of round `r`, computed from
the array `right_keys` as it stands after rounds `0..r-1` and stages
`0..s-1` of round `r`. -/
theorem linear_attack_entry (dataset : List Pair) (rk_nib : Nat → Nat → Nat) (r s : Nat)
    (hr : r < 3) (hs : s < 8) :
    linear_attack_recover_keys S substitute_with_sbox decrypt_half_one_round
        decrypt_half_two_round dataset rk_nib r (stage_to_pos (s : Int)).toNat
      = ((find_max_deviation_index
          (stage_loop S substitute_with_sbox decrypt_half_one_round
            decrypt_half_two_round r s
            ((List.range s).foldl
              (fun keys stage =>
                run_stage S substitute_with_sbox decrypt_half_one_round
                  decrypt_half_two_round dataset r stage keys)
              ((List.range r).foldl
                (fun keys round =>
                  (List.range 8).foldl
                    (fun keys stage =>
                      run_stage S substitute_with_sbox decrypt_half_one_round
                        decrypt_half_two_round dataset round stage keys) keys)
                ((fun _ _ => 0), rk_nib))).1
            (stage_need r s) dataset (fun _ => 0) 0).1
          (stage_loop S substitute_with_sbox decrypt_half_one_round
            decrypt_half_two_round r s
            ((List.range s).foldl
              (fun keys stage =>
                run_stage S substitute_with_sbox decrypt_half_one_round
                  decrypt_half_two_round dataset r stage keys)
              ((List.range r).foldl
                (fun keys round =>
                  (List.range 8).foldl
                    (fun keys stage =>
                      run_stage S substitute_with_sbox decrypt_half_one_round
                        decrypt_half_two_round dataset round stage keys) keys)
                ((fun _ _ => 0), rk_nib))).1
            (stage_need r s) dataset (fun _ => 0) 0).2) % 256).toNat := by
  obtain ⟨rest, hsplit, hrest⟩ := range3_split r hr
  unfold linear_attack_recover_keys
  rw [hsplit, List.foldl_append, List.foldl_cons]
  rw [(rounds_frame_outside S substitute_with_sbox decrypt_half_one_round
    decrypt_half_two_round dataset rest _ r (stage_to_pos (s : Int)).toNat (Or.inl hrest)).2]
  have key := (stages_prefix_entry S substitute_with_sbox decrypt_half_one_round
    decrypt_half_two_round dataset r
    ((List.range r).foldl
      (fun keys round =>
        (List.range 8).foldl
          (fun keys stage =>
            run_stage S substitute_with_sbox decrypt_half_one_round
              decrypt_half_two_round dataset round stage keys) keys)
      ((fun _ _ => 0), rk_nib)) 8 s (Nat.le_refl 8) hs).2
  rw [if_pos hs] at key
  exact key

theorem linear_attack_frame_outside (dataset : List Pair) (rk_nib : Nat → Nat → Nat)
    (r p : Nat) (h : ¬ (r < 3 ∧ 1 ≤ p ∧ p ≤ 8)) :
    linear_attack_recover_keys S substitute_with_sbox decrypt_half_one_round
      decrypt_half_two_round dataset rk_nib r p = rk_nib r p := by
  unfold linear_attack_recover_keys
  refine (rounds_frame_outside S substitute_with_sbox decrypt_half_one_round
    decrypt_half_two_round dataset (List.range 3) _ r p ?_).2
  by_cases hp : 1 ≤ p ∧ p ≤ 8
  · left
    intro rd hrd e
    exact h ⟨e ▸ List.mem_range.mp hrd, hp⟩
  · exact Or.inr hp

/-- C12: `stage_to_pos` is the table `[8, 1, 5, 7, 4, 6, 2, 3]` on `0..7` and
`-1` elsewhere; it is injective on `0..7` with image exactly `1..8`; the
positions written in one round are a rearrangement of `1..8`, each stage
writes only its own position, and position 0 is never written: it keeps the
value it had before the call.  Each stage stores `(uint8_t)best` at its
position of `right_keys` and of `rk_nib`; after the first `k` stages of a
round the entry at the position of stage `s` holds the value stored by stage
`s` when `s < k` and its prior value otherwise, so it is written by stage `s`
and by no other stage of the round; for every position the number of stages
of a round that write it is 1 for positions `1..8` and 0 otherwise; after the
call, the entry of `rk_nib` at row `r < 3` and the position of stage `s < 8`
is the value stored by stage `s` of round `r`, every entry outside rows
`0..2` and positions `1..8` is the value it had before, and position 0 of
`right_keys` is still 0. -/
theorem C12_stage_to_pos_map :
    (stage_to_pos 0 = 8 ∧ stage_to_pos 1 = 1 ∧ stage_to_pos 2 = 5 ∧ stage_to_pos 3 = 7 ∧
     stage_to_pos 4 = 4 ∧ stage_to_pos 5 = 6 ∧ stage_to_pos 6 = 2 ∧ stage_to_pos 7 = 3) ∧
    (∀ s : Int, s < 0 ∨ 8 ≤ s → stage_to_pos s = -1) ∧
    (∀ s t : Int, 0 ≤ s → s < 8 → 0 ≤ t → t < 8 → stage_to_pos s = stage_to_pos t → s = t) ∧
    (∀ p : Int, (∃ s : Int, 0 ≤ s ∧ s < 8 ∧ stage_to_pos s = p) ↔ (1 ≤ p ∧ p ≤ 8)) ∧
    ((List.range 8).map (fun s => (stage_to_pos (s : Int)).toNat) = [8, 1, 5, 7, 4, 6, 2, 3]) ∧
    (List.Perm ((List.range 8).map (fun s => (stage_to_pos (s : Int)).toNat))
      [1, 2, 3, 4, 5, 6, 7, 8]) ∧
    (∀ (dataset : List Pair) (round stage : Nat)
        (keys : (Nat → Nat → Nat) × (Nat → Nat → Nat)) (r p : Nat),
      ¬ (r = round ∧ p = (stage_to_pos (stage : Int)).toNat) →
      (run_stage S substitute_with_sbox decrypt_half_one_round decrypt_half_two_round
          dataset round stage keys).1 r p = keys.1 r p ∧
      (run_stage S substitute_with_sbox decrypt_half_one_round decrypt_half_two_round
          dataset round stage keys).2 r p = keys.2 r p) ∧
    (∀ (dataset : List Pair) (rk_nib : Nat → Nat → Nat) (r : Nat),
      linear_attack_recover_keys S substitute_with_sbox decrypt_half_one_round
        decrypt_half_two_round dataset rk_nib r 0 = rk_nib r 0) ∧
    (∀ (dataset : List Pair) (round stage : Nat)
        (keys : (Nat → Nat → Nat) × (Nat → Nat → Nat)),
      (run_stage S substitute_with_sbox decrypt_half_one_round
        decrypt_half_two_round dataset round stage keys).1 round (stage_to_pos (stage : Int)).toNat
        = ((find_max_deviation_index
              (stage_loop S substitute_with_sbox decrypt_half_one_round
                decrypt_half_two_round round stage
                keys.1
                (stage_need round stage) dataset (fun _ => 0) 0).1
              (stage_loop S substitute_with_sbox decrypt_half_one_round
                decrypt_half_two_round round stage
                keys.1
                (stage_need round stage) dataset (fun _ => 0) 0).2) % 256).toNat ∧
      (run_stage S substitute_with_sbox decrypt_half_one_round
        decrypt_half_two_round dataset round stage keys).2 round (stage_to_pos (stage : Int)).toNat
        = ((find_max_deviation_index
              (stage_loop S substitute_with_sbox decrypt_half_one_round
                decrypt_half_two_round round stage
                keys.1
                (stage_need round stage) dataset (fun _ => 0) 0).1
              (stage_loop S substitute_with_sbox decrypt_half_one_round
                decrypt_half_two_round round stage
                keys.1
                (stage_need round stage) dataset (fun _ => 0) 0).2) % 256).toNat) ∧
    (∀ (dataset : List Pair) (round : Nat) (keys : (Nat → Nat → Nat) × (Nat → Nat → Nat))
        (k s : Nat), k ≤ 8 → s < 8 →
      ((List.range k).foldl
        (fun keys stage =>
          run_stage S substitute_with_sbox decrypt_half_one_round
            decrypt_half_two_round dataset round stage keys)
        keys).1 round (stage_to_pos (s : Int)).toNat
        = (if s < k then
            ((find_max_deviation_index
                (stage_loop S substitute_with_sbox decrypt_half_one_round
                  decrypt_half_two_round round s
                  ((List.range s).foldl
                    (fun keys stage =>
                      run_stage S substitute_with_sbox decrypt_half_one_round
                        decrypt_half_two_round dataset round stage keys)
                    keys).1
                  (stage_need round s) dataset (fun _ => 0) 0).1
                (stage_loop S substitute_with_sbox decrypt_half_one_round
                  decrypt_half_two_round round s
                  ((List.range s).foldl
                    (fun keys stage =>
                      run_stage S substitute_with_sbox decrypt_half_one_round
                        decrypt_half_two_round dataset round stage keys)
                    keys).1
                  (stage_need round s) dataset (fun _ => 0) 0).2) % 256).toNat
           else keys.1 round (stage_to_pos (s : Int)).toNat) ∧
      ((List.range k).foldl
        (fun keys stage =>
          run_stage S substitute_with_sbox decrypt_half_one_round
            decrypt_half_two_round dataset round stage keys)
        keys).2 round (stage_to_pos (s : Int)).toNat
        = (if s < k then
            ((find_max_deviation_index
                (stage_loop S substitute_with_sbox decrypt_half_one_round
                  decrypt_half_two_round round s
                  ((List.range s).foldl
                    (fun keys stage =>
                      run_stage S substitute_with_sbox decrypt_half_one_round
                        decrypt_half_two_round dataset round stage keys)
                    keys).1
                  (stage_need round s) dataset (fun _ => 0) 0).1
                (stage_loop S substitute_with_sbox decrypt_half_one_round
                  decrypt_half_two_round round s
                  ((List.range s).foldl
                    (fun keys stage =>
                      run_stage S substitute_with_sbox decrypt_half_one_round
                        decrypt_half_two_round dataset round stage keys)
                    keys).1
                  (stage_need round s) dataset (fun _ => 0) 0).2) % 256).toNat
           else keys.2 round (stage_to_pos (s : Int)).toNat)) ∧
    (∀ p : Nat,
      ((List.range 8).filter
          (fun s : Nat => decide ((stage_to_pos (s : Int)).toNat = p))).length
        = if 1 ≤ p ∧ p ≤ 8 then 1 else 0) ∧
    (∀ (dataset : List Pair) (rk_nib : Nat → Nat → Nat) (r s : Nat), r < 3 → s < 8 →
      linear_attack_recover_keys S substitute_with_sbox decrypt_half_one_round
          decrypt_half_two_round dataset rk_nib r (stage_to_pos (s : Int)).toNat
        = ((find_max_deviation_index
              (stage_loop S substitute_with_sbox decrypt_half_one_round
                decrypt_half_two_round r s
                ((List.range s).foldl
                  (fun keys stage =>
                    run_stage S substitute_with_sbox decrypt_half_one_round
                      decrypt_half_two_round dataset r stage keys)
                  ((List.range r).foldl
                    (fun keys round =>
                      (List.range 8).foldl
                        (fun keys stage =>
                          run_stage S substitute_with_sbox decrypt_half_one_round
                            decrypt_half_two_round dataset round stage keys) keys)
                    ((fun _ _ => 0), rk_nib))).1
                (stage_need r s) dataset (fun _ => 0) 0).1
              (stage_loop S substitute_with_sbox decrypt_half_one_round
                decrypt_half_two_round r s
                ((List.range s).foldl
                  (fun keys stage =>
                    run_stage S substitute_with_sbox decrypt_half_one_round
                      decrypt_half_two_round dataset r stage keys)
                  ((List.range r).foldl
                    (fun keys round =>
                      (List.range 8).foldl
                        (fun keys stage =>
                          run_stage S substitute_with_sbox decrypt_half_one_round
                            decrypt_half_two_round dataset round stage keys) keys)
                    ((fun _ _ => 0), rk_nib))).1
                (stage_need r s) dataset (fun _ => 0) 0).2) % 256).toNat) ∧
    (∀ (dataset : List Pair) (rk_nib : Nat → Nat → Nat) (r p : Nat),
      ¬ (r < 3 ∧ 1 ≤ p ∧ p ≤ 8) →
      linear_attack_recover_keys S substitute_with_sbox decrypt_half_one_round
          decrypt_half_two_round dataset rk_nib r p = rk_nib r p) ∧
    (∀ (dataset : List Pair) (rk_nib : Nat → Nat → Nat) (r : Nat),
      ((List.range 3).foldl
        (fun keys round =>
          (List.range 8).foldl
            (fun keys stage =>
              run_stage S substitute_with_sbox decrypt_half_one_round
                decrypt_half_two_round dataset round stage keys) keys)
        ((fun _ _ => 0), rk_nib)).1 r 0 = 0) := by
  refine ⟨by decide, ?_, ?_, ?_, by decide, by decide, ?_, ?_, ?_, ?_, ?_, ?_, ?_, ?_⟩
  · intro s hs
    unfold stage_to_pos
    rw [if_neg (by omega)]
  · intro s t hs0 hs8 ht0 ht8 h
    interval_cases s <;> interval_cases t <;> first | rfl | exact absurd h (by decide)
  · intro p
    constructor
    · rintro ⟨s, hs0, hs8, rfl⟩
      interval_cases s <;> decide
    · rintro ⟨h1, h8⟩
      interval_cases p
      · exact ⟨1, by decide, by decide, by decide⟩
      · exact ⟨6, by decide, by decide, by decide⟩
      · exact ⟨7, by decide, by decide, by decide⟩
      · exact ⟨4, by decide, by decide, by decide⟩
      · exact ⟨2, by decide, by decide, by decide⟩
      · exact ⟨5, by decide, by decide, by decide⟩
      · exact ⟨3, by decide, by decide, by decide⟩
      · exact ⟨0, by decide, by decide, by decide⟩
  · intro dataset round stage keys r p h
    exact run_stage_frame S substitute_with_sbox decrypt_half_one_round
      decrypt_half_two_round dataset round stage keys r p h
  · intro dataset rk_nib r
    exact linear_attack_frame_zero S substitute_with_sbox decrypt_half_one_round
      decrypt_half_two_round dataset rk_nib r
  · intro dataset round stage keys
    exact run_stage_written S substitute_with_sbox decrypt_half_one_round
      decrypt_half_two_round dataset round stage keys
  · intro dataset round keys k s hk hs
    exact stages_prefix_entry S substitute_with_sbox decrypt_half_one_round
      decrypt_half_two_round dataset round keys k s hk hs
  · intro p
    exact stage_writers_count p
  · intro dataset rk_nib r s hr hs
    exact linear_attack_entry S substitute_with_sbox decrypt_half_one_round
      decrypt_half_two_round dataset rk_nib r s hr hs
  · intro dataset rk_nib r p h
    exact linear_attack_frame_outside S substitute_with_sbox decrypt_half_one_round
      decrypt_half_two_round dataset rk_nib r p h
  · intro dataset rk_nib r
    exact (rounds_frame_outside S substitute_with_sbox decrypt_half_one_round
      decrypt_half_two_round dataset (List.range 3) ((fun _ _ => 0), rk_nib) r 0
      (Or.inr (by omega))).1

end StageFrame

/-- C13: `stage_exp` is the table of the specification; every required count
`2^stage_exp[r][s]` is at most `TARGET_PAIRS = 2^33`, with equality exactly at
round 0, stages 4..7; so a dataset length is at least every required count if
and only if it is at least `2^33`. -/
theorem C13_sample_size_table :
    ((List.range 3).map (fun r => (List.range 8).map (fun s => stage_exp r s))
      = [[29, 31, 31, 29, 33, 33, 33, 33],
         [29, 31, 31, 29, 31, 31, 31, 31],
         [27, 29, 29, 27, 29, 29, 29, 29]]) ∧
    TARGET_PAIRS = 2 ^ 33 ∧
    (∀ r s, r < 3 → s < 8 → stage_need r s = 2 ^ stage_exp r s) ∧
    (∀ r s, r < 3 → s < 8 → stage_need r s ≤ TARGET_PAIRS) ∧
    (∀ r s, r < 3 → s < 8 → (stage_need r s = TARGET_PAIRS ↔ (r = 0 ∧ 4 ≤ s))) ∧
    (∀ L : Nat, (∀ r s, r < 3 → s < 8 → stage_need r s ≤ L) ↔ TARGET_PAIRS ≤ L) := by
  have hle : ∀ r s, r < 3 → s < 8 → stage_need r s ≤ TARGET_PAIRS := by
    intro r s hr hs
    interval_cases r <;> interval_cases s <;> decide
  refine ⟨by decide, by decide, ?_, hle, ?_, ?_⟩
  · intro r s hr hs
    interval_cases r <;> interval_cases s <;> decide
  · intro r s hr hs
    interval_cases r <;> interval_cases s <;> decide
  · intro L
    constructor
    · intro h
      have h4 := h 0 4 (by decide) (by decide)
      have e : stage_need 0 4 = TARGET_PAIRS := by decide
      rwa [e] at h4
    · intro h r s hr hs
      exact le_trans (hle r s hr hs) h

/-- C20: for every `x`, `sub4 x` is entry `x mod 16` of the table
`7 E F 0 D B 8 1 9 3 4 C 2 5 A 6`; the index `x & 0xF` is inside the table and
the result is in `0..15`. -/
theorem C20_sub4_table (x : Nat) :
    S_tbl = [0x7, 0xE, 0xF, 0x0, 0xD, 0xB, 0x8, 0x1, 0x9, 0x3, 0x4, 0xC, 0x2, 0x5, 0xA, 0x6] ∧
    ([0x7, 0xE, 0xF, 0x0, 0xD, 0xB, 0x8, 0x1, 0x9, 0x3, 0x4, 0xC, 0x2, 0x5, 0xA, 0x6] :
        List Nat)[x % 16]? = some (sub4 x) ∧
    x &&& 0xF = x % 16 ∧
    x &&& 0xF < S_tbl.length ∧
    sub4 x < 16 := by
  have e : x &&& 0xF = x % 16 := Nat.and_pow_two_sub_one_eq_mod x 4
  have h : x % 16 < 16 := Nat.mod_lt _ (by decide)
  refine ⟨rfl, ?_, e, ?_, sub4_lt x⟩
  · unfold sub4
    rw [e]
    generalize x % 16 = y at h
    interval_cases y <;> rfl
  · rw [e]
    exact h

/-! ## The streaming loop of a stage -/

theorem ite_lt_of {c : Prop} [Decidable c] {a b n : Nat} (ha : a < n) (hb : b < n) :
    (if c then a else b) < n := by
  split <;> assumption

section Streaming

variable (S : Nat → Nat) (substitute_with_sbox : Nat → Nat)
  (decrypt_half_one_round : Nat → (Nat → Nat) → Nat)
  (decrypt_half_two_round : Nat → (Nat → Nat) → (Nat → Nat) → Nat)

set_option maxRecDepth 100000 in
theorem parity_lt_two (round stage : Nat) (right_keys : Nat → Nat → Nat) (key P C : Nat) :
    parity S substitute_with_sbox decrypt_half_one_round decrypt_half_two_round
      round stage right_keys key P C < 2 ^ 1 := by
  unfold parity
  dsimp only
  repeat (first | exact and_lt_right (n := 1) _ (by decide) | apply Nat.xor_lt_two_pow | apply ite_lt_of | exact (by decide : 0 < 2 ^ 1))

end Streaming

section Streaming

variable (S : Nat → Nat) (substitute_with_sbox : Nat → Nat)
  (decrypt_half_one_round : Nat → (Nat → Nat) → Nat)
  (decrypt_half_two_round : Nat → (Nat → Nat) → (Nat → Nat) → Nat)

theorem count_fold_mod (f : Pair → Nat) (hf : ∀ p, f p < 2 ^ 1) (buffer : List Pair)
    (s0 : Nat) (h : s0 + buffer.length < 2 ^ 64) :
    buffer.foldl (fun sum p => (sum + f p) % 2 ^ 64) s0
      = s0 + buffer.countP (fun p => f p = 1) := by
  induction buffer generalizing s0 with
  | nil => simp
  | cons p rest ih =>
    have hp := hf p
    simp only [List.length_cons] at h
    have e : (s0 + f p) % 2 ^ 64 = s0 + f p := Nat.mod_eq_of_lt (by omega)
    rw [List.foldl_cons, e, ih (s0 + f p) (by omega), List.countP_cons]
    by_cases h1 : f p = 1
    · simp [h1]; omega
    · have h0 : f p = 0 := by omega
      simp [h0]

theorem local_sum_eq_count (round stage : Nat) (right_keys : Nat → Nat → Nat) (key_idx : Nat)
    (buffer : List Pair) (h : buffer.length < 2 ^ 64) :
    local_sum S substitute_with_sbox decrypt_half_one_round decrypt_half_two_round
        round stage right_keys key_idx buffer
      = parity_count S substitute_with_sbox decrypt_half_one_round decrypt_half_two_round
          round stage right_keys key_idx buffer := by
  unfold local_sum parity_count
  rw [count_fold_mod
    (fun p => parity S substitute_with_sbox decrypt_half_one_round decrypt_half_two_round
      round stage right_keys key_idx p.plaintext p.ciphertext)
    (fun p => parity_lt_two S substitute_with_sbox decrypt_half_one_round
      decrypt_half_two_round round stage right_keys key_idx p.plaintext p.ciphertext)
    buffer 0 (by omega)]
  simp

theorem parity_count_le (round stage : Nat) (right_keys : Nat → Nat → Nat) (k : Nat)
    (l : List Pair) :
    parity_count S substitute_with_sbox decrypt_half_one_round decrypt_half_two_round
      round stage right_keys k l ≤ l.length :=
  List.countP_le_length _

theorem parity_count_append (round stage : Nat) (right_keys : Nat → Nat → Nat) (k : Nat)
    (l1 l2 : List Pair) :
    parity_count S substitute_with_sbox decrypt_half_one_round decrypt_half_two_round
        round stage right_keys k (l1 ++ l2)
      = parity_count S substitute_with_sbox decrypt_half_one_round decrypt_half_two_round
          round stage right_keys k l1
        + parity_count S substitute_with_sbox decrypt_half_one_round decrypt_half_two_round
          round stage right_keys k l2 := by
  unfold parity_count
  exact List.countP_append _ _ _

theorem range_update_fold (g : Nat → Nat) (n : Nat) (bucket : Nat → Nat) (k : Nat) :
    ((List.range n).foldl
        (fun bkt idx => fun k => if k = idx then (bkt idx + g idx) % 2 ^ 64 else bkt k)
        bucket) k
      = if k < n then (bucket k + g k) % 2 ^ 64 else bucket k := by
  induction n generalizing k with
  | zero => rfl
  | succ n ih =>
    rw [List.range_succ, List.foldl_append]
    simp only [List.foldl_cons, List.foldl_nil]
    by_cases hk : k = n
    · rw [if_pos hk, ih n, if_neg (Nat.lt_irrefl n), hk, if_pos (Nat.lt_succ_self n)]
    · rw [if_neg hk, ih k]
      by_cases h1 : k < n
      · rw [if_pos h1, if_pos (Nat.lt_succ_of_lt h1)]
      · have h2 : ¬ k < n + 1 := by omega
        rw [if_neg h1, if_neg h2]

theorem accumulate_apply (round stage : Nat) (right_keys : Nat → Nat → Nat)
    (buffer : List Pair) (bucket : Nat → Nat) (k : Nat) :
    accumulate S substitute_with_sbox decrypt_half_one_round decrypt_half_two_round
        round stage right_keys buffer bucket k
      = if k < MAX_KEYS then
          (bucket k + local_sum S substitute_with_sbox decrypt_half_one_round
            decrypt_half_two_round round stage right_keys k buffer) % 2 ^ 64
        else bucket k := by
  unfold accumulate
  exact range_update_fold
    (fun idx => local_sum S substitute_with_sbox decrypt_half_one_round
      decrypt_half_two_round round stage right_keys idx buffer) MAX_KEYS bucket k

/-- Accumulating a sequence of buffers adds, to every counter `k < 16`, the
number of pairs of the concatenation whose parity bit is 1. -/
theorem chunks_fold_count (round stage : Nat) (right_keys : Nat → Nat → Nat)
    (cs : List (List Pair)) (bucket : Nat → Nat) (k : Nat)
    (h : bucket k + cs.flatten.length < 2 ^ 64) :
    (cs.foldl
        (fun b buf => accumulate S substitute_with_sbox decrypt_half_one_round
          decrypt_half_two_round round stage right_keys buf b) bucket) k
      = if k < MAX_KEYS then
          bucket k + parity_count S substitute_with_sbox decrypt_half_one_round
            decrypt_half_two_round round stage right_keys k cs.flatten
        else bucket k := by
  induction cs generalizing bucket with
  | nil => simp [parity_count]
  | cons buf rest ih =>
    simp only [List.flatten_cons, List.length_append] at h
    have hc := parity_count_le S substitute_with_sbox decrypt_half_one_round
      decrypt_half_two_round round stage right_keys k buf
    have hacc := accumulate_apply S substitute_with_sbox decrypt_half_one_round
      decrypt_half_two_round round stage right_keys buf bucket k
    rw [local_sum_eq_count S substitute_with_sbox decrypt_half_one_round
      decrypt_half_two_round round stage right_keys k buf (by omega)] at hacc
    rw [List.foldl_cons, ih, List.flatten_cons, parity_count_append, hacc]
    · by_cases hk : k < MAX_KEYS
      · simp only [hk, if_true]
        rw [Nat.mod_eq_of_lt (by omega)]
        omega
      · simp only [hk, if_false]
    · rw [hacc]
      by_cases hk : k < MAX_KEYS
      · simp only [hk, if_true]
        rw [Nat.mod_eq_of_lt (by omega)]
        omega
      · simp only [hk, if_false]
        omega

end Streaming

theorem want_bounds (need used : Nat) (h : used < need) :
    (if used + BUFFER_PAIRS > need then need - used else BUFFER_PAIRS) ≤ need - used ∧
    0 < (if used + BUFFER_PAIRS > need then need - used else BUFFER_PAIRS) ∧
    (if used + BUFFER_PAIRS > need then need - used else BUFFER_PAIRS) ≤ BUFFER_PAIRS := by
  unfold BUFFER_PAIRS
  split <;> omega

/-- The buffers read by a stage, concatenated, are the next `need - used`
records of the stream, or all of them when fewer remain. -/
theorem stage_reads_flatten (need : Nat) :
    ∀ (m : Nat) (fp : List Pair) (used : Nat), need - used = m →
      (stage_reads need fp used).flatten = fp.take (need - used) := by
  intro m
  induction m using Nat.strong_induction_on with
  | _ m ih =>
    intro fp used hm
    rw [stage_reads]
    by_cases h : used < need
    · rw [dif_pos h]
      obtain ⟨hw1, hw2, _⟩ := want_bounds need used h
      dsimp only
      generalize (if used + BUFFER_PAIRS > need then need - used else BUFFER_PAIRS) = want
        at hw1 hw2
      by_cases hn : (List.take want fp).length = 0
      · rw [dif_pos hn]
        have hnil : List.take want fp = [] := List.length_eq_zero.mp hn
        have hfp : fp = [] := by
          rcases List.take_eq_nil_iff.mp hnil with h0 | h0
          · omega
          · exact h0
        simp [hfp]
      · rw [dif_neg hn, List.flatten_cons]
        have hpos : 0 < (List.take want fp).length := Nat.pos_of_ne_zero hn
        rw [ih (need - (used + (List.take want fp).length)) (by omega) _ _ rfl]
        rw [List.length_take] at hpos ⊢
        by_cases hlen : want ≤ fp.length
        · rw [Nat.min_eq_left hlen]
          have e : need - used = want + (need - (used + want)) := by omega
          rw [e, List.take_add]
        · have hlt : fp.length < want := by omega
          rw [Nat.min_eq_right (Nat.le_of_lt hlt), List.take_of_length_le (Nat.le_of_lt hlt),
            List.drop_length, List.take_nil, List.append_nil,
            List.take_of_length_le (by omega)]
    · rw [dif_neg h]
      have e : need - used = 0 := by omega
      simp [e]

section Streaming

variable (S : Nat → Nat) (substitute_with_sbox : Nat → Nat)
  (decrypt_half_one_round : Nat → (Nat → Nat) → Nat)
  (decrypt_half_two_round : Nat → (Nat → Nat) → (Nat → Nat) → Nat)

/-- The loop of a stage accumulates exactly the buffers of `stage_reads`, in
order, and counts their records in `used`. -/
theorem stage_loop_eq_reads (round stage : Nat) (right_keys : Nat → Nat → Nat) (need : Nat) :
    ∀ (m : Nat) (fp : List Pair) (bucket : Nat → Nat) (used : Nat), need - used = m →
      stage_loop S substitute_with_sbox decrypt_half_one_round decrypt_half_two_round
          round stage right_keys need fp bucket used
        = ((stage_reads need fp used).foldl
              (fun b buf => accumulate S substitute_with_sbox decrypt_half_one_round
                decrypt_half_two_round round stage right_keys buf b) bucket,
           used + (stage_reads need fp used).flatten.length) := by
  intro m
  induction m using Nat.strong_induction_on with
  | _ m ih =>
    intro fp bucket used hm
    rw [stage_loop, stage_reads]
    by_cases h : used < need
    · rw [dif_pos h, dif_pos h]
      dsimp only
      generalize (if used + BUFFER_PAIRS > need then need - used else BUFFER_PAIRS) = want
      by_cases hn : (List.take want fp).length = 0
      · rw [dif_pos hn, dif_pos hn]
        simp
      · rw [dif_neg hn, dif_neg hn]
        have hpos : 0 < (List.take want fp).length := Nat.pos_of_ne_zero hn
        rw [ih (need - (used + (List.take want fp).length)) (by omega) _ _ _ rfl]
        simp only [List.foldl_cons, List.flatten_cons, List.length_append]
        rw [Nat.add_assoc]
    · rw [dif_neg h, dif_neg h]
      simp

end Streaming

theorem take_min_length (need : Nat) (l : List Pair) :
    l.take (min l.length need) = l.take need := by
  by_cases h : need ≤ l.length
  · rw [Nat.min_eq_right h]
  · have h1 : l.length ≤ need := by omega
    rw [Nat.min_eq_left h1, List.take_of_length_le (Nat.le_refl _), List.take_of_length_le h1]

theorem stage_need_lt (round stage : Nat) : stage_need round stage < 2 ^ 64 :=
  Nat.mod_lt _ (by decide)

section Streaming

variable (S : Nat → Nat) (substitute_with_sbox : Nat → Nat)
  (decrypt_half_one_round : Nat → (Nat → Nat) → Nat)
  (decrypt_half_two_round : Nat → (Nat → Nat) → (Nat → Nat) → Nat)

theorem stage_loop_used (round stage : Nat) (right_keys : Nat → Nat → Nat) (need : Nat)
    (dataset : List Pair) :
    (stage_loop S substitute_with_sbox decrypt_half_one_round decrypt_half_two_round
        round stage right_keys need dataset (fun _ => 0) 0).2 = min dataset.length need := by
  rw [stage_loop_eq_reads S substitute_with_sbox decrypt_half_one_round
    decrypt_half_two_round round stage right_keys need (need - 0) dataset _ 0 rfl]
  rw [stage_reads_flatten need (need - 0) dataset 0 rfl, List.length_take, Nat.sub_zero,
    Nat.zero_add, Nat.min_comm]

/-- The counters at the end of a stage started from zero. -/
theorem stage_loop_bucket (round stage : Nat) (right_keys : Nat → Nat → Nat) (need : Nat)
    (hneed : need < 2 ^ 64) (dataset : List Pair) (k : Nat) :
    (stage_loop S substitute_with_sbox decrypt_half_one_round decrypt_half_two_round
        round stage right_keys need dataset (fun _ => 0) 0).1 k
      = if k < MAX_KEYS then
          parity_count S substitute_with_sbox decrypt_half_one_round decrypt_half_two_round
            round stage right_keys k (dataset.take need)
        else 0 := by
  have hfl := stage_reads_flatten need (need - 0) dataset 0 rfl
  rw [Nat.sub_zero] at hfl
  have hlen : (stage_reads need dataset 0).flatten.length ≤ need := by
    rw [hfl, List.length_take]
    exact Nat.min_le_left _ _
  rw [stage_loop_eq_reads S substitute_with_sbox decrypt_half_one_round
    decrypt_half_two_round round stage right_keys need (need - 0) dataset _ 0 rfl]
  dsimp only
  rw [chunks_fold_count S substitute_with_sbox decrypt_half_one_round
    decrypt_half_two_round round stage right_keys _ _ k (by omega), hfl]
  simp

/-- C15: parity bucket content.  The parity bit of every pair is 0 or 1; at
the end of a stage started from zero, counter `k < 16` is the number of pairs
among the first `used` pairs of the dataset whose parity bit for
`(round, stage, k)` is 1, so it is at most `used`; the same counters result
from accumulating any other split of these pairs into buffers. -/
theorem C15_parity_bucket_content (round stage : Nat) (right_keys : Nat → Nat → Nat)
    (dataset : List Pair) :
    (∀ key P C,
      parity S substitute_with_sbox decrypt_half_one_round decrypt_half_two_round
          round stage right_keys key P C = 0 ∨
      parity S substitute_with_sbox decrypt_half_one_round decrypt_half_two_round
          round stage right_keys key P C = 1) ∧
    (∀ k, k < 16 →
      (stage_loop S substitute_with_sbox decrypt_half_one_round decrypt_half_two_round
          round stage right_keys (stage_need round stage) dataset (fun _ => 0) 0).1 k
        = parity_count S substitute_with_sbox decrypt_half_one_round decrypt_half_two_round
            round stage right_keys k
            (dataset.take
              (stage_loop S substitute_with_sbox decrypt_half_one_round
                decrypt_half_two_round round stage right_keys (stage_need round stage)
                dataset (fun _ => 0) 0).2)) ∧
    (∀ k, k < 16 →
      (stage_loop S substitute_with_sbox decrypt_half_one_round decrypt_half_two_round
          round stage right_keys (stage_need round stage) dataset (fun _ => 0) 0).1 k
        ≤ (stage_loop S substitute_with_sbox decrypt_half_one_round decrypt_half_two_round
          round stage right_keys (stage_need round stage) dataset (fun _ => 0) 0).2) ∧
    (∀ cs : List (List Pair),
      cs.flatten = dataset.take
          (stage_loop S substitute_with_sbox decrypt_half_one_round decrypt_half_two_round
            round stage right_keys (stage_need round stage) dataset (fun _ => 0) 0).2 →
      ∀ k, k < 16 →
        (cs.foldl
            (fun b buf => accumulate S substitute_with_sbox decrypt_half_one_round
              decrypt_half_two_round round stage right_keys buf b) (fun _ => 0)) k
          = (stage_loop S substitute_with_sbox decrypt_half_one_round
              decrypt_half_two_round round stage right_keys (stage_need round stage)
              dataset (fun _ => 0) 0).1 k) := by
  have hn := stage_need_lt round stage
  have hu := stage_loop_used S substitute_with_sbox decrypt_half_one_round
    decrypt_half_two_round round stage right_keys (stage_need round stage) dataset
  have hb := stage_loop_bucket S substitute_with_sbox decrypt_half_one_round
    decrypt_half_two_round round stage right_keys (stage_need round stage) hn dataset
  have ht := take_min_length (stage_need round stage) dataset
  refine ⟨?_, ?_, ?_, ?_⟩
  · intro key P C
    have := parity_lt_two S substitute_with_sbox decrypt_half_one_round
      decrypt_half_two_round round stage right_keys key P C
    omega
  · intro k hk
    have hk1 : k < MAX_KEYS := hk
    rw [hu, ht, hb k, if_pos hk1]
  · intro k hk
    have hk1 : k < MAX_KEYS := hk
    rw [hb k, if_pos hk1, hu]
    refine le_trans (parity_count_le S substitute_with_sbox decrypt_half_one_round
      decrypt_half_two_round round stage right_keys k _) ?_
    rw [List.length_take, Nat.min_comm]
  · intro cs hcs k hk
    have hk1 : k < MAX_KEYS := hk
    rw [hu, ht] at hcs
    have hlen : cs.flatten.length ≤ stage_need round stage := by
      rw [hcs, List.length_take]
      exact Nat.min_le_left _ _
    rw [chunks_fold_count S substitute_with_sbox decrypt_half_one_round
      decrypt_half_two_round round stage right_keys cs _ k (by omega), hb k, hcs,
      if_pos hk1, if_pos hk1, Nat.zero_add]

/-- Two datasets whose consumed prefixes are rearrangements of each other
leave the loop of a stage in the same state. -/
theorem stage_loop_perm (round stage : Nat) (right_keys : Nat → Nat → Nat) (need : Nat)
    (hneed : need < 2 ^ 64) (d1 d2 : List Pair)
    (h : List.Perm (d1.take need) (d2.take need)) :
    stage_loop S substitute_with_sbox decrypt_half_one_round decrypt_half_two_round
        round stage right_keys need d1 (fun _ => 0) 0
      = stage_loop S substitute_with_sbox decrypt_half_one_round decrypt_half_two_round
        round stage right_keys need d2 (fun _ => 0) 0 := by
  refine Prod.ext ?_ ?_
  · funext k
    rw [stage_loop_bucket S substitute_with_sbox decrypt_half_one_round
        decrypt_half_two_round round stage right_keys need hneed d1 k,
      stage_loop_bucket S substitute_with_sbox decrypt_half_one_round
        decrypt_half_two_round round stage right_keys need hneed d2 k]
    unfold parity_count
    rw [List.Perm.countP_eq _ h]
  · have hl := List.Perm.length_eq h
    simp only [List.length_take] at hl
    rw [stage_loop_used, stage_loop_used, Nat.min_comm, hl, Nat.min_comm]

/-- C16: order independence of the parity sums.  If the pairs consumed by a
stage from one dataset are a permutation of those consumed from another, the
final counters and `used` are the same for both, and so is the value the
stage commits. -/
theorem C16_order_independence (round stage : Nat)
    (keys : (Nat → Nat → Nat) × (Nat → Nat → Nat)) (d1 d2 : List Pair)
    (h : List.Perm (d1.take (stage_need round stage)) (d2.take (stage_need round stage))) :
    (stage_loop S substitute_with_sbox decrypt_half_one_round decrypt_half_two_round
        round stage keys.1 (stage_need round stage) d1 (fun _ => 0) 0
      = stage_loop S substitute_with_sbox decrypt_half_one_round decrypt_half_two_round
        round stage keys.1 (stage_need round stage) d2 (fun _ => 0) 0) ∧
    (run_stage S substitute_with_sbox decrypt_half_one_round decrypt_half_two_round
        d1 round stage keys
      = run_stage S substitute_with_sbox decrypt_half_one_round decrypt_half_two_round
        d2 round stage keys) := by
  have key := stage_loop_perm S substitute_with_sbox decrypt_half_one_round
    decrypt_half_two_round round stage keys.1 (stage_need round stage)
    (stage_need_lt round stage) d1 d2 h
  refine ⟨key, ?_⟩
  unfold stage_need at key
  simp only [run_stage, key]

end Streaming

/-- C16, for the pairs `(1, 2)` and `(3, 4)` in both orders, round 0, stage 0,
with all-zero tables. -/
theorem C16_order_independence_witness :
    List.Perm (([⟨1, 2⟩, ⟨3, 4⟩] : List Pair).take (stage_need 0 0))
      (([⟨3, 4⟩, ⟨1, 2⟩] : List Pair).take (stage_need 0 0)) ∧
    ((stage_loop (fun _ => 0) (fun _ => 0) (fun _ _ => 0) (fun _ _ _ => 0)
        0 0 (fun _ _ => 0) (stage_need 0 0) [⟨1, 2⟩, ⟨3, 4⟩] (fun _ => 0) 0
      = stage_loop (fun _ => 0) (fun _ => 0) (fun _ _ => 0) (fun _ _ _ => 0)
        0 0 (fun _ _ => 0) (stage_need 0 0) [⟨3, 4⟩, ⟨1, 2⟩] (fun _ => 0) 0) ∧
     (run_stage (fun _ => 0) (fun _ => 0) (fun _ _ => 0) (fun _ _ _ => 0)
        [⟨1, 2⟩, ⟨3, 4⟩] 0 0 ((fun _ _ => 0), (fun _ _ => 0))
      = run_stage (fun _ => 0) (fun _ => 0) (fun _ _ => 0) (fun _ _ _ => 0)
        [⟨3, 4⟩, ⟨1, 2⟩] 0 0 ((fun _ _ => 0), (fun _ _ => 0)))) :=
  have hp : List.Perm (([⟨1, 2⟩, ⟨3, 4⟩] : List Pair).take (stage_need 0 0))
      (([⟨3, 4⟩, ⟨1, 2⟩] : List Pair).take (stage_need 0 0)) := by
    have e : stage_need 0 0 = 2 + (2 ^ 29 - 2) := by decide
    rw [e]
    simp only [List.take_add, List.take, List.drop, List.append_nil]
    exact List.Perm.swap _ _ _
  ⟨hp, C16_order_independence (fun _ => 0) (fun _ => 0) (fun _ _ => 0) (fun _ _ _ => 0)
    0 0 ((fun _ _ => 0), (fun _ _ => 0)) _ _ hp⟩

/-! ## What the parity bit depends on -/

section ParityDeps

variable (S : Nat → Nat) (substitute_with_sbox : Nat → Nat)
  (decrypt_half_one_round : Nat → (Nat → Nat) → Nat)
  (decrypt_half_two_round : Nat → (Nat → Nat) → (Nat → Nat) → Nat)

/-- The entries of the current round read by stage `s`, spelled out. -/
theorem earlier_positions (K1 K2 : Nat → Nat → Nat) (r s : Nat)
    (h : ∀ s1 : Nat, s1 < s →
      K1 r (stage_to_pos (s1 : Int)).toNat = K2 r (stage_to_pos (s1 : Int)).toNat) :
    (0 < s → K1 r 8 = K2 r 8) ∧ (1 < s → K1 r 1 = K2 r 1) ∧ (2 < s → K1 r 5 = K2 r 5) ∧
    (3 < s → K1 r 7 = K2 r 7) ∧ (4 < s → K1 r 4 = K2 r 4) ∧ (5 < s → K1 r 6 = K2 r 6) ∧
    (6 < s → K1 r 2 = K2 r 2) :=
  ⟨fun hs => h 0 hs, fun hs => h 1 hs, fun hs => h 2 hs, fun hs => h 3 hs,
   fun hs => h 4 hs, fun hs => h 5 hs, fun hs => h 6 hs⟩

/-- The parity bit reads the nibble-key arrays only through the two
partial-decryption values and the entries of the current round committed by
earlier stages. -/
theorem parity_congr (r s : Nat) (hr : r < 3) (hs : s < 8) (K1 K2 : Nat → Nat → Nat)
    (hd1 : 1 ≤ r → ∀ C, decrypt_half_one_round C (K1 0) = decrypt_half_one_round C (K2 0))
    (hd2 : r = 2 → ∀ C,
      decrypt_half_two_round C (K1 0) (K1 1) = decrypt_half_two_round C (K2 0) (K2 1))
    (hpos : ∀ s1 : Nat, s1 < s →
      K1 r (stage_to_pos (s1 : Int)).toNat = K2 r (stage_to_pos (s1 : Int)).toNat)
    (key P C : Nat) :
    parity S substitute_with_sbox decrypt_half_one_round decrypt_half_two_round
        r s K1 key P C
      = parity S substitute_with_sbox decrypt_half_one_round decrypt_half_two_round
        r s K2 key P C := by
  obtain ⟨h8, h1, h5, h7, h4, h6, h2⟩ := earlier_positions K1 K2 r s hpos
  interval_cases r
  · interval_cases s <;>
    simp only [parity, h8, h1, h5, h7, h4, h6, h2, Nat.reduceLT, Nat.reduceEqDiff, if_true,
      if_false]
  · have e1 := hd1 (by decide) C
    interval_cases s <;>
    simp only [parity, e1, h8, h1, h5, h7, h4, h6, h2, Nat.reduceLT, Nat.reduceEqDiff,
      if_true, if_false]
  · have e1 := hd1 (by decide) C
    have e2 := hd2 rfl C
    interval_cases s <;>
    simp only [parity, e1, e2, h8, h1, h5, h7, h4, h6, h2, Nat.reduceLT, Nat.reduceEqDiff,
      if_true, if_false]

theorem set2_row_of_ne (K : Nat → Nat → Nat) (r2 p2 v r1 : Nat) (h : r1 ≠ r2) :
    set2 K r2 p2 v r1 = K r1 := by
  funext p
  simp [set2, h]

/-- Writing an entry of a later round, or an entry of the current round that
no earlier stage committed, does not change the parity bit. -/
theorem parity_set2_other (r s : Nat) (hr : r < 3) (hs : s < 8) (K : Nat → Nat → Nat)
    (r2 p2 v : Nat)
    (h : r < r2 ∨ (r2 = r ∧ ∀ s1 : Nat, s1 < s → p2 ≠ (stage_to_pos (s1 : Int)).toNat))
    (key P C : Nat) :
    parity S substitute_with_sbox decrypt_half_one_round decrypt_half_two_round
        r s (set2 K r2 p2 v) key P C
      = parity S substitute_with_sbox decrypt_half_one_round decrypt_half_two_round
        r s K key P C := by
  have hge : r ≤ r2 := by
    rcases h with h | h
    · omega
    · omega
  refine parity_congr S substitute_with_sbox decrypt_half_one_round decrypt_half_two_round
    r s hr hs _ _ ?_ ?_ ?_ key P C
  · intro h1 C
    rw [set2_row_of_ne K r2 p2 v 0 (by omega)]
  · intro h2 C
    rw [set2_row_of_ne K r2 p2 v 0 (by omega), set2_row_of_ne K r2 p2 v 1 (by omega)]
  · intro s1 hs1
    rcases h with h | ⟨_, h⟩
    · have : r ≠ r2 := by omega
      simp [set2, this]
    · have := h s1 hs1
      simp [set2, this.symm]

/-- In round 0 the parity bit does not involve `substitute_with_sbox` or the
partial-decryption helpers. -/
theorem parity_round0 (sb1 sb2 : Nat → Nat) (d1a d1b : Nat → (Nat → Nat) → Nat)
    (d2a d2b : Nat → (Nat → Nat) → (Nat → Nat) → Nat) (s : Nat) (K : Nat → Nat → Nat)
    (key P C : Nat) :
    parity S sb1 d1a d2a 0 s K key P C = parity S sb2 d1b d2b 0 s K key P C := by
  simp only [parity, if_true]

/-- In round 1 the parity bit does not involve `decrypt_half_two_round`, and
in rounds 1 and 2 it does not read the extern table `S`. -/
theorem parity_round12 (S2 : Nat → Nat) (d2b : Nat → (Nat → Nat) → (Nat → Nat) → Nat)
    (s : Nat) (K : Nat → Nat → Nat) (key P C : Nat) :
    parity S substitute_with_sbox decrypt_half_one_round decrypt_half_two_round
        1 s K key P C
      = parity S2 substitute_with_sbox decrypt_half_one_round d2b 1 s K key P C ∧
    parity S substitute_with_sbox decrypt_half_one_round decrypt_half_two_round
        2 s K key P C
      = parity S2 substitute_with_sbox decrypt_half_one_round decrypt_half_two_round
        2 s K key P C := by
  constructor <;> simp only [parity, Nat.reduceEqDiff, if_true, if_false]

/-- C17: stage and round dependencies of the parity bit, for round `r` in
`0..2` and stage `s` in `0..7`.  Two nibble-key arrays give the same bit
whenever the partial decryptions agree (`decrypt_half_one_round` on row 0 for
`r ≥ 1`, `decrypt_half_two_round` on rows 0 and 1 for `r = 2`) and the entries
`right_keys[r][stage_to_pos(s1)]`, `s1 < s`, agree; so changing an entry of a
later round, or an entry of round `r` not committed by an earlier stage,
leaves the bit unchanged; and for `r = 0` the bit involves no helper function
at all. -/
theorem C17_parity_dependencies (r s : Nat) (hr : r < 3) (hs : s < 8) :
    (∀ K1 K2 : Nat → Nat → Nat,
      (1 ≤ r → ∀ C, decrypt_half_one_round C (K1 0) = decrypt_half_one_round C (K2 0)) →
      (r = 2 → ∀ C,
        decrypt_half_two_round C (K1 0) (K1 1) = decrypt_half_two_round C (K2 0) (K2 1)) →
      (∀ s1 : Nat, s1 < s →
        K1 r (stage_to_pos (s1 : Int)).toNat = K2 r (stage_to_pos (s1 : Int)).toNat) →
      ∀ key P C,
        parity S substitute_with_sbox decrypt_half_one_round decrypt_half_two_round
            r s K1 key P C
          = parity S substitute_with_sbox decrypt_half_one_round decrypt_half_two_round
            r s K2 key P C) ∧
    (∀ (K : Nat → Nat → Nat) (r2 p2 v : Nat),
      (r < r2 ∨ (r2 = r ∧ ∀ s1 : Nat, s1 < s → p2 ≠ (stage_to_pos (s1 : Int)).toNat)) →
      ∀ key P C,
        parity S substitute_with_sbox decrypt_half_one_round decrypt_half_two_round
            r s (set2 K r2 p2 v) key P C
          = parity S substitute_with_sbox decrypt_half_one_round decrypt_half_two_round
            r s K key P C) ∧
    (r = 0 →
      ∀ (sb2 : Nat → Nat) (d1b : Nat → (Nat → Nat) → Nat)
        (d2b : Nat → (Nat → Nat) → (Nat → Nat) → Nat) (K : Nat → Nat → Nat) (key P C : Nat),
        parity S substitute_with_sbox decrypt_half_one_round decrypt_half_two_round
            r s K key P C
          = parity S sb2 d1b d2b r s K key P C) := by
  refine ⟨?_, ?_, ?_⟩
  · intro K1 K2 hd1 hd2 hpos key P C
    exact parity_congr S substitute_with_sbox decrypt_half_one_round decrypt_half_two_round
      r s hr hs K1 K2 hd1 hd2 hpos key P C
  · intro K r2 p2 v h key P C
    exact parity_set2_other S substitute_with_sbox decrypt_half_one_round
      decrypt_half_two_round r s hr hs K r2 p2 v h key P C
  · intro h0 sb2 d1b d2b K key P C
    subst h0
    exact parity_round0 S substitute_with_sbox sb2 decrypt_half_one_round d1b
      decrypt_half_two_round d2b s K key P C

end ParityDeps

/-- C17, at round 1, stage 2, for every choice of the helper functions. -/
theorem C17_parity_dependencies_witness :
    (1 < 3 ∧ 2 < 8) ∧
    ∀ (S : Nat → Nat) (substitute_with_sbox : Nat → Nat)
      (decrypt_half_one_round : Nat → (Nat → Nat) → Nat)
      (decrypt_half_two_round : Nat → (Nat → Nat) → (Nat → Nat) → Nat),
    (∀ K1 K2 : Nat → Nat → Nat,
      (1 ≤ 1 → ∀ C, decrypt_half_one_round C (K1 0) = decrypt_half_one_round C (K2 0)) →
      (1 = 2 → ∀ C,
        decrypt_half_two_round C (K1 0) (K1 1) = decrypt_half_two_round C (K2 0) (K2 1)) →
      (∀ s1 : Nat, s1 < 2 →
        K1 1 (stage_to_pos (s1 : Int)).toNat = K2 1 (stage_to_pos (s1 : Int)).toNat) →
      ∀ key P C,
        parity S substitute_with_sbox decrypt_half_one_round decrypt_half_two_round
            1 2 K1 key P C
          = parity S substitute_with_sbox decrypt_half_one_round decrypt_half_two_round
            1 2 K2 key P C) ∧
    (∀ (K : Nat → Nat → Nat) (r2 p2 v : Nat),
      (1 < r2 ∨ (r2 = 1 ∧ ∀ s1 : Nat, s1 < 2 → p2 ≠ (stage_to_pos (s1 : Int)).toNat)) →
      ∀ key P C,
        parity S substitute_with_sbox decrypt_half_one_round decrypt_half_two_round
            1 2 (set2 K r2 p2 v) key P C
          = parity S substitute_with_sbox decrypt_half_one_round decrypt_half_two_round
            1 2 K key P C) ∧
    (1 = 0 →
      ∀ (sb2 : Nat → Nat) (d1b : Nat → (Nat → Nat) → Nat)
        (d2b : Nat → (Nat → Nat) → (Nat → Nat) → Nat) (K : Nat → Nat → Nat) (key P C : Nat),
        parity S substitute_with_sbox decrypt_half_one_round decrypt_half_two_round
            1 2 K key P C
          = parity S sb2 d1b d2b 1 2 K key P C) :=
  ⟨⟨by decide, by decide⟩,
   fun S substitute_with_sbox decrypt_half_one_round decrypt_half_two_round =>
     C17_parity_dependencies S substitute_with_sbox decrypt_half_one_round
       decrypt_half_two_round 1 2 (by decide) (by decide)⟩


/-! ## Monotone `g_found` and the first match -/

section FoundProofs

variable {KS : Type} (key_schedule : List Nat → KS) (encrypt : Nat → KS → Nat)

theorem search_one_loop_add (tmpl : Nat × Nat) (RK17 n m i : Nat) (st : Globals) :
    search_one_loop key_schedule encrypt tmpl RK17 (n + m) i st
      = search_one_loop key_schedule encrypt tmpl RK17 m (i + n)
          (search_one_loop key_schedule encrypt tmpl RK17 n i st) := by
  induction n generalizing i st with
  | zero => simp [search_one_loop]
  | succ n ih =>
    have e : n + 1 + m = (n + m) + 1 := by omega
    rw [e]
    show search_one_loop key_schedule encrypt tmpl RK17 (n + m) (i + 1) _ = _
    rw [ih (i + 1)]
    have e2 : i + 1 + n = i + (n + 1) := by omega
    rw [e2]
    rfl

theorem find_master_key_loop_add (rk16 rk17 rk18 n m b : Nat) (st : Globals) :
    find_master_key_loop key_schedule encrypt rk16 rk17 rk18 (n + m) b st
      = find_master_key_loop key_schedule encrypt rk16 rk17 rk18 m (b + n)
          (find_master_key_loop key_schedule encrypt rk16 rk17 rk18 n b st) := by
  induction n generalizing b st with
  | zero => simp [find_master_key_loop]
  | succ n ih =>
    have e : n + 1 + m = (n + m) + 1 := by omega
    rw [e]
    by_cases h : st.g_found ≠ 0
    · rw [find_master_key_loop_of_found key_schedule encrypt rk16 rk17 rk18 _ b st h,
        find_master_key_loop_of_found key_schedule encrypt rk16 rk17 rk18 _ b st h,
        find_master_key_loop_of_found key_schedule encrypt rk16 rk17 rk18 _ _ st h]
    · have e2 : b + (n + 1) = b + 1 + n := by omega
      rw [e2]
      simp only [find_master_key_loop, h, if_false]
      exact ih (b + 1) _

theorem search_one_loop_frozen (tmpl : Nat × Nat) (RK17 n m i : Nat) (st : Globals)
    (h : (search_one_loop key_schedule encrypt tmpl RK17 n i st).g_found ≠ 0) :
    search_one_loop key_schedule encrypt tmpl RK17 (n + m) i st
      = search_one_loop key_schedule encrypt tmpl RK17 n i st := by
  rw [search_one_loop_add]
  exact search_one_loop_of_found key_schedule encrypt tmpl RK17 m (i + n) _ h

theorem find_master_key_loop_frozen (rk16 rk17 rk18 n m b : Nat) (st : Globals)
    (h : (find_master_key_loop key_schedule encrypt rk16 rk17 rk18 n b st).g_found ≠ 0) :
    find_master_key_loop key_schedule encrypt rk16 rk17 rk18 (n + m) b st
      = find_master_key_loop key_schedule encrypt rk16 rk17 rk18 n b st := by
  rw [find_master_key_loop_add]
  exact find_master_key_loop_of_found key_schedule encrypt rk16 rk17 rk18 m (b + n) _ h

theorem search_one_body_cases (tmpl : Nat × Nat) (RK17 i : Nat) (st : Globals)
    (h0 : st.g_found = 0) :
    search_one_body key_schedule encrypt tmpl RK17 i st = st ∨
    search_one_body key_schedule encrypt tmpl RK17 i st
      = { st with g_found := 1, g_found_key := candidate_key tmpl RK17 i } := by
  by_cases hm : key_matches key_schedule encrypt st.g_pairs (candidate_key tmpl RK17 i)
  · exact Or.inr (search_one_body_of_match key_schedule encrypt tmpl RK17 i st h0 hm)
  · exact Or.inl (search_one_body_of_not_match key_schedule encrypt tmpl RK17 i st h0 hm)

/-- During the inner loop the state changes at most once: after any number
of iterations it is the initial state or already the final one. -/
theorem search_one_loop_prefix (tmpl : Nat × Nat) (RK17 n m i : Nat) (st : Globals)
    (h0 : st.g_found = 0) :
    search_one_loop key_schedule encrypt tmpl RK17 n i st = st ∨
    search_one_loop key_schedule encrypt tmpl RK17 n i st
      = search_one_loop key_schedule encrypt tmpl RK17 (n + m) i st := by
  rcases search_one_loop_spec key_schedule encrypt tmpl RK17 n i st h0 with
    ⟨_, heq⟩ | ⟨k, _, _, _, heq⟩
  · exact Or.inl heq
  · right
    exact (search_one_loop_frozen key_schedule encrypt tmpl RK17 n m i st
      (by rw [heq]; simp)).symm

/-- During the outer loop the state changes at most once. -/
theorem find_master_key_loop_prefix (rk16 rk17 rk18 n m b : Nat) (st : Globals)
    (h0 : st.g_found = 0) :
    find_master_key_loop key_schedule encrypt rk16 rk17 rk18 n b st = st ∨
    find_master_key_loop key_schedule encrypt rk16 rk17 rk18 n b st
      = find_master_key_loop key_schedule encrypt rk16 rk17 rk18 (n + m) b st := by
  rcases find_master_key_loop_spec key_schedule encrypt rk16 rk17 rk18 n b st h0 with
    ⟨_, heq⟩ | ⟨d, k, _, _, _, _, _, heq⟩
  · exact Or.inl heq
  · right
    exact (find_master_key_loop_frozen key_schedule encrypt rk16 rk17 rk18 n m b st
      (by rw [heq]; simp)).symm

/-- C18: monotone `g_found`, for one sequential call.  After the reset
`g_found` is 0; an iteration entered with `g_found` set changes nothing (no
verification, no write); an iteration entered with `g_found = 0` either
changes nothing or sets `g_found = 1` together with the single write of
`g_found_key`; hence once `g_found` is set, every later inner iteration and
every later template leaves the whole state, `g_found_key` included, as it
is, and over the call the state changes at most once. -/
theorem C18_monotone_found :
    (∀ (pairs : Pair × Pair) (rk16 rk17 rk18 : Nat) (st : Globals),
      (init_globals pairs rk16 rk17 rk18 st).g_found = 0) ∧
    (∀ (tmpl : Nat × Nat) (RK17 i : Nat) (st : Globals), st.g_found ≠ 0 →
      search_one_body key_schedule encrypt tmpl RK17 i st = st) ∧
    (∀ (tmpl : Nat × Nat) (RK17 i : Nat) (st : Globals), st.g_found = 0 →
      search_one_body key_schedule encrypt tmpl RK17 i st = st ∨
      search_one_body key_schedule encrypt tmpl RK17 i st
        = { st with g_found := 1, g_found_key := candidate_key tmpl RK17 i }) ∧
    (∀ (tmpl : Nat × Nat) (RK17 n m i : Nat) (st : Globals),
      (search_one_loop key_schedule encrypt tmpl RK17 n i st).g_found ≠ 0 →
      search_one_loop key_schedule encrypt tmpl RK17 (n + m) i st
        = search_one_loop key_schedule encrypt tmpl RK17 n i st) ∧
    (∀ (rk16 rk17 rk18 n m b : Nat) (st : Globals),
      (find_master_key_loop key_schedule encrypt rk16 rk17 rk18 n b st).g_found ≠ 0 →
      find_master_key_loop key_schedule encrypt rk16 rk17 rk18 (n + m) b st
        = find_master_key_loop key_schedule encrypt rk16 rk17 rk18 n b st) ∧
    (∀ (tmpl : Nat × Nat) (RK17 n m i : Nat) (st : Globals), st.g_found = 0 →
      search_one_loop key_schedule encrypt tmpl RK17 n i st = st ∨
      search_one_loop key_schedule encrypt tmpl RK17 n i st
        = search_one_loop key_schedule encrypt tmpl RK17 (n + m) i st) ∧
    (∀ (rk16 rk17 rk18 n m b : Nat) (st : Globals), st.g_found = 0 →
      find_master_key_loop key_schedule encrypt rk16 rk17 rk18 n b st = st ∨
      find_master_key_loop key_schedule encrypt rk16 rk17 rk18 n b st
        = find_master_key_loop key_schedule encrypt rk16 rk17 rk18 (n + m) b st) :=
  ⟨fun _ _ _ _ _ => rfl,
   fun tmpl RK17 i st h => search_one_body_of_found key_schedule encrypt tmpl RK17 i st h,
   fun tmpl RK17 i st h => search_one_body_cases key_schedule encrypt tmpl RK17 i st h,
   fun tmpl RK17 n m i st h =>
     search_one_loop_frozen key_schedule encrypt tmpl RK17 n m i st h,
   fun rk16 rk17 rk18 n m b st h =>
     find_master_key_loop_frozen key_schedule encrypt rk16 rk17 rk18 n m b st h,
   fun tmpl RK17 n m i st h =>
     search_one_loop_prefix key_schedule encrypt tmpl RK17 n m i st h,
   fun rk16 rk17 rk18 n m b st h =>
     find_master_key_loop_prefix key_schedule encrypt rk16 rk17 rk18 n m b st h⟩

end FoundProofs

section VerifyClaims

variable {KS : Type} (key_schedule : List Nat → KS) (encrypt : Nat → KS → Nat)

theorem verify_master_key_cases (st : Globals) (hi lo : Nat) :
    (key_matches key_schedule encrypt st.g_pairs (build_mk hi lo) ∧
      verify_master_key key_schedule encrypt st hi lo
        = (1, { st with g_found_key := build_mk hi lo })) ∨
    (¬ key_matches key_schedule encrypt st.g_pairs (build_mk hi lo) ∧
      verify_master_key key_schedule encrypt st hi lo = (0, st)) := by
  by_cases h : key_matches key_schedule encrypt st.g_pairs (build_mk hi lo)
  · exact Or.inl ⟨h, verify_master_key_of_match key_schedule encrypt st hi lo h⟩
  · exact Or.inr ⟨h, verify_master_key_of_not_match key_schedule encrypt st hi lo h⟩

/-- C23: `verify_master_key(hi, lo)`, for arbitrary `key_schedule` and
`encrypt`, returns 1 if and only if the key schedule built from the 16 bytes
`mk` packed from `(hi, lo)` encrypts `g_pairs[0].plaintext` to
`g_pairs[0].ciphertext` and `g_pairs[1].plaintext` to `g_pairs[1].ciphertext`,
and returns 0 otherwise; when it returns 1, `g_found_key` holds exactly these
16 bytes, and when it returns 0 every file-scope variable, `g_found_key`
included, is unchanged; the other file-scope variables are unchanged in both
cases; for 64-bit words the 16 bytes are the big-endian packing of `hi`
followed by that of `lo`. -/
theorem C23_verify_master_key_spec (st : Globals) (hi lo : Nat) :
    ((verify_master_key key_schedule encrypt st hi lo).1 = 1 ↔
      (encrypt st.g_pairs.1.plaintext (key_schedule (build_mk hi lo))
          = st.g_pairs.1.ciphertext ∧
       encrypt st.g_pairs.2.plaintext (key_schedule (build_mk hi lo))
          = st.g_pairs.2.ciphertext)) ∧
    ((verify_master_key key_schedule encrypt st hi lo).1 = 0 ∨
     (verify_master_key key_schedule encrypt st hi lo).1 = 1) ∧
    ((verify_master_key key_schedule encrypt st hi lo).1 = 1 →
      (verify_master_key key_schedule encrypt st hi lo).2.g_found_key = build_mk hi lo) ∧
    ((verify_master_key key_schedule encrypt st hi lo).1 = 0 →
      (verify_master_key key_schedule encrypt st hi lo).2.g_found_key = st.g_found_key ∧
      (verify_master_key key_schedule encrypt st hi lo).2 = st) ∧
    ((verify_master_key key_schedule encrypt st hi lo).2.g_pairs = st.g_pairs ∧
     (verify_master_key key_schedule encrypt st hi lo).2.g_RK16 = st.g_RK16 ∧
     (verify_master_key key_schedule encrypt st hi lo).2.g_RK17 = st.g_RK17 ∧
     (verify_master_key key_schedule encrypt st hi lo).2.g_RK18 = st.g_RK18 ∧
     (verify_master_key key_schedule encrypt st hi lo).2.g_found = st.g_found) ∧
    (build_mk hi lo).length = 16 ∧
    (hi < 2 ^ 64 → lo < 2 ^ 64 →
      be_load_spec ((build_mk hi lo).take 8) = hi ∧
      be_load_spec ((build_mk hi lo).drop 8) = lo) := by
  have hlen : (build_mk hi lo).length = 16 := by rw [build_mk_eq]; rfl
  have hbe : hi < 2 ^ 64 → lo < 2 ^ 64 →
      be_load_spec ((build_mk hi lo).take 8) = hi ∧
      be_load_spec ((build_mk hi lo).drop 8) = lo :=
    fun h1 h2 => ⟨(build_mk_layout hi lo h1 h2).2.2.1, (build_mk_layout hi lo h1 h2).2.2.2⟩
  rcases verify_master_key_cases key_schedule encrypt st hi lo with ⟨hm, e⟩ | ⟨hm, e⟩
  · rw [e]
    exact ⟨⟨fun _ => hm, fun _ => rfl⟩, Or.inr rfl, fun _ => rfl,
      fun h => absurd h (by simp), ⟨rfl, rfl, rfl, rfl, rfl⟩, hlen, hbe⟩
  · rw [e]
    exact ⟨⟨fun h => absurd h (by simp), fun h => absurd h hm⟩, Or.inl rfl,
      fun h => absurd h (by simp), fun _ => ⟨rfl, rfl⟩, ⟨rfl, rfl, rfl, rfl, rfl⟩, hlen, hbe⟩

/-- Two first matches of the same enumeration coincide. -/
theorem first_match_unique (P : Nat → Nat → Prop) (d k d1 k1 : Nat)
    (hk : k < 2 ^ 29) (hk1 : k1 < 2 ^ 29)
    (hm : P d k) (hm1 : P d1 k1)
    (hf : ∀ a b, a < d → b < 2 ^ 29 → ¬ P a b) (hg : ∀ b, b < k → ¬ P d b)
    (hf1 : ∀ a b, a < d1 → b < 2 ^ 29 → ¬ P a b) (hg1 : ∀ b, b < k1 → ¬ P d1 b) :
    d = d1 ∧ k = k1 := by
  have e : d = d1 := by
    rcases Nat.lt_trichotomy d d1 with h | h | h
    · exact absurd hm (hf1 d k h hk)
    · exact h
    · exact absurd hm1 (hf d1 k1 h hk1)
  subst e
  refine ⟨rfl, ?_⟩
  rcases Nat.lt_trichotomy k k1 with h | h | h
  · exact absurd hm (hg1 k h)
  · exact h
  · exact absurd hm1 (hg k1 h)

/-- The returned `int` and, on success, the bytes written out are determined
by the pairs and the keys handed to the verification. -/
theorem find_master_key_result_congr (pairs : Pair × Pair) (rk16 rk17 rk18 rk17b : Nat)
    (out outb : List Nat) (st stb : Globals)
    (hc : ∀ d k, candidate_key (search_one_template d rk16 rk18) rk17b k
      = candidate_key (search_one_template d rk16 rk18) rk17 k) :
    (find_master_key key_schedule encrypt pairs rk16 rk17b rk18 outb stb).1
      = (find_master_key key_schedule encrypt pairs rk16 rk17 rk18 out st).1 ∧
    ((find_master_key key_schedule encrypt pairs rk16 rk17 rk18 out st).1 = 1 →
      (find_master_key key_schedule encrypt pairs rk16 rk17b rk18 outb stb).2.1
        = (find_master_key key_schedule encrypt pairs rk16 rk17 rk18 out st).2.1) := by
  rcases find_master_key_spec key_schedule encrypt pairs rk16 rk17 rk18 out st with
    ⟨hno, e⟩ | ⟨d, k, hd, hk, hm, hf, hg, e⟩ <;>
  rcases find_master_key_spec key_schedule encrypt pairs rk16 rk17b rk18 outb stb with
    ⟨hnob, eb⟩ | ⟨d1, k1, hd1, hk1, hm1, hf1, hg1, eb⟩
  · rw [e, eb]
    exact ⟨rfl, fun h => absurd h (by simp)⟩
  · rw [hc] at hm1
    exact absurd hm1 (hno d1 k1 hd1 hk1)
  · rw [← hc] at hm
    exact absurd hm (hnob d k hd hk)
  · simp only [hc] at hm1 hf1 hg1 eb
    obtain ⟨e1, e2⟩ := first_match_unique
      (fun a b => key_matches key_schedule encrypt pairs
        (candidate_key (search_one_template a rk16 rk18) rk17 b))
      d k d1 k1 hk hk1 hm hm1 hf hg hf1 hg1
    subst e1
    subst e2
    rw [e, eb]
    exact ⟨rfl, fun _ => rfl⟩

theorem find_master_key_ret_zero_of_no_match (pairs : Pair × Pair) (rk16 rk17 rk18 : Nat)
    (out : List Nat) (st : Globals)
    (hno : ∀ d k, d < 64 → k < 2 ^ 29 → ¬ key_matches key_schedule encrypt pairs
      (candidate_key (search_one_template d rk16 rk18) rk17 k)) :
    (find_master_key key_schedule encrypt pairs rk16 rk17 rk18 out st).1 = 0 := by
  rcases find_master_key_spec key_schedule encrypt pairs rk16 rk17 rk18 out st with
    ⟨_, e⟩ | ⟨d, k, hd, hk, hm, _, _, _⟩
  · rw [e]
  · exact absurd hm (hno d k hd hk)

/-- C28: failure leaves the output buffer untouched: for all inputs, all
prior contents `out` of the 16 bytes of `master_key_out` and all prior values
of the file-scope variables, when `find_master_key` returns 0 the output
buffer after the call is `out`. -/
theorem C28_failure_leaves_output (pairs : Pair × Pair) (rk16 rk17 rk18 : Nat)
    (out : List Nat) (st : Globals)
    (h : (find_master_key key_schedule encrypt pairs rk16 rk17 rk18 out st).1 = 0) :
    (find_master_key key_schedule encrypt pairs rk16 rk17 rk18 out st).2.1 = out := by
  rcases find_master_key_spec key_schedule encrypt pairs rk16 rk17 rk18 out st with
    ⟨_, e⟩ | ⟨d, k, _, _, _, _, _, e⟩
  · rw [e]
  · rw [e] at h
    exact absurd h (by simp)

/-- C29: no state leaks between sequential calls: for equal arguments
`(pairs, rk16, rk17, rk18)` and arbitrary prior values `st1`, `st2` of the
file-scope variables and prior contents `out1`, `out2` of the output buffer,
the two calls return the same `int`, and when they return 1 they write the
same 16 bytes. -/
theorem C29_no_state_leak (pairs : Pair × Pair) (rk16 rk17 rk18 : Nat)
    (out1 out2 : List Nat) (st1 st2 : Globals) :
    (find_master_key key_schedule encrypt pairs rk16 rk17 rk18 out1 st1).1
      = (find_master_key key_schedule encrypt pairs rk16 rk17 rk18 out2 st2).1 ∧
    ((find_master_key key_schedule encrypt pairs rk16 rk17 rk18 out2 st2).1 = 1 →
      (find_master_key key_schedule encrypt pairs rk16 rk17 rk18 out1 st1).2.1
        = (find_master_key key_schedule encrypt pairs rk16 rk17 rk18 out2 st2).2.1) :=
  find_master_key_result_congr key_schedule encrypt pairs rk16 rk17 rk18 rk17 out2 out1 st2 st1
    (fun _ _ => rfl)

end VerifyClaims

theorem search_one_candidate_rk17 (tmpl : Nat × Nat) (rk17 rk17b i : Nat)
    (h : rk17 &&& 0x1FFFFFFF = rk17b &&& 0x1FFFFFFF) :
    search_one_candidate tmpl rk17 i = search_one_candidate tmpl rk17b i := by
  unfold search_one_candidate
  rw [h]

section VerifyClaims

variable {KS : Type} (key_schedule : List Nat → KS) (encrypt : Nat → KS → Nat)

/-- C30: only the low 29 bits of `rk17` influence the search: when
`rk17 & 0x1FFFFFFF = rk17b & 0x1FFFFFFF`, every iteration of every template
materialises the same candidate `(hi, lo)` and hands the same 16 bytes to the
verification, every inner iteration and every template run acts on the
file-scope variables in the same way, and `find_master_key` returns the same
`int` and, on success, writes the same output bytes. -/
theorem C30_rk17_low_bits_only (pairs : Pair × Pair) (rk16 rk17 rk17b rk18 : Nat)
    (out : List Nat) (st : Globals)
    (h : rk17 &&& 0x1FFFFFFF = rk17b &&& 0x1FFFFFFF) :
    (∀ in_bits i, candidate in_bits rk16 rk17 rk18 i = candidate in_bits rk16 rk17b rk18 i) ∧
    (∀ tmpl i, candidate_key tmpl rk17 i = candidate_key tmpl rk17b i) ∧
    (∀ in_bits s, search_one key_schedule encrypt in_bits rk16 rk17 rk18 s
      = search_one key_schedule encrypt in_bits rk16 rk17b rk18 s) ∧
    (find_master_key key_schedule encrypt pairs rk16 rk17 rk18 out st).1
      = (find_master_key key_schedule encrypt pairs rk16 rk17b rk18 out st).1 ∧
    (find_master_key key_schedule encrypt pairs rk16 rk17 rk18 out st).2.1
      = (find_master_key key_schedule encrypt pairs rk16 rk17b rk18 out st).2.1 := by
  have hc : ∀ tmpl i, search_one_candidate tmpl rk17 i = search_one_candidate tmpl rk17b i :=
    fun tmpl i => search_one_candidate_rk17 tmpl rk17 rk17b i h
  have hk : ∀ tmpl i, candidate_key tmpl rk17 i = candidate_key tmpl rk17b i := by
    intro tmpl i
    unfold candidate_key
    rw [hc]
  have hb : ∀ tmpl i s, search_one_body key_schedule encrypt tmpl rk17 i s
      = search_one_body key_schedule encrypt tmpl rk17b i s := by
    intro tmpl i s
    unfold search_one_body
    rw [hc]
  have hl : ∀ tmpl n i s, search_one_loop key_schedule encrypt tmpl rk17 n i s
      = search_one_loop key_schedule encrypt tmpl rk17b n i s := by
    intro tmpl n
    induction n with
    | zero => intro i s; rfl
    | succ n ih =>
      intro i s
      simp only [search_one_loop]
      rw [hb, ih]
  have hr := find_master_key_result_congr key_schedule encrypt pairs rk16 rk17b rk18 rk17
    out out st st (fun d k => hk _ k)
  refine ⟨fun in_bits i => hc _ i, hk, fun in_bits s => hl _ _ _ s, hr.1, ?_⟩
  rcases find_master_key_spec key_schedule encrypt pairs rk16 rk17b rk18 out st with
    ⟨_, e⟩ | ⟨d, k, _, _, _, _, _, e⟩
  · have e0 : (find_master_key key_schedule encrypt pairs rk16 rk17 rk18 out st).1 = 0 := by
      rw [hr.1, e]
    rcases find_master_key_spec key_schedule encrypt pairs rk16 rk17 rk18 out st with
      ⟨_, e1⟩ | ⟨d, k, _, _, _, _, _, e1⟩
    · rw [e, e1]
    · rw [e1] at e0
      exact absurd e0 (by simp)
  · exact hr.2 (by rw [e])

end VerifyClaims

/-- C28, for the cipher that returns the plaintext and the pairs `(0, 1)` and
`(0, 0)`, which no key reproduces: the call returns 0 and the output buffer
keeps its 16 prior bytes. -/
theorem C28_failure_leaves_output_witness :
    (find_master_key toy_key_schedule toy_encrypt (⟨0, 1⟩, ⟨0, 0⟩) 0 0 0
        [1, 2, 3, 4, 5, 6, 7, 8, 9, 10, 11, 12, 13, 14, 15, 16] globals_zero).1 = 0 ∧
    (find_master_key toy_key_schedule toy_encrypt (⟨0, 1⟩, ⟨0, 0⟩) 0 0 0
        [1, 2, 3, 4, 5, 6, 7, 8, 9, 10, 11, 12, 13, 14, 15, 16] globals_zero).2.1
      = [1, 2, 3, 4, 5, 6, 7, 8, 9, 10, 11, 12, 13, 14, 15, 16] :=
  have h := find_master_key_ret_zero_of_no_match toy_key_schedule toy_encrypt
    (⟨0, 1⟩, ⟨0, 0⟩) 0 0 0 [1, 2, 3, 4, 5, 6, 7, 8, 9, 10, 11, 12, 13, 14, 15, 16] globals_zero
    (fun _ _ _ _ hm => absurd hm.1 (show ¬ ((0 : Nat) = 1) from by decide))
  ⟨h, C28_failure_leaves_output toy_key_schedule toy_encrypt (⟨0, 1⟩, ⟨0, 0⟩) 0 0 0
    [1, 2, 3, 4, 5, 6, 7, 8, 9, 10, 11, 12, 13, 14, 15, 16] globals_zero h⟩

/-- C30, at `rk17 = 0x12345678` and `rk17b = 0xF2345678`, which differ in
bits 29..31 only, for the cipher that returns the plaintext. -/
theorem C30_rk17_low_bits_only_witness :
    (0x12345678 &&& 0x1FFFFFFF = 0xF2345678 &&& 0x1FFFFFFF) ∧
    ((∀ in_bits i, candidate in_bits 0 0x12345678 0 i = candidate in_bits 0 0xF2345678 0 i) ∧
     (∀ tmpl i, candidate_key tmpl 0x12345678 i = candidate_key tmpl 0xF2345678 i) ∧
     (∀ in_bits s, search_one toy_key_schedule toy_encrypt in_bits 0 0x12345678 0 s
       = search_one toy_key_schedule toy_encrypt in_bits 0 0xF2345678 0 s) ∧
     (find_master_key toy_key_schedule toy_encrypt (⟨0, 0⟩, ⟨1, 1⟩) 0 0x12345678 0
         (List.replicate 16 0) globals_zero).1
       = (find_master_key toy_key_schedule toy_encrypt (⟨0, 0⟩, ⟨1, 1⟩) 0 0xF2345678 0
         (List.replicate 16 0) globals_zero).1 ∧
     (find_master_key toy_key_schedule toy_encrypt (⟨0, 0⟩, ⟨1, 1⟩) 0 0x12345678 0
         (List.replicate 16 0) globals_zero).2.1
       = (find_master_key toy_key_schedule toy_encrypt (⟨0, 0⟩, ⟨1, 1⟩) 0 0xF2345678 0
         (List.replicate 16 0) globals_zero).2.1) :=
  ⟨by decide,
   C30_rk17_low_bits_only toy_key_schedule toy_encrypt (⟨0, 0⟩, ⟨1, 1⟩) 0 0x12345678 0xF2345678 0
     (List.replicate 16 0) globals_zero (by decide)⟩


/-! ## Full characterisation of the selection -/

theorem bias_spec_shift (bucket : Nat → Nat) (used i : Nat) :
    bias_spec bucket used i = Int.natAbs ((bucket i : Int) - ((used >>> 1 : Nat) : Int)) := by
  unfold bias_spec
  rw [Nat.shiftRight_eq_div_pow]

/-- C25: full characterisation of `find_max_deviation_index` with integer
halving: with `half = used >> 1` and `diff(i) = |bucket[i] - half|`, the
function returns `-1` exactly when `bucket[i] = half` for every `i` in
`0..15`; otherwise it returns an index `k` in `0..15` with `diff(k)` maximal
over `0..15` and `diff(j) < diff(k)` for every `j < k`, that is, the smallest
index at which `diff` is maximal. -/
theorem C25_find_max_deviation_index_characterisation (bucket : Nat → Nat) (used : Nat) :
    (find_max_deviation_index bucket used = -1 ↔ ∀ i, i < 16 → bucket i = used >>> 1) ∧
    ((¬ ∀ i, i < 16 → bucket i = used >>> 1) →
      ∃ k : Nat, k < 16 ∧ find_max_deviation_index bucket used = (k : Int) ∧
        (∀ j, j < 16 →
          Int.natAbs ((bucket j : Int) - ((used >>> 1 : Nat) : Int))
            ≤ Int.natAbs ((bucket k : Int) - ((used >>> 1 : Nat) : Int))) ∧
        (∀ j, j < k →
          Int.natAbs ((bucket j : Int) - ((used >>> 1 : Nat) : Int))
            < Int.natAbs ((bucket k : Int) - ((used >>> 1 : Nat) : Int))) ∧
        (∀ m, m < 16 →
          (∀ j, j < 16 →
            Int.natAbs ((bucket j : Int) - ((used >>> 1 : Nat) : Int))
              ≤ Int.natAbs ((bucket m : Int) - ((used >>> 1 : Nat) : Int))) →
          k ≤ m)) := by
  have hsome : (¬ ∀ i, i < 16 → bucket i = used >>> 1) →
      ∃ k : Nat, k < 16 ∧ bucket k ≠ used >>> 1 := by
    intro h
    by_contra hc
    apply h
    intro i hi
    by_contra hne
    exact hc ⟨i, hi, hne⟩
  constructor
  · constructor
    · intro h
      by_contra hc
      obtain ⟨k, _, hk, _, _⟩ := find_max_deviation_index_some bucket used (hsome hc)
      rw [h] at hk
      omega
    · exact find_max_deviation_index_all_half bucket used
  · intro hc
    obtain ⟨k, hk16, hk, hmax, hfirst⟩ := find_max_deviation_index_some bucket used (hsome hc)
    simp only [bias_spec_shift] at hmax hfirst
    refine ⟨k, hk16, hk, hmax, hfirst, ?_⟩
    intro m hm hmmax
    by_contra hlt
    have h1 := hfirst m (by omega)
    have h2 := hmmax k hk16
    omega

/-! ## Reading `in_bits` and `i` off a candidate -/

theorem tb1F (j : Nat) : Nat.testBit 0x1F j = decide (j < 5) :=
  Nat.testBit_two_pow_sub_one 5 j

/-- Bits 59..63 of `lo` and bit 0 of `hi` hold the six bits of `in_bits`. -/
theorem cand_in_bits_mod (in_bits RK16 RK17 RK18 i : Nat) :
    (((search_one_candidate (search_one_template in_bits RK16 RK18) RK17 (i % 2 ^ 29)).2
        >>> 59) &&& 0x1F) |||
      (((search_one_candidate (search_one_template in_bits RK16 RK18) RK17 (i % 2 ^ 29)).1
        &&& 1) <<< 5)
      = in_bits % 2 ^ 6 := by
  apply Nat.eq_of_testBit_eq
  intro j
  simp only [search_one_candidate, search_one_template]
  generalize search_one_a in_bits RK16 = a
  generalize search_one_b in_bits RK16 = b
  simp only [and_one_eq_toNat, shr_and_one_eq_toNat, XOR1_toNat, XOR2_toNat, toNat_xor_one,
    testBit_SET_H, testBit_SET_L, Nat.testBit_bool_to_nat,
    Nat.testBit_or, Nat.testBit_and, Nat.testBit_xor, Nat.testBit_shiftLeft,
    Nat.testBit_shiftRight, Nat.testBit_mod_two_pow, tb1F, Nat.zero_testBit]
  by_cases hj : j < 6
  · interval_cases j <;>
    simp only [Nat.reduceAdd, Nat.reduceSub, Nat.reduceLT, Nat.reduceGT, Nat.reduceLeDiff,
      Nat.reduceEqDiff, ge_iff_le, decide_True, decide_False, Bool.and_true, Bool.true_and,
      Bool.false_and, Bool.and_false, Bool.or_false, Bool.false_or, Bool.xor_false,
      Bool.false_xor, Bool.or_true, Bool.true_or]
  · have h1 : ¬ (j < 5) := by omega
    have h2 : ¬ (j - 5 = 0) := by omega
    simp only [h1, h2, hj, decide_False, Bool.false_and, Bool.and_false,
      Bool.or_false, Bool.xor_false]

theorem cand_in_bits (in_bits rk16 rk17 rk18 i : Nat) (hb : in_bits < 64) (hi : i < 2 ^ 29) :
    ((((candidate in_bits rk16 rk17 rk18 i).2 >>> 59) &&& 0x1F) |||
      (((candidate in_bits rk16 rk17 rk18 i).1 &&& 1) <<< 5)) = in_bits := by
  have e := cand_in_bits_mod in_bits rk16 rk17 rk18 i
  rw [Nat.mod_eq_of_lt hi, Nat.mod_eq_of_lt (show in_bits < 2 ^ 6 from hb)] at e
  exact e

theorem candidate_injective (rk16 rk17 rk18 in_bits i in_bits2 i2 : Nat)
    (h1 : in_bits < 64) (h2 : i < 2 ^ 29) (h3 : in_bits2 < 64) (h4 : i2 < 2 ^ 29)
    (h : candidate in_bits rk16 rk17 rk18 i = candidate in_bits2 rk16 rk17 rk18 i2) :
    in_bits = in_bits2 ∧ i = i2 := by
  have a1 := cand_in_bits in_bits rk16 rk17 rk18 i h1 h2
  have a2 := cand_in_bits in_bits2 rk16 rk17 rk18 i2 h3 h4
  have b1 := cand_window_lo in_bits rk16 rk17 rk18 i h2
  have b2 := cand_window_lo in_bits2 rk16 rk17 rk18 i2 h4
  rw [h] at a1 b1
  exact ⟨a1.symm.trans a2, b1.symm.trans b2⟩

set_option maxRecDepth 100000 in
/-- The candidates of the `64 * 2^29` iterations are `2^35` distinct pairs. -/
theorem candidate_image_card (rk16 rk17 rk18 : Nat) :
    (Finset.image (fun p : Nat × Nat => candidate p.1 rk16 rk17 rk18 p.2)
        (Finset.range 64 ×ˢ Finset.range (2 ^ 29))).card = 2 ^ 35 := by
  rw [Finset.card_image_of_injOn, Finset.card_product, Finset.card_range, Finset.card_range]
  · rfl
  · intro p hp q hq hpq
    simp only [Finset.coe_product, Finset.coe_range, Set.mem_prod, Set.mem_Iio] at hp hq
    obtain ⟨e1, e2⟩ := candidate_injective rk16 rk17 rk18 p.1 p.2 q.1 q.2 hp.1 hp.2 hq.1 hq.2 hpq
    exact Prod.ext e1 e2

/-- C27: no candidate is enumerated twice: for fixed `rk16`, `rk17`, `rk18`
and `in_bits`, `in_bits2` in `0..63`, `i`, `i2` in `0..2^29-1`, the candidate
`(hi, lo)` of `(in_bits, i)` gives back `in_bits` as
`((lo >> 59) & 0x1F) | ((hi & 1) << 5)` (bits 59..63 of `lo` and bit 0 of
`hi`) and `i` as `(lo >> 29) & 0x1FFFFFFF` (bits 29..57 of `lo`); equal
candidates come from equal `(in_bits, i)`; and the set of candidates
materialised over all `64 * 2^29` iterations has exactly `2^35` elements. -/
theorem C27_candidates_distinct (rk16 rk17 rk18 in_bits i in_bits2 i2 : Nat)
    (h1 : in_bits < 64) (h2 : i < 2 ^ 29) (h3 : in_bits2 < 64) (h4 : i2 < 2 ^ 29) :
    (((((candidate in_bits rk16 rk17 rk18 i).2 >>> 59) &&& 0x1F) |||
      (((candidate in_bits rk16 rk17 rk18 i).1 &&& 1) <<< 5)) = in_bits) ∧
    (((candidate in_bits rk16 rk17 rk18 i).2 >>> 29) &&& 0x1FFFFFFF = i) ∧
    (candidate in_bits rk16 rk17 rk18 i = candidate in_bits2 rk16 rk17 rk18 i2 →
      in_bits = in_bits2 ∧ i = i2) ∧
    ((Finset.image (fun p : Nat × Nat => candidate p.1 rk16 rk17 rk18 p.2)
        (Finset.range 64 ×ˢ Finset.range (2 ^ 29))).card = 2 ^ 35) :=
  ⟨cand_in_bits in_bits rk16 rk17 rk18 i h1 h2,
    cand_window_lo in_bits rk16 rk17 rk18 i h2,
    candidate_injective rk16 rk17 rk18 in_bits i in_bits2 i2 h1 h2 h3 h4,
    candidate_image_card rk16 rk17 rk18⟩

/-- C27, at `rk16 = 0x12345678`, `rk17 = 0x9ABCDEF0`, `rk18 = 0x0F1E2D3C`, for
the iterations `(37, 0x1234567)` and `(5, 7)`. -/
theorem C27_candidates_distinct_witness :
    (37 < 64 ∧ 0x1234567 < 2 ^ 29 ∧ 5 < 64 ∧ 7 < 2 ^ 29) ∧
    ((((((candidate 37 0x12345678 0x9ABCDEF0 0x0F1E2D3C 0x1234567).2 >>> 59) &&& 0x1F) |||
      (((candidate 37 0x12345678 0x9ABCDEF0 0x0F1E2D3C 0x1234567).1 &&& 1) <<< 5)) = 37) ∧
     (((candidate 37 0x12345678 0x9ABCDEF0 0x0F1E2D3C 0x1234567).2 >>> 29) &&& 0x1FFFFFFF
       = 0x1234567) ∧
     (candidate 37 0x12345678 0x9ABCDEF0 0x0F1E2D3C 0x1234567
         = candidate 5 0x12345678 0x9ABCDEF0 0x0F1E2D3C 7 →
       37 = 5 ∧ 0x1234567 = 7) ∧
     ((Finset.image (fun p : Nat × Nat => candidate p.1 0x12345678 0x9ABCDEF0 0x0F1E2D3C p.2)
         (Finset.range 64 ×ˢ Finset.range (2 ^ 29))).card = 2 ^ 35)) :=
  ⟨by decide,
   C27_candidates_distinct 0x12345678 0x9ABCDEF0 0x0F1E2D3C 37 0x1234567 5 7
     (by decide) (by decide) (by decide) (by decide)⟩


/-! ## Completeness of the enumerated space -/

/-- Equal `w`-bit windows at offset `s` have equal bits. -/
theorem window_bits_eq (x y s w m : Nat) (hm : ∀ j, m.testBit j = decide (j < w))
    (h : (x >>> s) &&& m = (y >>> s) &&& m) (k : Nat) (hk : k < w) :
    x.testBit (s + k) = y.testBit (s + k) := by
  have e := congrArg (fun z => z.testBit k) h
  simp only [Nat.testBit_and, Nat.testBit_shiftRight, hm, hk, decide_True, Bool.and_true] at e
  exact e

theorem nat_xor_cancel_outer (x y : Nat) : x ^^^ (y ^^^ x) = y := by
  apply Nat.eq_of_testBit_eq
  intro j
  simp only [Nat.testBit_xor]
  cases x.testBit j <;> cases y.testBit j <;> rfl

theorem bxor_solve (a b c : Bool) (h : xor a b = c) : a = xor c b := by
  subst h
  cases a <;> cases b <;> rfl

/-- Bits 0..2 of `rk18`, read off a solution of the `rk18` relation. -/
theorem rel18_low_bits (rk18 hi lo t : Nat)
    (h18 : ((hi >>> 61) ||| (((lo &&& 0x1FFFFFFF) <<< 3) % 2 ^ 64)) ^^^ (hi &&& 0xFFFFFFFF)
      = rk18 ^^^ 0xA0)
    (ht : t < 3) :
    rk18.testBit t = xor (hi.testBit t) (hi.testBit (61 + t)) := by
  have e := congrArg (fun x => x.testBit t) h18
  simp only [Nat.testBit_xor, Nat.testBit_or, Nat.testBit_and, Nat.testBit_shiftRight,
    Nat.testBit_shiftLeft, Nat.testBit_mod_two_pow, tb_mask29, tb_mask32, tbA0] at e
  interval_cases t <;>
  simp only [Nat.reduceAdd, Nat.reduceSub, Nat.reduceLT, Nat.reduceGT, Nat.reduceLeDiff,
    Nat.reduceEqDiff, ge_iff_le, decide_True, decide_False, Bool.and_true, Bool.true_and,
    Bool.false_and, Bool.and_false, Bool.or_false, Bool.false_or, Bool.xor_false,
    Bool.false_xor, Bool.or_true, Bool.true_or] at e ⊢ <;>
  rw [← e, Bool.xor_comm]

/-- Bits 3..31 of `rk18`, read off a solution of the `rk18` relation. -/
theorem rel18_high_bits (rk18 hi lo t : Nat) (hhi : hi < 2 ^ 64)
    (h18 : ((hi >>> 61) ||| (((lo &&& 0x1FFFFFFF) <<< 3) % 2 ^ 64)) ^^^ (hi &&& 0xFFFFFFFF)
      = rk18 ^^^ 0xA0)
    (h3 : 3 ≤ t) (h32 : t < 32) :
    rk18.testBit t
      = xor (xor (hi.testBit t) (lo.testBit (t - 3))) (decide (t = 5) || decide (t = 7)) := by
  have e := congrArg (fun x => x.testBit t) h18
  have hz : hi.testBit (61 + t) = false := testBit_of_lt_pow hhi (by omega)
  simp only [Nat.testBit_xor, Nat.testBit_or, Nat.testBit_and, Nat.testBit_shiftRight,
    Nat.testBit_shiftLeft, Nat.testBit_mod_two_pow, tb_mask29, tb_mask32, tbA0, hz] at e
  interval_cases t <;>
  simp only [Nat.reduceAdd, Nat.reduceSub, Nat.reduceLT, Nat.reduceGT, Nat.reduceLeDiff,
    Nat.reduceEqDiff, ge_iff_le, decide_True, decide_False, Bool.and_true, Bool.true_and,
    Bool.false_and, Bool.and_false, Bool.or_false, Bool.false_or, Bool.xor_false,
    Bool.false_xor, Bool.or_true, Bool.true_or] at e ⊢ <;>
  first
  | (rw [← e, Bool.xor_comm])
  | (rw [bxor_solve _ _ _ e.symm, Bool.xor_comm (hi.testBit _)])

/-- The argument of the first inverse S-box, for `in_bits` read off `(hi, lo)`. -/
theorem rel16_arg_a (hi lo : Nat) :
    (((((((((lo >>> 59) &&& 0x1F) ||| ((hi &&& 1) <<< 5)) >>> 3) &&& 1) <<< 3) |||
        ((((((lo >>> 59) &&& 0x1F) ||| ((hi &&& 1) <<< 5)) >>> 2) &&& 1) <<< 2)) |||
        ((((((lo >>> 59) &&& 0x1F) ||| ((hi &&& 1) <<< 5)) >>> 1) &&& 1) <<< 1)) |||
        ((((lo >>> 59) &&& 0x1F) ||| ((hi &&& 1) <<< 5)) &&& 1))
      = (lo >>> 59) &&& 0xF := by
  apply Nat.eq_of_testBit_eq
  intro j
  simp only [and_one_eq_toNat, shr_and_one_eq_toNat, Nat.testBit_bool_to_nat,
    Nat.testBit_or, Nat.testBit_and, Nat.testBit_shiftLeft,
    Nat.testBit_shiftRight, tb1F, tbF]
  by_cases hj : j < 4
  · interval_cases j <;>
    simp only [Nat.reduceAdd, Nat.reduceSub, Nat.reduceLT, Nat.reduceGT, Nat.reduceLeDiff,
      Nat.reduceEqDiff, ge_iff_le, decide_True, decide_False, Bool.and_true, Bool.true_and,
      Bool.false_and, Bool.and_false, Bool.or_false, Bool.false_or, Bool.xor_false,
      Bool.false_xor, Bool.or_true, Bool.true_or]
  · have h1 : ¬ (j - 3 = 0) := by omega
    have h2 : ¬ (j - 2 = 0) := by omega
    have h3 : ¬ (j - 1 = 0) := by omega
    have h4 : ¬ (j = 0) := by omega
    simp only [h1, h2, h3, h4, hj, decide_False, Bool.false_and, Bool.and_false,
      Bool.or_false, Bool.xor_false]

/-- The local `a` for `in_bits` read off a solution of relation (a). -/
theorem rel16_a (rk16 hi lo : Nat)
    (ha : sub4 ((((hi >>> 1) &&& 0xF) ^^^ 0x8) ^^^ ((rk16 >>> 1) &&& 0xF))
      = (lo >>> 59) &&& 0xF) :
    search_one_a (((lo >>> 59) &&& 0x1F) ||| ((hi &&& 1) <<< 5)) rk16 = (hi >>> 1) &&& 0xF := by
  have hX : (((hi >>> 1) &&& 0xF) ^^^ 0x8) ^^^ ((rk16 >>> 1) &&& 0xF) < 16 :=
    Nat.xor_lt_two_pow (n := 4)
      (Nat.xor_lt_two_pow (n := 4) (and_lt_right (n := 4) _ (by decide)) (by decide))
      (and_lt_right (n := 4) _ (by decide))
  simp only [search_one_a]
  rw [rel16_arg_a, ← ha, inv4_sub4_lt _ hX, nat_xor_cancel2]

/-- The argument of the second inverse S-box, for `in_bits` read off `(hi, lo)`. -/
theorem rel16_arg_b (hi lo : Nat) (hlo : lo < 2 ^ 64) :
    ((((((hi >>> 1) &&& 0xF) &&& 3) <<< 2) |||
        ((((((lo >>> 59) &&& 0x1F) ||| ((hi &&& 1) <<< 5)) >>> 5) &&& 1) <<< 1)) |||
        (((((lo >>> 59) &&& 0x1F) ||| ((hi &&& 1) <<< 5)) >>> 4) &&& 1))
      = ((hi &&& 7) <<< 1) ||| (lo >>> 63) := by
  apply Nat.eq_of_testBit_eq
  intro j
  simp only [and_one_eq_toNat, shr_and_one_eq_toNat, Nat.testBit_bool_to_nat,
    Nat.testBit_or, Nat.testBit_and, Nat.testBit_shiftLeft,
    Nat.testBit_shiftRight, tb1F, tbF, tb3, tb7]
  by_cases hj : j < 4
  · have hz : ∀ k, 1 ≤ k → lo.testBit (63 + k) = false :=
      fun k hk => testBit_of_lt_pow hlo (by omega)
    have z1 := hz 1 (by decide)
    have z2 := hz 2 (by decide)
    have z3 := hz 3 (by decide)
    simp only [Nat.reduceAdd] at z1 z2 z3
    interval_cases j <;>
    simp only [Nat.reduceAdd, Nat.reduceSub, Nat.reduceLT, Nat.reduceGT, Nat.reduceLeDiff,
      Nat.reduceEqDiff, ge_iff_le, decide_True, decide_False, Bool.and_true, Bool.true_and,
      Bool.false_and, Bool.and_false, Bool.or_false, Bool.false_or, Bool.xor_false,
      Bool.false_xor, Bool.or_true, Bool.true_or, z1, z2, z3]
  · have h1 : ¬ (j - 2 < 2) := by omega
    have h2 : ¬ (j - 1 = 0) := by omega
    have h3 : ¬ (j - 1 < 3) := by omega
    have h4 : ¬ (j = 0) := by omega
    have hz : lo.testBit (63 + j) = false := testBit_of_lt_pow hlo (by omega)
    simp only [h1, h2, h3, h4, hz, decide_False, Bool.false_and, Bool.and_false,
      Bool.or_false, Bool.xor_false]

/-- The local `b` for `in_bits` read off a solution of relations (a) and (b). -/
theorem rel16_b (rk16 hi lo : Nat) (hlo : lo < 2 ^ 64)
    (ha : sub4 ((((hi >>> 1) &&& 0xF) ^^^ 0x8) ^^^ ((rk16 >>> 1) &&& 0xF))
      = (lo >>> 59) &&& 0xF)
    (hb : sub4 ((((hi >>> 5) &&& 0xF) ^^^ 0x4) ^^^ ((rk16 >>> 5) &&& 0xF))
      = ((hi &&& 7) <<< 1) ||| (lo >>> 63)) :
    search_one_b (((lo >>> 59) &&& 0x1F) ||| ((hi &&& 1) <<< 5)) rk16 = (hi >>> 5) &&& 0xF := by
  have hX : (((hi >>> 5) &&& 0xF) ^^^ 0x4) ^^^ ((rk16 >>> 5) &&& 0xF) < 16 :=
    Nat.xor_lt_two_pow (n := 4)
      (Nat.xor_lt_two_pow (n := 4) (and_lt_right (n := 4) _ (by decide)) (by decide))
      (and_lt_right (n := 4) _ (by decide))
  simp only [search_one_b]
  rw [rel16_a rk16 hi lo ha, rel16_arg_b hi lo hlo, ← hb, inv4_sub4_lt _ hX, nat_xor_cancel2]

/-- Equal read-outs of `in_bits` have equal bits. -/
theorem readout_bits_eq (x y x2 y2 : Nat)
    (h : ((y >>> 59) &&& 0x1F) ||| ((x &&& 1) <<< 5)
      = ((y2 >>> 59) &&& 0x1F) ||| ((x2 &&& 1) <<< 5)) :
    x.testBit 0 = x2.testBit 0 ∧ ∀ k, k < 5 → y.testBit (59 + k) = y2.testBit (59 + k) := by
  constructor
  · have e := congrArg (fun z => z.testBit 5) h
    simp only [and_one_eq_toNat, Nat.testBit_bool_to_nat, Nat.testBit_or, Nat.testBit_and,
      Nat.testBit_shiftLeft, Nat.testBit_shiftRight, tb1F, Nat.reduceAdd, Nat.reduceSub,
      Nat.reduceLT, Nat.reduceLeDiff, ge_iff_le, decide_True, decide_False, Bool.and_true,
      Bool.true_and, Bool.and_false, Bool.false_or] at e
    exact e
  · intro k hk
    have e := congrArg (fun z => z.testBit k) h
    have h5 : ¬ (5 ≤ k) := by omega
    simp only [and_one_eq_toNat, Nat.testBit_bool_to_nat, Nat.testBit_or, Nat.testBit_and,
      Nat.testBit_shiftLeft, Nat.testBit_shiftRight, tb1F, hk, h5, ge_iff_le, decide_True,
      decide_False, Bool.and_true, Bool.true_and, Bool.false_and, Bool.or_false] at e
    exact e

theorem bxor_left_cancel (a x y : Bool) (h : xor a x = xor a y) : x = y := by
  cases a <;> cases x <;> cases y <;> first | rfl | exact absurd h (by decide)

theorem bxor_right_cancel (a x y : Bool) (h : xor x a = xor y a) : x = y := by
  cases a <;> cases x <;> cases y <;> first | rfl | exact absurd h (by decide)

/-- A pair of words with the bits of a candidate is that candidate: the bits
of `c` and `(hi, lo)` agree once both satisfy the constraints and agree on
bit 0 of `hi`, on bits 1..8 of `hi` and on bits 29..57 and 59..63 of `lo`. -/
theorem solution_bits_unique (rk16 rk18 c1 c2 hi lo : Nat)
    (hc1 : c1 < 2 ^ 64) (hc2 : c2 < 2 ^ 64) (hhi : hi < 2 ^ 64) (hlo : lo < 2 ^ 64)
    (F0 : c1.testBit 0 = hi.testBit 0)
    (F59 : ∀ k, k < 5 → c2.testBit (59 + k) = lo.testBit (59 + k))
    (F1 : (c1 >>> 1) &&& 0xF = (hi >>> 1) &&& 0xF)
    (F5 : (c1 >>> 5) &&& 0xF = (hi >>> 5) &&& 0xF)
    (W1 : (c1 >>> 32) &&& 0x1FFFFFFF = (hi >>> 32) &&& 0x1FFFFFFF)
    (W2 : (c2 >>> 29) &&& 0x1FFFFFFF = (lo >>> 29) &&& 0x1FFFFFFF)
    (CH : ∀ t, 9 ≤ t → t ≤ 31 → xor (c1.testBit t) (c1.testBit (t - 6)) = rk16.testBit t)
    (hd : ∀ t, 9 ≤ t → t ≤ 31 → xor (hi.testBit t) (hi.testBit (t - 6)) = rk16.testBit t)
    (B0 : xor (c1.testBit 0) (c2.testBit 58) = rk16.testBit 0)
    (hc : xor (hi.testBit 0) (lo.testBit 58) = rk16.testBit 0)
    (L18 : ∀ t, t < 3 → rk18.testBit t = xor (c1.testBit t) (c1.testBit (61 + t)))
    (l18 : ∀ t, t < 3 → rk18.testBit t = xor (hi.testBit t) (hi.testBit (61 + t)))
    (H18 : ∀ t, 3 ≤ t → t < 32 → rk18.testBit t
      = xor (xor (c1.testBit t) (c2.testBit (t - 3))) (decide (t = 5) || decide (t = 7)))
    (h18 : ∀ t, 3 ≤ t → t < 32 → rk18.testBit t
      = xor (xor (hi.testBit t) (lo.testBit (t - 3))) (decide (t = 5) || decide (t = 7))) :
    c1 = hi ∧ c2 = lo := by
  have hi_low : ∀ t, t ≤ 31 → c1.testBit t = hi.testBit t := by
    intro t
    induction t using Nat.strong_induction_on with
    | _ t ih =>
      intro ht
      by_cases h0 : t = 0
      · subst h0; exact F0
      by_cases h4 : t ≤ 4
      · have e := window_bits_eq c1 hi 1 4 0xF tbF F1 (t - 1) (by omega)
        rwa [show 1 + (t - 1) = t by omega] at e
      by_cases h8 : t ≤ 8
      · have e := window_bits_eq c1 hi 5 4 0xF tbF F5 (t - 5) (by omega)
        rwa [show 5 + (t - 5) = t by omega] at e
      · have e1 := CH t (by omega) ht
        have e2 := hd t (by omega) ht
        have e3 := ih (t - 6) (by omega) (by omega)
        rw [e3, ← e2] at e1
        exact bxor_right_cancel _ _ _ e1
  have hi_eq : c1 = hi := by
    refine eq_of_testBit_lt (n := 64) hc1 hhi ?_
    intro j hj
    by_cases h31 : j ≤ 31
    · exact hi_low j h31
    by_cases h60 : j ≤ 60
    · have e := window_bits_eq c1 hi 32 29 0x1FFFFFFF tb_mask29 W1 (j - 32) (by omega)
      rwa [show 32 + (j - 32) = j by omega] at e
    · have e1 := L18 (j - 61) (by omega)
      have e2 := l18 (j - 61) (by omega)
      rw [e2, hi_low (j - 61) (by omega), show 61 + (j - 61) = j by omega] at e1
      exact (bxor_left_cancel _ _ _ e1).symm
  subst hi_eq
  refine ⟨rfl, ?_⟩
  refine eq_of_testBit_lt (n := 64) hc2 hlo ?_
  intro j hj
  by_cases h28 : j ≤ 28
  · have e1 := H18 (j + 3) (by omega) (by omega)
    have e2 := h18 (j + 3) (by omega) (by omega)
    rw [e2, show j + 3 - 3 = j by omega] at e1
    exact (bxor_left_cancel _ _ _ (bxor_right_cancel _ _ _ e1)).symm
  by_cases h57 : j ≤ 57
  · have e := window_bits_eq c2 lo 29 29 0x1FFFFFFF tb_mask29 W2 (j - 29) (by omega)
    rwa [show 29 + (j - 29) = j by omega] at e
  by_cases h58 : j = 58
  · subst h58
    rw [← hc] at B0
    exact bxor_left_cancel _ _ _ B0
  · have e := F59 (j - 59) (by omega)
    rwa [show 59 + (j - 59) = j by omega] at e

/-- A pair of 64-bit words satisfying the constraints is the candidate of
the iteration read off bits 59..63 and 29..57 of `lo` and bit 0 of `hi`. -/
theorem solution_is_candidate (rk16 rk17 rk18 hi lo : Nat)
    (hhi : hi < 2 ^ 64) (hlo : lo < 2 ^ 64)
    (h18 : ((hi >>> 61) ||| (((lo &&& 0x1FFFFFFF) <<< 3) % 2 ^ 64)) ^^^ (hi &&& 0xFFFFFFFF)
      = rk18 ^^^ 0xA0)
    (h17 : ((hi >>> 32) ^^^ (lo >>> 29)) &&& 0x1FFFFFFF = rk17 &&& 0x1FFFFFFF)
    (ha : sub4 ((((hi >>> 1) &&& 0xF) ^^^ 0x8) ^^^ ((rk16 >>> 1) &&& 0xF))
      = (lo >>> 59) &&& 0xF)
    (hb : sub4 ((((hi >>> 5) &&& 0xF) ^^^ 0x4) ^^^ ((rk16 >>> 5) &&& 0xF))
      = ((hi &&& 7) <<< 1) ||| (lo >>> 63))
    (hc : xor (hi.testBit 0) (lo.testBit 58) = rk16.testBit 0)
    (hd : ∀ t, 9 ≤ t → t ≤ 31 → xor (hi.testBit t) (hi.testBit (t - 6)) = rk16.testBit t) :
    candidate (((lo >>> 59) &&& 0x1F) ||| ((hi &&& 1) <<< 5)) rk16 rk17 rk18
      ((lo >>> 29) &&& 0x1FFFFFFF) = (hi, lo) := by
  have hin : ((lo >>> 59) &&& 0x1F) ||| ((hi &&& 1) <<< 5) < 64 := by
    refine Nat.or_lt_two_pow (n := 6)
      (lt_of_lt_of_le (and_lt_right (n := 5) _ (by decide)) (by decide)) ?_
    have h1 : hi &&& 1 < 2 := and_lt_right (n := 1) _ (by decide)
    rw [Nat.shiftLeft_eq]
    omega
  have hi0 : (lo >>> 29) &&& 0x1FFFFFFF < 2 ^ 29 := and_lt_right (n := 29) _ (by decide)
  have hm := Nat.mod_eq_of_lt hi0
  have A := rel16_a rk16 hi lo ha
  have B := rel16_b rk16 hi lo hlo ha hb
  have N1 := cand_hi_nibble1 (((lo >>> 59) &&& 0x1F) ||| ((hi &&& 1) <<< 5)) rk16 rk17 rk18
    ((lo >>> 29) &&& 0x1FFFFFFF)
  have N5 := cand_hi_nibble5 (((lo >>> 59) &&& 0x1F) ||| ((hi &&& 1) <<< 5)) rk16 rk17 rk18
    ((lo >>> 29) &&& 0x1FFFFFFF)
  have R := cand_in_bits (((lo >>> 59) &&& 0x1F) ||| ((hi &&& 1) <<< 5)) rk16 rk17 rk18
    ((lo >>> 29) &&& 0x1FFFFFFF) hin hi0
  have W1 := cand_window_hi (((lo >>> 59) &&& 0x1F) ||| ((hi &&& 1) <<< 5)) rk16 rk17 rk18
    ((lo >>> 29) &&& 0x1FFFFFFF) hi0
  have W2 := cand_window_lo (((lo >>> 59) &&& 0x1F) ||| ((hi &&& 1) <<< 5)) rk16 rk17 rk18
    ((lo >>> 29) &&& 0x1FFFFFFF) hi0
  have CH := cand_rk16_chain (((lo >>> 59) &&& 0x1F) ||| ((hi &&& 1) <<< 5)) rk16 rk17 rk18
    ((lo >>> 29) &&& 0x1FFFFFFF)
  have B0 := cand_rk16_bit0 (((lo >>> 59) &&& 0x1F) ||| ((hi &&& 1) <<< 5)) rk16 rk17 rk18
    ((lo >>> 29) &&& 0x1FFFFFFF)
  have L18 := cand_rk18_low_bits (((lo >>> 59) &&& 0x1F) ||| ((hi &&& 1) <<< 5)) rk16 rk17 rk18
    ((lo >>> 29) &&& 0x1FFFFFFF)
  have H18 := cand_rk18_high_bits (((lo >>> 59) &&& 0x1F) ||| ((hi &&& 1) <<< 5)) rk16 rk17 rk18
    ((lo >>> 29) &&& 0x1FFFFFFF)
  have hlt := candidate_lt (search_one_template (((lo >>> 59) &&& 0x1F) ||| ((hi &&& 1) <<< 5))
      rk16 rk18) rk17 ((lo >>> 29) &&& 0x1FFFFFFF)
    (template_lt _ _ _).1 (template_lt _ _ _).2
  rw [hm] at B0 L18
  rw [A] at N1
  rw [B] at N5
  rw [← h17, xor_and_mask_cancel, nat_xor_cancel_outer] at W1
  have Rb := readout_bits_eq _ _ hi lo R
  have key := solution_bits_unique rk16 rk18 _ _ hi lo hlt.1 hlt.2 hhi hlo Rb.1 Rb.2 N1 N5 W1 W2
    CH hd B0 hc L18 (fun t ht => rel18_low_bits rk18 hi lo t h18 ht) H18
    (fun t h3 h32 => rel18_high_bits rk18 hi lo t hhi h18 h3 h32)
  exact Prod.ext key.1 key.2

/-- Every candidate satisfies the constraints of `rk18`, `rk17` and `rk16`. -/
theorem candidate_is_solution (rk16 rk17 rk18 in_bits i : Nat) (h32 : rk18 < 2 ^ 32)
    (hi : i < 2 ^ 29) :
    (((((candidate in_bits rk16 rk17 rk18 i).1 >>> 61) |||
        ((((candidate in_bits rk16 rk17 rk18 i).2 &&& 0x1FFFFFFF) <<< 3) % 2 ^ 64)) ^^^
        ((candidate in_bits rk16 rk17 rk18 i).1 &&& 0xFFFFFFFF)) = rk18 ^^^ 0xA0) ∧
    ((((candidate in_bits rk16 rk17 rk18 i).1 >>> 32) ^^^
        ((candidate in_bits rk16 rk17 rk18 i).2 >>> 29)) &&& 0x1FFFFFFF
      = rk17 &&& 0x1FFFFFFF) ∧
    (sub4 (((((candidate in_bits rk16 rk17 rk18 i).1 >>> 1) &&& 0xF) ^^^ 0x8) ^^^
        ((rk16 >>> 1) &&& 0xF))
      = ((candidate in_bits rk16 rk17 rk18 i).2 >>> 59) &&& 0xF) ∧
    (sub4 (((((candidate in_bits rk16 rk17 rk18 i).1 >>> 5) &&& 0xF) ^^^ 0x4) ^^^
        ((rk16 >>> 5) &&& 0xF))
      = (((candidate in_bits rk16 rk17 rk18 i).1 &&& 7) <<< 1) |||
          ((candidate in_bits rk16 rk17 rk18 i).2 >>> 63)) ∧
    (xor ((candidate in_bits rk16 rk17 rk18 i).1.testBit 0)
         ((candidate in_bits rk16 rk17 rk18 i).2.testBit 58) = rk16.testBit 0) ∧
    (∀ t, 9 ≤ t → t ≤ 31 →
      xor ((candidate in_bits rk16 rk17 rk18 i).1.testBit t)
          ((candidate in_bits rk16 rk17 rk18 i).1.testBit (t - 6)) = rk16.testBit t) := by
  have e1 := cand_rk18_mod in_bits rk16 rk17 rk18 i
  rw [Nat.mod_eq_of_lt h32, Nat.mod_eq_of_lt hi] at e1
  have w1 := cand_window_hi in_bits rk16 rk17 rk18 i hi
  have w2 := cand_window_lo in_bits rk16 rk17 rk18 i hi
  have hc := cand_rk16_bit0 in_bits rk16 rk17 rk18 i
  rw [Nat.mod_eq_of_lt hi] at hc
  refine ⟨e1, ?_, (cand_rk16_first_nibble in_bits rk16 rk17 rk18 i hi).1,
    (cand_rk16_second_nibble in_bits rk16 rk17 rk18 i hi).1, hc,
    fun t h9 h31 => cand_rk16_chain in_bits rk16 rk17 rk18 i t h9 h31⟩
  rw [xor_and_mask_cancel, w1, w2, nat_xor_cancel_mid]

/-- C26: completeness of the enumerated space: for all `rk16`, `rk17`, `rk18`
and every pair of 64-bit words `(hi, lo)` that satisfies the `rk18` relation
`((hi >> 61) | ((lo & 0x1FFFFFFF) << 3)) ^ (hi & 0xFFFFFFFF) = rk18 ^ 0xA0`,
the `rk17` relation
`((hi >> 32) ^ (lo >> 29)) & 0x1FFFFFFF = rk17 & 0x1FFFFFFF` and the `rk16`
relations `sub4(((hi>>1)&0xF) ^ 0x8 ^ ((rk16>>1)&0xF)) = (lo>>59)&0xF`,
`sub4(((hi>>5)&0xF) ^ 0x4 ^ ((rk16>>5)&0xF)) = ((hi&7)<<1) | (lo>>63)`,
`hi[0] ^ lo[58] = rk16[0]` and `hi[t] ^ hi[t-6] = rk16[t]` for `t` in
`9..31`, there are `in_bits` in `0..63` and `i` in `0..2^29-1` for which
`search_one` materialises exactly `(hi, lo)`; conversely, for a 32-bit
`rk18`, every materialised candidate satisfies these relations, so the
candidates are precisely the solutions. -/
theorem C26_enumeration_complete (rk16 rk17 rk18 hi lo : Nat)
    (hhi : hi < 2 ^ 64) (hlo : lo < 2 ^ 64) :
    (((((hi >>> 61) ||| (((lo &&& 0x1FFFFFFF) <<< 3) % 2 ^ 64)) ^^^ (hi &&& 0xFFFFFFFF))
          = rk18 ^^^ 0xA0) ∧
      (((hi >>> 32) ^^^ (lo >>> 29)) &&& 0x1FFFFFFF = rk17 &&& 0x1FFFFFFF) ∧
      (sub4 ((((hi >>> 1) &&& 0xF) ^^^ 0x8) ^^^ ((rk16 >>> 1) &&& 0xF))
          = (lo >>> 59) &&& 0xF) ∧
      (sub4 ((((hi >>> 5) &&& 0xF) ^^^ 0x4) ^^^ ((rk16 >>> 5) &&& 0xF))
          = ((hi &&& 7) <<< 1) ||| (lo >>> 63)) ∧
      (xor (hi.testBit 0) (lo.testBit 58) = rk16.testBit 0) ∧
      (∀ t, 9 ≤ t → t ≤ 31 → xor (hi.testBit t) (hi.testBit (t - 6)) = rk16.testBit t) →
      ∃ in_bits i, in_bits < 64 ∧ i < 2 ^ 29 ∧ candidate in_bits rk16 rk17 rk18 i = (hi, lo)) ∧
    (rk18 < 2 ^ 32 →
      (∃ in_bits i, in_bits < 64 ∧ i < 2 ^ 29 ∧ candidate in_bits rk16 rk17 rk18 i = (hi, lo)) →
      ((((hi >>> 61) ||| (((lo &&& 0x1FFFFFFF) <<< 3) % 2 ^ 64)) ^^^ (hi &&& 0xFFFFFFFF))
          = rk18 ^^^ 0xA0) ∧
      (((hi >>> 32) ^^^ (lo >>> 29)) &&& 0x1FFFFFFF = rk17 &&& 0x1FFFFFFF) ∧
      (sub4 ((((hi >>> 1) &&& 0xF) ^^^ 0x8) ^^^ ((rk16 >>> 1) &&& 0xF))
          = (lo >>> 59) &&& 0xF) ∧
      (sub4 ((((hi >>> 5) &&& 0xF) ^^^ 0x4) ^^^ ((rk16 >>> 5) &&& 0xF))
          = ((hi &&& 7) <<< 1) ||| (lo >>> 63)) ∧
      (xor (hi.testBit 0) (lo.testBit 58) = rk16.testBit 0) ∧
      (∀ t, 9 ≤ t → t ≤ 31 → xor (hi.testBit t) (hi.testBit (t - 6)) = rk16.testBit t)) := by
  constructor
  · rintro ⟨h18, h17, ha, hb, hc, hd⟩
    refine ⟨((lo >>> 59) &&& 0x1F) ||| ((hi &&& 1) <<< 5), (lo >>> 29) &&& 0x1FFFFFFF, ?_,
      and_lt_right (n := 29) _ (by decide),
      solution_is_candidate rk16 rk17 rk18 hi lo hhi hlo h18 h17 ha hb hc hd⟩
    refine Nat.or_lt_two_pow (n := 6)
      (lt_of_lt_of_le (and_lt_right (n := 5) _ (by decide)) (by decide)) ?_
    have h1 : hi &&& 1 < 2 := and_lt_right (n := 1) _ (by decide)
    rw [Nat.shiftLeft_eq]
    omega
  · rintro h32 ⟨in_bits, i, _, hi29, e⟩
    have key := candidate_is_solution rk16 rk17 rk18 in_bits i h32 hi29
    rw [e] at key
    exact key

/-- C26, at `rk16 = 0x12345678`, `rk17 = 0x9ABCDEF0`, `rk18 = 0x0F1E2D3C` and
the pair `(hi, lo) = (0xFB9F9B9796109313, 0x2C2468ACF321D7D1)`: the pair
satisfies every relation and is therefore materialised. -/
theorem C26_enumeration_complete_witness :
    ((18131381700176941843 < 2 ^ 64 ∧ 3180782328853157841 < 2 ^ 64) ∧
     (((((18131381700176941843 >>> 61) |||
          (((3180782328853157841 &&& 0x1FFFFFFF) <<< 3) % 2 ^ 64)) ^^^
          (18131381700176941843 &&& 0xFFFFFFFF)) = 0x0F1E2D3C ^^^ 0xA0) ∧
      (((18131381700176941843 >>> 32) ^^^ (3180782328853157841 >>> 29)) &&& 0x1FFFFFFF
          = 0x9ABCDEF0 &&& 0x1FFFFFFF) ∧
      (sub4 ((((18131381700176941843 >>> 1) &&& 0xF) ^^^ 0x8) ^^^ ((0x12345678 >>> 1) &&& 0xF))
          = (3180782328853157841 >>> 59) &&& 0xF) ∧
      (sub4 ((((18131381700176941843 >>> 5) &&& 0xF) ^^^ 0x4) ^^^ ((0x12345678 >>> 5) &&& 0xF))
          = ((18131381700176941843 &&& 7) <<< 1) ||| (3180782328853157841 >>> 63)) ∧
      (xor (Nat.testBit 18131381700176941843 0) (Nat.testBit 3180782328853157841 58)
          = Nat.testBit 0x12345678 0) ∧
      (∀ t, 9 ≤ t → t ≤ 31 →
        xor (Nat.testBit 18131381700176941843 t) (Nat.testBit 18131381700176941843 (t - 6))
          = Nat.testBit 0x12345678 t))) ∧
    ∃ in_bits i, in_bits < 64 ∧ i < 2 ^ 29 ∧
      candidate in_bits 0x12345678 0x9ABCDEF0 0x0F1E2D3C i
        = (18131381700176941843, 3180782328853157841) :=
  have hrel :
      ((((18131381700176941843 >>> 61) |||
          (((3180782328853157841 &&& 0x1FFFFFFF) <<< 3) % 2 ^ 64)) ^^^
          (18131381700176941843 &&& 0xFFFFFFFF)) = 0x0F1E2D3C ^^^ 0xA0) ∧
      (((18131381700176941843 >>> 32) ^^^ (3180782328853157841 >>> 29)) &&& 0x1FFFFFFF
          = 0x9ABCDEF0 &&& 0x1FFFFFFF) ∧
      (sub4 ((((18131381700176941843 >>> 1) &&& 0xF) ^^^ 0x8) ^^^ ((0x12345678 >>> 1) &&& 0xF))
          = (3180782328853157841 >>> 59) &&& 0xF) ∧
      (sub4 ((((18131381700176941843 >>> 5) &&& 0xF) ^^^ 0x4) ^^^ ((0x12345678 >>> 5) &&& 0xF))
          = ((18131381700176941843 &&& 7) <<< 1) ||| (3180782328853157841 >>> 63)) ∧
      (xor (Nat.testBit 18131381700176941843 0) (Nat.testBit 3180782328853157841 58)
          = Nat.testBit 0x12345678 0) ∧
      (∀ t, 9 ≤ t → t ≤ 31 →
        xor (Nat.testBit 18131381700176941843 t) (Nat.testBit 18131381700176941843 (t - 6))
          = Nat.testBit 0x12345678 t) :=
    ⟨by decide, by decide, by decide, by decide, by decide,
      fun t h9 h31 => by interval_cases t <;> decide⟩
  ⟨⟨⟨by decide, by decide⟩, hrel⟩,
   (C26_enumeration_complete 0x12345678 0x9ABCDEF0 0x0F1E2D3C
      18131381700176941843 3180782328853157841 (by decide) (by decide)).1 hrel⟩


/-! ## The driver -/

section DriverProofs

variable {KS : Type} (key_schedule : List Nat → KS) (encrypt : Nat → KS → Nat)

variable (S : Nat → Nat) (substitute_with_sbox : Nat → Nat)
  (decrypt_half_one_round : Nat → (Nat → Nat) → Nat)
  (decrypt_half_two_round : Nat → (Nat → Nat) → (Nat → Nat) → Nat)
  (convert_key_array_to_uint32 : (Nat → Nat) → Nat)

theorem printed_list (f : Nat → Nat) :
    (List.range 3).map (fun r => (18 - r, f r)) = [(18, f 0), (17, f 1), (16, f 2)] := by
  simp only [List.range_succ, List.range_zero, List.nil_append, List.cons_append,
    List.map, Nat.sub_zero, Nat.reduceSub]

theorem main_log_ok (dataset : List Pair) (two : Pair × Pair) (rec : List Nat) :
    main key_schedule encrypt S substitute_with_sbox decrypt_half_one_round
        decrypt_half_two_round convert_key_array_to_uint32 true dataset two rec
      = { exit_code := 0,
          printed_keys :=
            [(18, main_rk32 S substitute_with_sbox decrypt_half_one_round
                decrypt_half_two_round convert_key_array_to_uint32 dataset 0),
             (17, main_rk32 S substitute_with_sbox decrypt_half_one_round
                decrypt_half_two_round convert_key_array_to_uint32 dataset 1),
             (16, main_rk32 S substitute_with_sbox decrypt_half_one_round
                decrypt_half_two_round convert_key_array_to_uint32 dataset 2)],
          logged_failure :=
            decide ((main_find key_schedule encrypt S substitute_with_sbox
              decrypt_half_one_round decrypt_half_two_round convert_key_array_to_uint32
              dataset two rec).1 = 0),
          recovered :=
            (main_find key_schedule encrypt S substitute_with_sbox decrypt_half_one_round
              decrypt_half_two_round convert_key_array_to_uint32 dataset two rec).2.1,
          verdict :=
            some (decide (mkey =
              (main_find key_schedule encrypt S substitute_with_sbox decrypt_half_one_round
                decrypt_half_two_round convert_key_array_to_uint32 dataset two rec).2.1)) } := by
  unfold main
  rw [if_neg (by decide), printed_list]

theorem main_fields_ok (dataset : List Pair) (two : Pair × Pair) (rec : List Nat)
    (r : Nat × List Nat × Globals)
    (hr : main_find key_schedule encrypt S substitute_with_sbox decrypt_half_one_round
        decrypt_half_two_round convert_key_array_to_uint32 dataset two rec = r) :
    (main key_schedule encrypt S substitute_with_sbox decrypt_half_one_round
        decrypt_half_two_round convert_key_array_to_uint32 true dataset two rec).exit_code = 0 ∧
    (main key_schedule encrypt S substitute_with_sbox decrypt_half_one_round
        decrypt_half_two_round convert_key_array_to_uint32 true dataset two rec).recovered = r.2.1 ∧
    (main key_schedule encrypt S substitute_with_sbox decrypt_half_one_round
        decrypt_half_two_round convert_key_array_to_uint32 true dataset two rec).verdict = some (decide (mkey = r.2.1)) ∧
    (main key_schedule encrypt S substitute_with_sbox decrypt_half_one_round
        decrypt_half_two_round convert_key_array_to_uint32 true dataset two rec).logged_failure = decide (r.1 = 0) ∧
    (main key_schedule encrypt S substitute_with_sbox decrypt_half_one_round
        decrypt_half_two_round convert_key_array_to_uint32 true dataset two rec).printed_keys
      = [(18, main_rk32 S substitute_with_sbox decrypt_half_one_round decrypt_half_two_round
            convert_key_array_to_uint32 dataset 0),
         (17, main_rk32 S substitute_with_sbox decrypt_half_one_round decrypt_half_two_round
            convert_key_array_to_uint32 dataset 1),
         (16, main_rk32 S substitute_with_sbox decrypt_half_one_round decrypt_half_two_round
            convert_key_array_to_uint32 dataset 2)] := by
  rw [main_log_ok, hr]
  exact ⟨rfl, rfl, rfl, rfl, rfl⟩

/-- C24: round-to-argument mapping in the driver: `rk32[r]` is the packing
`convert_key_array_to_uint32(rk_nib[r])` of row `r` of the array filled by
`linear_attack_recover_keys`, printed under the number `18 - r`; the call of
`find_master_key` has `rk16 = rk32[2]` (printed as round 16), `rk17 = rk32[1]`
(round 17) and `rk18 = rk32[0]` (round 18), and its pairs are the first two
records of the dataset; the array `rec` printed and compared is the output of
this call. -/
theorem C24_round_to_argument_mapping (dataset : List Pair) (two : Pair × Pair)
    (rec : List Nat) :
    (main_rk_nib S substitute_with_sbox decrypt_half_one_round decrypt_half_two_round dataset
      = linear_attack_recover_keys S substitute_with_sbox decrypt_half_one_round
          decrypt_half_two_round dataset (fun _ _ => 0)) ∧
    (∀ r, main_rk32 S substitute_with_sbox decrypt_half_one_round decrypt_half_two_round
            convert_key_array_to_uint32 dataset r
      = convert_key_array_to_uint32
          (main_rk_nib S substitute_with_sbox decrypt_half_one_round decrypt_half_two_round
            dataset r) % 2 ^ 32) ∧
    ((main key_schedule encrypt S substitute_with_sbox decrypt_half_one_round
        decrypt_half_two_round convert_key_array_to_uint32 true dataset two rec).printed_keys
      = [(18, main_rk32 S substitute_with_sbox decrypt_half_one_round decrypt_half_two_round
            convert_key_array_to_uint32 dataset 0),
         (17, main_rk32 S substitute_with_sbox decrypt_half_one_round decrypt_half_two_round
            convert_key_array_to_uint32 dataset 1),
         (16, main_rk32 S substitute_with_sbox decrypt_half_one_round decrypt_half_two_round
            convert_key_array_to_uint32 dataset 2)]) ∧
    (main_find key_schedule encrypt S substitute_with_sbox decrypt_half_one_round
        decrypt_half_two_round convert_key_array_to_uint32 dataset two rec
      = find_master_key key_schedule encrypt (read_two dataset two)
          (main_rk32 S substitute_with_sbox decrypt_half_one_round decrypt_half_two_round
            convert_key_array_to_uint32 dataset 2)
          (main_rk32 S substitute_with_sbox decrypt_half_one_round decrypt_half_two_round
            convert_key_array_to_uint32 dataset 1)
          (main_rk32 S substitute_with_sbox decrypt_half_one_round decrypt_half_two_round
            convert_key_array_to_uint32 dataset 0)
          rec globals_zero) ∧
    (∀ p0 p1 rest, dataset = p0 :: p1 :: rest → read_two dataset two = (p0, p1)) ∧
    ((main key_schedule encrypt S substitute_with_sbox decrypt_half_one_round
        decrypt_half_two_round convert_key_array_to_uint32 true dataset two rec).recovered
      = (main_find key_schedule encrypt S substitute_with_sbox decrypt_half_one_round
        decrypt_half_two_round convert_key_array_to_uint32 dataset two rec).2.1) := by
  have hm : main_find key_schedule encrypt S substitute_with_sbox decrypt_half_one_round
        decrypt_half_two_round convert_key_array_to_uint32 dataset two rec
      = find_master_key key_schedule encrypt (read_two dataset two)
          (main_rk32 S substitute_with_sbox decrypt_half_one_round decrypt_half_two_round
            convert_key_array_to_uint32 dataset 2)
          (main_rk32 S substitute_with_sbox decrypt_half_one_round decrypt_half_two_round
            convert_key_array_to_uint32 dataset 1)
          (main_rk32 S substitute_with_sbox decrypt_half_one_round decrypt_half_two_round
            convert_key_array_to_uint32 dataset 0)
          rec globals_zero := by
    unfold main_find
    exact Eq.refl _
  have hn : main_rk_nib S substitute_with_sbox decrypt_half_one_round decrypt_half_two_round
        dataset
      = linear_attack_recover_keys S substitute_with_sbox decrypt_half_one_round
          decrypt_half_two_round dataset (fun _ _ => 0) := by
    unfold main_rk_nib
    exact Eq.refl _
  have hk : ∀ r, main_rk32 S substitute_with_sbox decrypt_half_one_round decrypt_half_two_round
            convert_key_array_to_uint32 dataset r
      = convert_key_array_to_uint32
          (main_rk_nib S substitute_with_sbox decrypt_half_one_round decrypt_half_two_round
            dataset r) % 2 ^ 32 := by
    intro r
    unfold main_rk32
    exact Eq.refl _
  have hp : ∀ p0 p1 rest, dataset = p0 :: p1 :: rest → read_two dataset two = (p0, p1) := by
    intro p0 p1 rest h
    subst h
    rfl
  have k := main_fields_ok key_schedule encrypt S substitute_with_sbox decrypt_half_one_round
        decrypt_half_two_round convert_key_array_to_uint32 dataset two rec _ (Eq.refl _)
  exact ⟨hn, hk, k.2.2.2.2, hm, hp, k.2.1⟩

end DriverProofs

section EventProofs

variable {KS : Type} (key_schedule : List Nat → KS) (encrypt : Nat → KS → Nat)

theorem verify_master_key_events_of_match (st : Globals) (hi lo : Nat) (crit : Bool)
    (h : key_matches key_schedule encrypt st.g_pairs (build_mk hi lo)) :
    verify_master_key_events key_schedule encrypt st hi lo crit
      = [⟨Access.write_g_found_key (build_mk hi lo), crit⟩] := by
  obtain ⟨h1, h2⟩ := h
  simp [verify_master_key_events, h1, h2]

theorem verify_master_key_events_of_not_match (st : Globals) (hi lo : Nat) (crit : Bool)
    (h : ¬ key_matches key_schedule encrypt st.g_pairs (build_mk hi lo)) :
    verify_master_key_events key_schedule encrypt st hi lo crit = [] := by
  unfold verify_master_key_events
  by_cases h1 : encrypt st.g_pairs.1.plaintext (key_schedule (build_mk hi lo))
      = st.g_pairs.1.ciphertext
  · have h2 : ¬ encrypt st.g_pairs.2.plaintext (key_schedule (build_mk hi lo))
        = st.g_pairs.2.ciphertext := fun h2 => h ⟨h1, h2⟩
    simp [h1, h2]
  · simp [h1]

theorem search_one_body_events_of_match (tmpl : Nat × Nat) (RK17 i : Nat) (st : Globals)
    (h0 : st.g_found = 0)
    (hm : key_matches key_schedule encrypt st.g_pairs (candidate_key tmpl RK17 i)) :
    search_one_body_events key_schedule encrypt tmpl RK17 i st
      = [⟨Access.read_g_found, false⟩,
         ⟨Access.write_g_found_key (candidate_key tmpl RK17 i), false⟩,
         ⟨Access.write_g_found, true⟩] := by
  unfold search_one_body_events
  unfold candidate_key at hm
  rw [if_neg (by simp [h0])]
  simp only []
  rw [verify_master_key_events_of_match key_schedule encrypt st _ _ false hm,
    verify_master_key_of_match key_schedule encrypt st _ _ hm]
  rfl

theorem search_one_body_events_replay (tmpl : Nat × Nat) (RK17 i : Nat) (st : Globals) :
    (search_one_body_events key_schedule encrypt tmpl RK17 i st).foldl apply_event st
      = search_one_body key_schedule encrypt tmpl RK17 i st := by
  unfold search_one_body_events search_one_body
  by_cases h0 : st.g_found ≠ 0
  · rw [if_pos h0, if_pos h0]
    rfl
  · rw [if_neg h0, if_neg h0]
    simp only []
    rcases verify_master_key_cases key_schedule encrypt st
        (unpermute_key (search_one_candidate tmpl RK17 i).1 (search_one_candidate tmpl RK17 i).2).1
        (unpermute_key (search_one_candidate tmpl RK17 i).1 (search_one_candidate tmpl RK17 i).2).2
      with ⟨hm, e⟩ | ⟨hm, e⟩
    · rw [verify_master_key_events_of_match key_schedule encrypt st _ _ false hm, e]
      rfl
    · rw [verify_master_key_events_of_not_match key_schedule encrypt st _ _ false hm, e]
      rfl

/-- C22, on the code: in an inner iteration of `search_one` entered with
`g_found = 0` whose candidate verifies, the accesses to the shared variables
are, in program order, the read of `g_found`, the write of the 16 bytes to
`g_found_key`, made by `verify_master_key` before the critical block is
entered, and the write `g_found = 1`, which alone is inside the critical
block.  So the write to `g_found_key` caused by a successful match is outside
the critical section.  When a second iteration `j` of the same template
verifies as well and has read `g_found = 0`, the order "both reads, the two
writes of `i`, the two writes of `j`" keeps the program order of each iteration;
after the writes of `i` the state has `g_found = 1` with the key of `i`, and
the write of `j` then replaces `g_found_key` by the key of `j`.  Replaying the
accesses of one iteration gives its sequential effect. -/
theorem C22_found_key_written_outside_critical (tmpl : Nat × Nat) (RK17 i j : Nat)
    (st : Globals) (h0 : st.g_found = 0)
    (hi : key_matches key_schedule encrypt st.g_pairs (candidate_key tmpl RK17 i))
    (hj : key_matches key_schedule encrypt st.g_pairs (candidate_key tmpl RK17 j)) :
    (search_one_body_events key_schedule encrypt tmpl RK17 i st
      = [⟨Access.read_g_found, false⟩,
         ⟨Access.write_g_found_key (candidate_key tmpl RK17 i), false⟩,
         ⟨Access.write_g_found, true⟩]) ∧
    (∀ e, e ∈ search_one_body_events key_schedule encrypt tmpl RK17 i st →
      ∀ mk, e.access = Access.write_g_found_key mk → e.in_critical = false) ∧
    (∃ e, e ∈ search_one_body_events key_schedule encrypt tmpl RK17 i st ∧
      e.access = Access.write_g_found_key (candidate_key tmpl RK17 i) ∧
      e.in_critical = false) ∧
    (∀ e, e ∈ search_one_body_events key_schedule encrypt tmpl RK17 i st →
      e.in_critical = true → e.access = Access.write_g_found) ∧
    ((((search_one_body_events key_schedule encrypt tmpl RK17 i st).take 1 ++
        (search_one_body_events key_schedule encrypt tmpl RK17 j st).take 1 ++
        (search_one_body_events key_schedule encrypt tmpl RK17 i st).drop 1).foldl
          apply_event st)
      = { st with g_found := 1, g_found_key := candidate_key tmpl RK17 i }) ∧
    ((((search_one_body_events key_schedule encrypt tmpl RK17 i st).take 1 ++
        (search_one_body_events key_schedule encrypt tmpl RK17 j st).take 1 ++
        (search_one_body_events key_schedule encrypt tmpl RK17 i st).drop 1 ++
        (search_one_body_events key_schedule encrypt tmpl RK17 j st).drop 1).foldl
          apply_event st)
      = { st with g_found := 1, g_found_key := candidate_key tmpl RK17 j }) ∧
    ((search_one_body_events key_schedule encrypt tmpl RK17 i st).foldl apply_event st
      = search_one_body key_schedule encrypt tmpl RK17 i st) := by
  have ei := search_one_body_events_of_match key_schedule encrypt tmpl RK17 i st h0 hi
  have ej := search_one_body_events_of_match key_schedule encrypt tmpl RK17 j st h0 hj
  refine ⟨ei, ?_, ?_, ?_, ?_, ?_,
    search_one_body_events_replay key_schedule encrypt tmpl RK17 i st⟩
  · intro e he mk hmk
    rw [ei] at he
    simp only [List.mem_cons, List.mem_singleton, List.not_mem_nil, or_false] at he
    rcases he with rfl | rfl | rfl
    · rfl
    · rfl
    · exact absurd hmk (by simp)
  · rw [ei]
    exact ⟨⟨Access.write_g_found_key (candidate_key tmpl RK17 i), false⟩,
      by simp, rfl, rfl⟩
  · intro e he hc
    rw [ei] at he
    simp only [List.mem_cons, List.mem_singleton, List.not_mem_nil, or_false] at he
    rcases he with rfl | rfl | rfl
    · exact absurd hc (by simp)
    · exact absurd hc (by simp)
    · rfl
  · rw [ei, ej]
    rfl
  · rw [ei, ej]
    rfl

end EventProofs

/-- C22, on the code, for the cipher that returns the plaintext and the pairs
`(0, 0)` and `(1, 1)`, which every key reproduces: in template 0 with
`rk16 = rk17 = rk18 = 0`, iterations 0 and 1 both verify; each writes its 16
bytes to `g_found_key` outside the critical block, and the write of
iteration 1 replaces the key published by iteration 0. -/
theorem C22_found_key_written_outside_critical_witness :
    ((init_globals (⟨0, 0⟩, ⟨1, 1⟩) 0 0 0 globals_zero).g_found = 0 ∧
     candidate_key (search_one_template 0 0 0) 0 0 ≠ candidate_key (search_one_template 0 0 0) 0 1) ∧
    ((search_one_body_events toy_key_schedule toy_encrypt (search_one_template 0 0 0) 0 0
        (init_globals (⟨0, 0⟩, ⟨1, 1⟩) 0 0 0 globals_zero)
      = [⟨Access.read_g_found, false⟩,
         ⟨Access.write_g_found_key (candidate_key (search_one_template 0 0 0) 0 0), false⟩,
         ⟨Access.write_g_found, true⟩]) ∧
    (∀ e, e ∈ search_one_body_events toy_key_schedule toy_encrypt (search_one_template 0 0 0)
        0 0 (init_globals (⟨0, 0⟩, ⟨1, 1⟩) 0 0 0 globals_zero) →
      ∀ mk, e.access = Access.write_g_found_key mk → e.in_critical = false) ∧
    (∃ e, e ∈ search_one_body_events toy_key_schedule toy_encrypt (search_one_template 0 0 0)
        0 0 (init_globals (⟨0, 0⟩, ⟨1, 1⟩) 0 0 0 globals_zero) ∧
      e.access = Access.write_g_found_key (candidate_key (search_one_template 0 0 0) 0 0) ∧
      e.in_critical = false) ∧
    (∀ e, e ∈ search_one_body_events toy_key_schedule toy_encrypt (search_one_template 0 0 0)
        0 0 (init_globals (⟨0, 0⟩, ⟨1, 1⟩) 0 0 0 globals_zero) →
      e.in_critical = true → e.access = Access.write_g_found) ∧
    ((((search_one_body_events toy_key_schedule toy_encrypt (search_one_template 0 0 0) 0 0
          (init_globals (⟨0, 0⟩, ⟨1, 1⟩) 0 0 0 globals_zero)).take 1 ++
        (search_one_body_events toy_key_schedule toy_encrypt (search_one_template 0 0 0) 0 1
          (init_globals (⟨0, 0⟩, ⟨1, 1⟩) 0 0 0 globals_zero)).take 1 ++
        (search_one_body_events toy_key_schedule toy_encrypt (search_one_template 0 0 0) 0 0
          (init_globals (⟨0, 0⟩, ⟨1, 1⟩) 0 0 0 globals_zero)).drop 1).foldl
          apply_event (init_globals (⟨0, 0⟩, ⟨1, 1⟩) 0 0 0 globals_zero))
      = { init_globals (⟨0, 0⟩, ⟨1, 1⟩) 0 0 0 globals_zero with
          g_found := 1, g_found_key := candidate_key (search_one_template 0 0 0) 0 0 }) ∧
    ((((search_one_body_events toy_key_schedule toy_encrypt (search_one_template 0 0 0) 0 0
          (init_globals (⟨0, 0⟩, ⟨1, 1⟩) 0 0 0 globals_zero)).take 1 ++
        (search_one_body_events toy_key_schedule toy_encrypt (search_one_template 0 0 0) 0 1
          (init_globals (⟨0, 0⟩, ⟨1, 1⟩) 0 0 0 globals_zero)).take 1 ++
        (search_one_body_events toy_key_schedule toy_encrypt (search_one_template 0 0 0) 0 0
          (init_globals (⟨0, 0⟩, ⟨1, 1⟩) 0 0 0 globals_zero)).drop 1 ++
        (search_one_body_events toy_key_schedule toy_encrypt (search_one_template 0 0 0) 0 1
          (init_globals (⟨0, 0⟩, ⟨1, 1⟩) 0 0 0 globals_zero)).drop 1).foldl
          apply_event (init_globals (⟨0, 0⟩, ⟨1, 1⟩) 0 0 0 globals_zero))
      = { init_globals (⟨0, 0⟩, ⟨1, 1⟩) 0 0 0 globals_zero with
          g_found := 1, g_found_key := candidate_key (search_one_template 0 0 0) 0 1 }) ∧
    ((search_one_body_events toy_key_schedule toy_encrypt (search_one_template 0 0 0) 0 0
        (init_globals (⟨0, 0⟩, ⟨1, 1⟩) 0 0 0 globals_zero)).foldl apply_event
        (init_globals (⟨0, 0⟩, ⟨1, 1⟩) 0 0 0 globals_zero)
      = search_one_body toy_key_schedule toy_encrypt (search_one_template 0 0 0) 0 0
          (init_globals (⟨0, 0⟩, ⟨1, 1⟩) 0 0 0 globals_zero))) :=
  ⟨⟨rfl, by decide⟩,
   C22_found_key_written_outside_critical toy_key_schedule toy_encrypt
     (search_one_template 0 0 0) 0 0 1 (init_globals (⟨0, 0⟩, ⟨1, 1⟩) 0 0 0 globals_zero)
     rfl ⟨rfl, rfl⟩ ⟨rfl, rfl⟩⟩

end MGFN
